import Mathlib

/-!
# OpenPCR thermocycler control loop

A shallow embedding of `arduino/OpenPCR/thermocycler.cpp` and `thermocycler.h`.

Conventions of the embedding:

* `double` and `float` quantities (temperatures, drive values) are exact rationals `ℚ`;
* `unsigned long` quantities are natural numbers, and every arithmetic operation the source
  performs on them is taken modulo `2 ^ 32` (`ulSub`, `ulAdd`, `ulMul`);
* a pointer is an `Option`; dereferencing a null pointer makes the operation return `none`;
* one call of `Loop` reads the hardware once: the readings of that tick (power pin, clock,
  the two temperatures, the serial and storage collaborators, the control laws of the two
  PID collaborators) are gathered in a `TickInput`;
* the four output pins written by `SetPeltier` and `ControlLid` are recorded in the state
  (`Pins`), so that what was last written to an actuator can be stated;
* `Loop` is the control part of `Thermocycler::Loop`, up to and including `UpdateEta()`;
  `LoopAndProcess` is the source function to its last statement, with the dereferences of
  `ipDisplay->Update()` and the commands `ipSerialControl->Process()` dispatches.
-/

namespace OpenPCR

/-! ## Machine arithmetic -/

/-- Modulus of the 32-bit `unsigned long` type of the target. -/
def ULONG_MOD : Nat := 4294967296

/-- Subtraction of two `unsigned long` values: `a - b` modulo `2 ^ 32`. -/
def ulSub (a b : Nat) : Nat :=
  (a % ULONG_MOD + (ULONG_MOD - b % ULONG_MOD)) % ULONG_MOD

/-- Addition of two `unsigned long` values: `a + b` modulo `2 ^ 32`. -/
def ulAdd (a b : Nat) : Nat := (a + b) % ULONG_MOD

/-- Multiplication of two `unsigned long` values: `a * b` modulo `2 ^ 32`. -/
def ulMul (a b : Nat) : Nat := (a * b) % ULONG_MOD

/-- Conversion of a `double` to `unsigned long`: the fractional part is discarded and the
result is reduced modulo `2 ^ 32`. The C++ conversion of a negative value is undefined; it
is taken to give `0`. -/
def doubleToULong (x : ℚ) : Nat := (Int.toNat ⌊x⌋) % ULONG_MOD

/-- Conversion of a `double` to `int`: truncation toward zero. -/
def doubleToInt (x : ℚ) : Int := if 0 ≤ x then ⌊x⌋ else ⌈x⌉

/-- Modelled from the spec: the `absf` helper of `pcr_includes.h` (absent from the sources),
the absolute value of a floating point number ("absolute gap", "absolute temperature
deltas"). The Arduino `abs` macro used on two lines of `Loop` is the same function. -/
def absf (x : ℚ) : ℚ := |x|

/-! ## Constants of `thermocycler.cpp` -/

def CYCLE_START_TOLERANCE : ℚ := 2 / 10
def LID_START_TOLERANCE : ℚ := 1

def PLATE_PID_INC_P : ℚ := 1000
def PLATE_PID_INC_I : ℚ := 250
def PLATE_PID_INC_D : ℚ := 250

def PLATE_PID_INC_LOW_THRESHOLD : ℚ := 40
def PLATE_PID_INC_LOW_P : ℚ := 600
def PLATE_PID_INC_LOW_I : ℚ := 200
def PLATE_PID_INC_LOW_D : ℚ := 400

def PLATE_PID_DEC_HIGH_THRESHOLD : ℚ := 70
def PLATE_PID_DEC_HIGH_P : ℚ := 800
def PLATE_PID_DEC_HIGH_I : ℚ := 700
def PLATE_PID_DEC_HIGH_D : ℚ := 300

def PLATE_PID_DEC_P : ℚ := 500
def PLATE_PID_DEC_I : ℚ := 400
def PLATE_PID_DEC_D : ℚ := 200

def PLATE_PID_DEC_LOW_THRESHOLD : ℚ := 35
def PLATE_PID_DEC_LOW_P : ℚ := 2000
def PLATE_PID_DEC_LOW_I : ℚ := 100
def PLATE_PID_DEC_LOW_D : ℚ := 200

def LID_PID_P : ℚ := 100
def LID_PID_I : ℚ := 50
def LID_PID_D : ℚ := 50

def PLATE_BANGBANG_THRESHOLD : ℚ := 2
def LID_BANGBANG_THRESHOLD : ℚ := 2

def MIN_PELTIER_PWM : ℚ := -1023
def MAX_PELTIER_PWM : ℚ := 1023

def MAX_LID_PWM : ℚ := 255
def MIN_LID_PWM : ℚ := 0

def STARTUP_DELAY : Nat := 5000

/-! ## Calibration tables of `thermocycler.cpp` -/

/-- The table `PLATE_RESISTANCE_TABLE`, in 0.1 Ohms: entry `i` is the resistance at
temperature `-40 + i`. -/
def PLATE_RESISTANCE_TABLE : List Nat :=
  [
   3364790, 3149040, 2948480, 2761940, 2588380, 2426810, 2276320, 2136100, 2005390, 1883490,
   1769740, 1663560, 1564410, 1471770, 1385180, 1304210, 1228470, 1157590, 1091220, 1029060,
   970810, 916210, 865010, 816980, 771900, 729570, 689820, 652460, 617360, 584340,
   553290, 524070, 496560, 470660, 446260, 423270, 401590, 381150, 361870, 343680,
   326500, 310290, 294980, 280520, 266850, 253920, 241700, 230130, 219180, 208820,
   199010, 189710, 180900, 172550, 164630, 157120, 149990, 143230, 136810, 130720,
   124930, 119420, 114190, 109220, 104500, 100000, 95720, 91650, 87770, 84080,
   80570, 77220, 74020, 70980, 68080, 65310, 62670, 60150, 57750, 55450,
   53260, 51170, 49170, 47250, 45430, 43680, 42010, 40410, 38880, 37420,
   36020, 34680, 33400, 32170, 30990, 29860, 28780, 27740, 26750, 25790,
   24880, 24000, 23160, 22350, 21570, 20830, 20110, 19420, 18760, 18130,
   17520, 16930, 16370, 15820, 15300, 14800, 14320, 13850, 13400, 12970,
   12550, 12150, 11770, 11400, 11040, 10700, 10370, 10050, 9738, 9441,
   9155, 8878, 8612, 8354, 8106, 7866, 7635, 7412, 7196, 6987, 6786,
   6591, 6403, 6222, 6046, 5876 ]

/-- The table `LID_RESISTANCE_TABLE`, in Ohms: entry `i` is the resistance at temperature
`i`. -/
def LID_RESISTANCE_TABLE : List Nat :=
  [
   32919, 31270, 29715, 28246, 26858, 25547, 24307, 23135, 22026, 20977,
   19987, 19044, 18154, 17310, 16510, 15752, 15034, 14352, 13705, 13090,
   12507, 11953, 11427, 10927, 10452, 10000, 9570, 9161, 8771, 8401,
   8048, 7712, 7391, 7086, 6795, 6518, 6254, 6001, 5761, 5531, 5311,
   5102, 4902, 4710, 4528, 4353, 4186, 4026, 3874, 3728, 3588,
   3454, 3326, 3203, 3085, 2973, 2865, 2761, 2662, 2567, 2476,
   2388, 2304, 2223, 2146, 2072, 2000, 1932, 1866, 1803, 1742,
   1684, 1627, 1573, 1521, 1471, 1423, 1377, 1332, 1289, 1248,
   1208, 1170, 1133, 1097, 1063, 1030, 998, 968, 938, 909,
   882, 855, 829, 805, 781, 758, 735, 714, 693, 673,
   653, 635, 616, 599, 582, 565, 550, 534, 519, 505,
   491, 478, 465, 452, 440, 428, 416, 405, 395, 384,
   374, 364, 355, 345, 337 ]

/-! ## Enumerations of `thermocycler.h` -/

/-- The `Thermocycler::ProgramState` enumeration. -/
inductive ProgramState where
  | EOff
  | EStartup
  | EStopped
  | ELidWait
  | ERunning
  | EComplete
  | EError
  | EClear
  deriving DecidableEq

/-- The `Thermocycler::ThermalState` enumeration. -/
inductive ThermalState where
  | EHolding
  | EHeating
  | ECooling
  | EIdle
  deriving DecidableEq

/-- The `Thermocycler::ThermalDirection` enumeration. -/
inductive ThermalDirection where
  | OFF
  | HEAT
  | COOL
  deriving DecidableEq

/-- The `Thermocycler::ControlMode` enumeration. -/
inductive ControlMode where
  | EBangBang
  | EPID
  deriving DecidableEq

/-- Modelled from the spec: the `PcrStatus` enumeration of `pcr_includes.h` (absent from the
sources), the status returned by `Start`: `Success`, `NoProgram`, `NoPower`. -/
inductive PcrStatus where
  | ESuccess
  | ENoProgram
  | ENoPower
  deriving DecidableEq

/-! ## Program model (`program.h`, absent from the sources) -/

/-- Modelled from the spec: the `Step` class of `program.h` (absent from the sources), a leaf
program node with a target temperature, a hold duration in seconds and the flag marking it
the final step. -/
structure Step where
  iTemp : ℚ
  iDuration : Nat
  iFinal : Bool
  deriving DecidableEq

def Step.GetTemp (st : Step) : ℚ := st.iTemp

def Step.GetDuration (st : Step) : Nat := st.iDuration

def Step.IsFinal (st : Step) : Bool := st.iFinal

/-- Modelled from the spec: the `ProgramComponent` hierarchy of `program.h` (absent from the
sources): a component is a Step or a Cycle, a Cycle being a repeat count and an ordered
sequence of child components. -/
inductive ProgramComponent where
  | EStep : Step → ProgramComponent
  | ECycle : Nat → List ProgramComponent → ProgramComponent

mutual
/-- Modelled from the spec: the steps a component yields in the depth-first walk of
`GetNextStep`: a Step yields itself, a Cycle yields the steps of its children, in order, once
per repeat. -/
def ProgramComponent.traversal : ProgramComponent → List Step
  | .EStep st => [st]
  | .ECycle n cs => (List.replicate n (traversalList cs)).flatten
/-- Modelled from the spec: the steps yielded by a sequence of child components, in order. -/
def traversalList : List ProgramComponent → List Step
  | [] => []
  | c :: cs => c.traversal ++ traversalList cs
end

/-- Modelled from the spec: the `Cycle` class of `program.h` (absent from the sources): a
repeat count, the child components and the iteration cursor. The cursors of the walk (child
index and repeat counter of every nested Cycle) are represented by `iPosition`, the number
of steps the iteration has yielded since `BeginIteration`. -/
structure Cycle where
  iNumCycles : Nat
  iComponents : List ProgramComponent
  iPosition : Nat

def Cycle.GetNumCycles (c : Cycle) : Nat := c.iNumCycles

def Cycle.GetNumComponents (c : Cycle) : Nat := c.iComponents.length

def Cycle.GetComponent (c : Cycle) (i : Nat) : Option ProgramComponent := c.iComponents[i]?

/-- The whole sequence of steps an iteration of the Cycle yields. -/
def Cycle.traversal (c : Cycle) : List Step :=
  (ProgramComponent.ECycle c.iNumCycles c.iComponents).traversal

/-- The steps the iteration has still to yield. -/
def Cycle.remaining (c : Cycle) : List Step := c.traversal.drop c.iPosition

/-- Modelled from the spec: `Cycle::BeginIteration` resets the cursor. -/
def Cycle.BeginIteration (c : Cycle) : Cycle := { c with iPosition := 0 }

/-- Modelled from the spec: `Cycle::GetNextStep` returns the next step of the depth-first
walk and advances the cursor, or returns null when the Cycle is exhausted. -/
def Cycle.GetNextStep (c : Cycle) : Option Step × Cycle :=
  match c.traversal[c.iPosition]? with
  | some st => (some st, { c with iPosition := c.iPosition + 1 })
  | none => (none, c)

/-- Modelled from the spec: the `ProgramComponentPool` template of `program.h` (absent from
the sources), a fixed-capacity arena; `ResetPool` reclaims all slots at once. -/
structure ProgramComponentPool where
  iCapacity : Nat
  iAllocated : Nat
  deriving DecidableEq

def ProgramComponentPool.ResetPool (p : ProgramComponentPool) : ProgramComponentPool :=
  { p with iAllocated := 0 }

/-! ## The PID collaborator (`PID_v1.h`, absent from the sources) -/

/-- Modelled from the spec: the state of a PID collaborator that the control loop acts on:
its mode (automatic or manual), its tuning triple, its output limits and its accumulated
integral term. -/
structure PID where
  inAuto : Bool
  kp : ℚ
  ki : ℚ
  kd : ℚ
  outMin : ℚ
  outMax : ℚ
  ITerm : ℚ
  deriving DecidableEq

/-- The control law of a PID collaborator during one tick: from the collaborator's state, the
measured input and the setpoint it gives the new output and the new integral term. -/
abbrev PidLaw := PID → ℚ → ℚ → ℚ × ℚ

/-- Modelled from the spec: `PID::SetMode`. -/
def PID.SetMode (pid : PID) (automatic : Bool) : PID := { pid with inAuto := automatic }

/-- Modelled from the spec: `PID::SetTunings`. -/
def PID.SetTunings (pid : PID) (p i d : ℚ) : PID := { pid with kp := p, ki := i, kd := d }

/-- Modelled from the spec: `PID::SetOutputLimits`. -/
def PID.SetOutputLimits (pid : PID) (lo hi : ℚ) : PID := { pid with outMin := lo, outMax := hi }

/-- Modelled from the spec: `PID::ResetI`, the integral-term reset. -/
def PID.ResetI (pid : PID) : PID := { pid with ITerm := 0 }

/-- Modelled from the spec: `PID::Compute`. In manual mode the collaborator leaves the output
alone; in automatic mode the output is what its control law gives, clamped to the output
limits. -/
def PID.Compute (pid : PID) (law : PidLaw) (input setpoint output : ℚ) : PID × ℚ :=
  if pid.inAuto then
    ({ pid with ITerm := (law pid input setpoint).2 },
      max pid.outMin (min pid.outMax (law pid input setpoint).1))
  else (pid, output)

/-! ## Commands (`SCommand`, absent from the sources) -/

/-- Modelled from the spec: the discriminant of a command: Start, Stop or Config (`ENone` is
a command that is none of the three). -/
inductive SCommandType where
  | ENone
  | EStart
  | EStop
  | EConfig
  deriving DecidableEq

/-- The capacity of the program-name buffer `char iszProgName[21]` of `thermocycler.h`: 20
characters and the terminating NUL. -/
def PROG_NAME_CAPACITY : Nat := 20

/-- A program name that fits the program-name buffer: a C string of at most 20 bytes. -/
structure ProgName where
  chars : String
  fits : chars.utf8ByteSize ≤ PROG_NAME_CAPACITY

/-- Modelled from the spec: the `SCommand` record handed to `ProcessCommand`, with the fields
`ProcessCommand` reads. The record is absent from the sources; its name is taken to fit the
program-name buffer it is copied to. -/
structure SCommand where
  command : SCommandType
  pProgram : Option Cycle
  name : ProgName
  lidTemp : Int
  contrast : Nat

/-! ## Thermocycler state -/

/-- The output pins written by `SetPeltier` (pins 2, 4 and 9) and `ControlLid` (pin 3). -/
structure Pins where
  pin2 : Bool
  pin4 : Bool
  pin9 : Int
  pin3 : Int
  deriving DecidableEq

/-- The data members of `class Thermocycler`. -/
structure Thermocycler where
  iCyclePool : ProgramComponentPool
  iStepPool : ProgramComponentPool
  iProgramState : ProgramState
  iPlateTemp : ℚ
  iTargetPlateTemp : ℚ
  iLidTemp : ℚ
  iTargetLidTemp : ℚ
  ipProgram : Option Cycle
  ipDisplayCycle : Option Cycle
  iszProgName : String
  ipCurrentStep : Option Step
  iCycleStartTime : Nat
  iRamping : Bool
  iDecreasing : Bool
  iRestarted : Bool
  iPlateControlMode : ControlMode
  iLidControlMode : ControlMode
  iPlatePid : PID
  iLidPid : PID
  iThermalDirection : ThermalDirection
  iPeltierPwm : ℚ
  iLidPwm : ℚ
  iProgramStartTimeMs : Nat
  iProgramHoldDurationS : Nat
  iProgramRampDegrees : ℚ
  iElapsedRampDegrees : ℚ
  iElapsedRampDurationMs : Nat
  iRampStartTemp : ℚ
  iRampStartTime : Nat
  iEstimatedTimeRemainingS : Nat
  iHasCooled : Bool
  pins : Pins

/-- What one call of `Loop` reads from the hardware and from its collaborators. -/
structure TickInput where
  /-- `digitalRead(A0)` in `CheckPower`. -/
  externalPower : Bool
  /-- `millis()`. -/
  millis : Nat
  /-- The temperature `ReadPlateTemp` stores in `iPlateTemp`. -/
  plateTemp : ℚ
  /-- The temperature `ReadLidTemp` stores in `iLidTemp`. -/
  lidTemp : ℚ
  /-- `ipSerialControl->CommandReceived()`. -/
  commandReceived : Bool
  /-- The command `ProgramStore::RetrieveProgram` gives, if it gives one. -/
  storedProgram : Option SCommand
  /-- The control law of the plate PID collaborator at this tick. -/
  platePidLaw : PidLaw
  /-- The control law of the lid PID collaborator at this tick. -/
  lidPidLaw : PidLaw

namespace Thermocycler

/-! ## Accessors -/

def GetProgramState (s : Thermocycler) : ProgramState := s.iProgramState

def GetCurrentStep (s : Thermocycler) : Option Step := s.ipCurrentStep

def GetTimeRemainingS (s : Thermocycler) : Nat := s.iEstimatedTimeRemainingS

def GetElapsedTimeS (s : Thermocycler) (now : Nat) : Nat :=
  ulSub now s.iProgramStartTimeMs / 1000

/-- `Thermocycler::GetThermalState`. The source tests `iThermalDirection == EOff`: `EOff` and
`OFF` are both the value 0 of their enumerations. -/
def GetThermalState (s : Thermocycler) : ThermalState :=
  if s.iThermalDirection = ThermalDirection.OFF then ThermalState.EIdle
  else if s.iRamping = true then
    (if s.iThermalDirection = ThermalDirection.HEAT then ThermalState.EHeating
     else ThermalState.ECooling)
  else ThermalState.EHolding

/-- `Thermocycler::GetNumCycles`: `ipDisplayCycle->GetNumCycles()`, a null dereference
(`none`) when the display cycle pointer is null. `GetCurrentCycleNum` dereferences the same
pointer. -/
def GetNumCycles (s : Thermocycler) : Option Nat := s.ipDisplayCycle.map Cycle.GetNumCycles

/-! ## Target assignment

Every operation below is written as one update of the record it receives: the value each
member has when the source function returns is given as an expression of the members on
entry, in the order of the source statements. -/

def SetPlateTarget (s : Thermocycler) (target : ℚ) (now : Nat) : Thermocycler :=
  -- if (iTargetPlateTemp != target) { iRamping = true; iRampStartTime = millis();
  --   iRampStartTemp = iPlateTemp; } else { iCycleStartTime = millis(); }
  let changed : Prop := s.iTargetPlateTemp ≠ target
  let ramping : Bool := if changed then true else s.iRamping
  -- if (absf(iTargetPlateTemp - iPlateTemp) >= PLATE_BANGBANG_THRESHOLD), on the new target
  let bangBang : Prop := absf (target - s.iPlateTemp) ≥ PLATE_BANGBANG_THRESHOLD
  let pid : PID := if bangBang then s.iPlatePid.SetMode false else s.iPlatePid.SetMode true
  { s with
    iRamping := ramping,
    iRampStartTime := if changed then now else s.iRampStartTime,
    iRampStartTemp := if changed then s.iPlateTemp else s.iRampStartTemp,
    iCycleStartTime := if changed then s.iCycleStartTime else now,
    iTargetPlateTemp := target,
    iPlateControlMode := if bangBang then ControlMode.EBangBang else ControlMode.EPID,
    -- if (iRamping) { if (iTargetPlateTemp >= iPlateTemp) ... else ... }
    iDecreasing :=
      if ramping = true then (if target ≥ s.iPlateTemp then false else true)
      else s.iDecreasing,
    iPlatePid :=
      if ramping = true then
        if target ≥ s.iPlateTemp then
          if target < PLATE_PID_INC_LOW_THRESHOLD then
            pid.SetTunings PLATE_PID_INC_LOW_P PLATE_PID_INC_LOW_I PLATE_PID_INC_LOW_D
          else
            pid.SetTunings PLATE_PID_INC_P PLATE_PID_INC_I PLATE_PID_INC_D
        else
          if target > PLATE_PID_DEC_HIGH_THRESHOLD then
            pid.SetTunings PLATE_PID_DEC_HIGH_P PLATE_PID_DEC_HIGH_I PLATE_PID_DEC_HIGH_D
          else if target < PLATE_PID_DEC_LOW_THRESHOLD then
            pid.SetTunings PLATE_PID_DEC_LOW_P PLATE_PID_DEC_LOW_I PLATE_PID_DEC_LOW_D
          else
            pid.SetTunings PLATE_PID_DEC_P PLATE_PID_DEC_I PLATE_PID_DEC_D
      else pid }

def SetLidTarget (s : Thermocycler) (target : ℚ) : Thermocycler :=
  let bangBang : Prop := absf (target - s.iLidTemp) ≥ LID_BANGBANG_THRESHOLD
  { s with
    iTargetLidTemp := target,
    iLidControlMode := if bangBang then ControlMode.EBangBang else ControlMode.EPID,
    iLidPid := if bangBang then s.iLidPid.SetMode false else s.iLidPid.SetMode true }

/-! ## Control: `Stop`, `SetProgram`, `Start` -/

/-- `Thermocycler::Stop` (the call `ipDisplay->Clear()` acts on the display collaborator
only). -/
def Stop (s : Thermocycler) : Thermocycler :=
  { s with
    iProgramState :=
      if s.iProgramState ≠ ProgramState.EOff then ProgramState.EStopped else s.iProgramState,
    ipProgram := none,
    ipCurrentStep := none,
    iStepPool := s.iStepPool.ResetPool,
    iCyclePool := s.iCyclePool.ResetPool }

/-- `Thermocycler::SetProgram`. The call `strcpy(iszProgName, szProgName)` copies the name
and its terminating NUL into the 21-byte buffer without a length check: a name of more than
20 bytes is written past the end of the buffer, over the members declared after it
(`ipCurrentStep` first). That write is undefined behaviour: the result is `none`. -/
def SetProgram (s : Thermocycler) (pProgram pDisplayCycle : Option Cycle)
    (szProgName : String) (lidTemp : Int) : Option Thermocycler :=
  if szProgName.utf8ByteSize > PROG_NAME_CAPACITY then none
  else
    some (SetLidTarget
      { s.Stop with ipProgram := pProgram, ipDisplayCycle := pDisplayCycle,
                    iszProgName := szProgName }
      (lidTemp : ℚ))

def Start (s : Thermocycler) : PcrStatus × Thermocycler :=
  if s.ipProgram.isNone then (PcrStatus.ENoProgram, s)
  else if s.iProgramState = ProgramState.EOff then (PcrStatus.ENoPower, s)
  else (PcrStatus.ESuccess, { s with iProgramState := ProgramState.ELidWait })

/-! ## Commands -/

/-- The display-cycle search of `ProcessCommand`: the loop over the components of the
program, carrying `largestCycleCount` and `pDisplayCycle`. -/
def findDisplayCycle : List ProgramComponent → Nat → Cycle → Cycle
  | [], _, pDisplayCycle => pDisplayCycle
  | ProgramComponent.EStep _ :: rest, largestCycleCount, pDisplayCycle =>
      findDisplayCycle rest largestCycleCount pDisplayCycle
  | ProgramComponent.ECycle n cs :: rest, largestCycleCount, pDisplayCycle =>
      if n > largestCycleCount then
        findDisplayCycle rest n { iNumCycles := n, iComponents := cs, iPosition := 0 }
      else
        findDisplayCycle rest largestCycleCount pDisplayCycle

/-- `Thermocycler::ProcessCommand`. A Start command whose program pointer is null is a null
dereference (`none`). A Config command acts on the display and storage collaborators
only. -/
def ProcessCommand (s : Thermocycler) (command : SCommand) : Option Thermocycler :=
  if command.command = SCommandType.EStart then
    match command.pProgram with
    | none => none
    | some pProgram =>
        let pDisplayCycle := findDisplayCycle pProgram.iComponents 0 pProgram
        match
          s.SetProgram (some pProgram) (some pDisplayCycle) command.name.chars
            command.lidTemp with
        | none => none
        | some s1 => some s1.Start.2
  else if command.command = SCommandType.EStop then
    some s.Stop
  else
    some s

/-! ## The control tick -/

def CheckPower (s : Thermocycler) (externalPower : Bool) (now : Nat) : Thermocycler :=
  if externalPower = true ∧ s.iProgramState = ProgramState.EOff then
    { s with iProgramState := ProgramState.EStartup, iProgramStartTimeMs := now }
  else if externalPower = false ∧ s.iProgramState ≠ ProgramState.EOff then
    { s.Stop with iProgramState := ProgramState.EOff }
  else s

def SetPeltier (s : Thermocycler) (dir : ThermalDirection) (pwm : Int) : Thermocycler :=
  { s with pins :=
      { s.pins with pin2 := decide (dir = ThermalDirection.COOL),
                    pin4 := decide (dir = ThermalDirection.HEAT),
                    pin9 := pwm } }

def ControlPeltier (s : Thermocycler) (law : PidLaw) : Thermocycler :=
  let active : Prop :=
    s.iProgramState = ProgramState.ERunning ∨
      (s.iProgramState = ProgramState.EComplete ∧ s.ipCurrentStep ≠ none)
  -- check whether we should switch to PID control
  let toPid : Prop :=
    s.iPlateControlMode = ControlMode.EBangBang ∧
      absf (s.iTargetPlateTemp - s.iPlateTemp) < PLATE_BANGBANG_THRESHOLD
  let mode : ControlMode := if toPid then ControlMode.EPID else s.iPlateControlMode
  let pid1 : PID := if toPid then (s.iPlatePid.SetMode true).ResetI else s.iPlatePid
  -- apply control mode
  let pwm1 : ℚ :=
    if mode = ControlMode.EBangBang then
      (if s.iTargetPlateTemp > s.iPlateTemp then MAX_PELTIER_PWM else MIN_PELTIER_PWM)
    else s.iPeltierPwm
  -- iPlatePid.Compute()
  let r : PID × ℚ := pid1.Compute law s.iPlateTemp s.iTargetPlateTemp pwm1
  -- if (iDecreasing && iTargetPlateTemp > PLATE_PID_DEC_LOW_THRESHOLD)
  let windup : Prop :=
    s.iDecreasing = true ∧ s.iTargetPlateTemp > PLATE_PID_DEC_LOW_THRESHOLD
  let pid2 : PID :=
    if windup then (if s.iTargetPlateTemp < s.iPlateTemp then r.1.ResetI else r.1) else r.1
  let decreasing : Bool :=
    if windup then (if s.iTargetPlateTemp < s.iPlateTemp then s.iDecreasing else false)
    else s.iDecreasing
  let pwm : ℚ := if active then r.2 else 0
  let newDirection : ThermalDirection :=
    if active then
      (if r.2 > 0 then ThermalDirection.HEAT
       else if r.2 < 0 then ThermalDirection.COOL
       else ThermalDirection.OFF)
    else ThermalDirection.OFF
  SetPeltier
    { s with
      iPlateControlMode := if active then mode else s.iPlateControlMode,
      iPlatePid := if active then pid2 else s.iPlatePid,
      iDecreasing := if active then decreasing else s.iDecreasing,
      iPeltierPwm := pwm,
      iThermalDirection := newDirection }
    newDirection (doubleToInt (absf pwm))

def ControlLid (s : Thermocycler) (law : PidLaw) : Thermocycler :=
  let active : Prop :=
    s.iProgramState = ProgramState.ERunning ∨ s.iProgramState = ProgramState.ELidWait
  -- check whether we should switch to PID control
  let toPid : Prop :=
    s.iLidControlMode = ControlMode.EBangBang ∧
      absf (s.iTargetLidTemp - s.iLidTemp) < LID_BANGBANG_THRESHOLD
  let mode : ControlMode := if toPid then ControlMode.EPID else s.iLidControlMode
  let pid1 : PID := if toPid then (s.iLidPid.SetMode true).ResetI else s.iLidPid
  let pwm1 : ℚ :=
    if mode = ControlMode.EBangBang then
      (if s.iTargetLidTemp > s.iLidTemp then MAX_LID_PWM else MIN_LID_PWM)
    else s.iLidPwm
  -- iLidPid.Compute(); drive = iLidPwm
  let r : PID × ℚ := pid1.Compute law s.iLidTemp s.iTargetLidTemp pwm1
  let drive : ℚ := if active then r.2 else 0
  { s with
    iLidControlMode := if active then mode else s.iLidControlMode,
    iLidPid := if active then r.1 else s.iLidPid,
    iLidPwm := if active then r.2 else 0,
    -- analogWrite(3, drive)
    pins := { s.pins with pin3 := doubleToInt drive } }

/-- `Thermocycler::UpdateEta`. The sum `iProgramHoldDurationS + iProgramRampDegrees *
secondPerDegree` is computed here in exact rational arithmetic; the code computes it in
floating point before the conversion to `unsigned long`, so the integer the code stores can
differ by one from the integer computed here where the exact sum is a whole number. -/
def UpdateEta (s : Thermocycler) (now : Nat) : Thermocycler :=
  let secondPerDegree : ℚ :=
    if s.iElapsedRampDegrees = 0 ∨ s.iHasCooled = false then 1
    else ((s.iElapsedRampDurationMs / 1000 : Nat) : ℚ) / s.iElapsedRampDegrees
  let estimatedDurationS : Nat :=
    doubleToULong ((s.iProgramHoldDurationS : ℚ) + s.iProgramRampDegrees * secondPerDegree)
  let elapsedTimeS : Nat := s.GetElapsedTimeS now
  { s with iEstimatedTimeRemainingS :=
      if s.iProgramState = ProgramState.ERunning then
        (if estimatedDurationS > elapsedTimeS then estimatedDurationS - elapsedTimeS else 0)
      else s.iEstimatedTimeRemainingS }

/-- The budget scan of the `ELidWait` case of `Loop`: the `while` loop over the steps the
iterator yields, up to the first null or final step, carrying `iProgramHoldDurationS`,
`iProgramRampDegrees` and `lastTemp`. -/
def budgetScan : List Step → Nat → ℚ → ℚ → Nat × ℚ
  | [], hold, ramp, _ => (hold, ramp)
  | pStep :: rest, hold, ramp, lastTemp =>
      if pStep.IsFinal then (hold, ramp)
      else
        budgetScan rest (ulAdd hold pStep.GetDuration)
          (if lastTemp ≠ pStep.GetTemp then
            ramp + (absf (lastTemp - pStep.GetTemp) - CYCLE_START_TOLERANCE)
           else ramp)
          pStep.GetTemp

/-- The `switch (iProgramState)` statement of `Loop`. -/
def advanceProgram (s : Thermocycler) (t : TickInput) : Option Thermocycler :=
  match s.iProgramState with
  | ProgramState.EStartup =>
      if ulSub t.millis s.iProgramStartTimeMs > STARTUP_DELAY then
        let s1 : Thermocycler := { s with iProgramState := ProgramState.EStopped }
        if s1.iRestarted = false ∧ t.commandReceived = false then
          -- check for stored program
          match t.storedProgram with
          | some command => s1.ProcessCommand command
          | none => some s1
        else some s1
      else some s
  | ProgramState.ELidWait =>
      if s.iLidTemp ≥ s.iTargetLidTemp - LID_START_TOLERANCE then
        -- advance to running state
        match s.ipProgram with
        | none => none
        | some pProgram =>
            let scan := budgetScan pProgram.BeginIteration.remaining 0 0 s.iPlateTemp
            let r := pProgram.BeginIteration.GetNextStep
            match r.1 with
            | none => none
            | some pStep =>
                let s1 : Thermocycler :=
                  { s with iProgramHoldDurationS := scan.1,
                           iProgramRampDegrees := scan.2,
                           iElapsedRampDurationMs := 0,
                           iElapsedRampDegrees := 0,
                           iEstimatedTimeRemainingS := 0,
                           iHasCooled := false,
                           iProgramState := ProgramState.ERunning,
                           iThermalDirection := ThermalDirection.OFF,
                           iPeltierPwm := 0,
                           ipProgram := some r.2,
                           ipCurrentStep := some pStep }
                let s2 := s1.SetPlateTarget pStep.GetTemp t.millis
                some { s2 with iRamping := true, iProgramStartTimeMs := t.millis }
      else some s
  | ProgramState.ERunning =>
      match s.ipCurrentStep with
      | none => none
      | some pCurrent =>
          if s.iRamping = true ∧
              absf (pCurrent.GetTemp - s.iPlateTemp) ≤ CYCLE_START_TOLERANCE then
            -- eta updates
            some { s with
              iElapsedRampDegrees :=
                s.iElapsedRampDegrees + absf (s.iPlateTemp - s.iRampStartTemp),
              iElapsedRampDurationMs :=
                ulAdd s.iElapsedRampDurationMs (ulSub t.millis s.iRampStartTime),
              iHasCooled := if s.iRampStartTemp > s.iPlateTemp then true else s.iHasCooled,
              iRamping := false,
              iCycleStartTime := t.millis }
          else if s.iRamping = false ∧ pCurrent.IsFinal = false ∧
              ulSub t.millis s.iCycleStartTime > ulMul pCurrent.GetDuration 1000 then
            match s.ipProgram with
            | none => none
            | some pProgram =>
                let r := pProgram.GetNextStep
                let s1 : Thermocycler := { s with ipProgram := some r.2, ipCurrentStep := r.1 }
                match r.1 with
                | some pNext =>
                    let s2 := s1.SetPlateTarget pNext.GetTemp t.millis
                    -- check for program completion
                    if pNext.GetDuration = 0 then
                      some { s2 with iProgramState := ProgramState.EComplete }
                    else some s2
                | none => some { s1 with iProgramState := ProgramState.EComplete }
          else some s
  | ProgramState.EComplete =>
      match s.ipCurrentStep with
      | some pCurrent =>
          if s.iRamping = true ∧
              absf (pCurrent.GetTemp - s.iPlateTemp) ≤ CYCLE_START_TOLERANCE then
            some { s with iRamping := false }
          else some s
      | none => some s
  | _ => some s

/-- The control part of `Thermocycler::Loop`: every statement up to and including
`UpdateEta()`. The calls `ReadPlateTemp()` and `ReadLidTemp()` store the two temperatures of
the tick; every `millis()` of the tick reads the same clock value. The result is `none` when
the tick dereferences a null pointer. The two statements that end the source function,
`ipDisplay->Update()` and `ipSerialControl->Process()`, are `Display.Update` and
`SerialControl.Process`; `LoopAndProcess` is the source function to its last statement. -/
def Loop (s : Thermocycler) (t : TickInput) : Option Thermocycler :=
  let s1 := s.CheckPower t.externalPower t.millis
  let s2 : Thermocycler := { s1 with iPlateTemp := t.plateTemp, iLidTemp := t.lidTemp }
  match s2.advanceProgram t with
  | none => none
  | some s3 =>
      some (((s3.ControlPeltier t.platePidLaw).ControlLid t.lidPidLaw).UpdateEta t.millis)

/-- The local variable `estimatedDurationS` of `UpdateEta`: the hold budget plus the ramp
budget scaled by the seconds-per-degree rate, converted to `unsigned long`. -/
def estimatedDurationS (s : Thermocycler) : Nat :=
  doubleToULong ((s.iProgramHoldDurationS : ℚ) + s.iProgramRampDegrees *
    (if s.iElapsedRampDegrees = 0 ∨ s.iHasCooled = false then 1
     else ((s.iElapsedRampDurationMs / 1000 : Nat) : ℚ) / s.iElapsedRampDegrees))

/-! ## Sequences of control ticks -/

/-- A sequence of plate control ticks with no target assignment in between: before each
`ControlPeltier` the sensor read of the tick stores the measured plate temperature. Each
element of the list is the measured temperature and the control law of one tick. -/
def plateControlRun : Thermocycler → List (ℚ × PidLaw) → Thermocycler
  | s, [] => s
  | s, m :: rest =>
      plateControlRun (ControlPeltier { s with iPlateTemp := m.1 } m.2) rest

/-- A sequence of lid control ticks with no target assignment in between: before each
`ControlLid` the sensor read of the tick stores the measured lid temperature. -/
def lidControlRun : Thermocycler → List (ℚ × PidLaw) → Thermocycler
  | s, [] => s
  | s, m :: rest =>
      lidControlRun (ControlLid { s with iLidTemp := m.1 } m.2) rest

/-! ## Calibration lookup -/

/-- The linear search of `TableLookup`: the index `i` at which the `for` loop stops, which
is the number of entries when no entry is at or below the search value. -/
def tableScan : List Nat → Nat → Nat
  | [], _ => 0
  | entry :: rest, searchValue =>
      if searchValue ≥ entry then 0 else tableScan rest searchValue + 1

/-- `Thermocycler::TableLookup` (both overloads: they differ in the width of the table
entries only). The table is a list and `tableSize` the number of entries the search visits;
callers pass the size of the table. A read at an index outside the table gives `none`. The
conversions to `float` and the interpolation are exact. -/
def TableLookup (lookupTable : List Nat) (tableSize : Nat) (startValue : Int)
    (searchValue : Nat) : Option ℚ :=
  -- simple linear search for now
  let i : Nat := tableScan (lookupTable.take tableSize) searchValue
  if i > 0 then
    match lookupTable[i - 1]?, lookupTable[i]? with
    | some high_val, some low_val =>
        some ((((i : Int) + startValue : Int) : ℚ) -
          ((ulSub searchValue low_val : Nat) : ℚ) / ((ulSub high_val low_val : Nat) : ℚ))
    | _, _ => none
  else some (startValue : ℚ)

/-! ## The lid sensor -/

/-- The local variable `voltage_mv` of `ReadLidTemp`: `(unsigned long)analogRead(1) * 5000 /
1024`, for the reading `adc` of the analog pin. -/
def lidVoltageMv (adc : Nat) : Nat := ulMul adc 5000 / 1024

/-- The local variable `resistance` of `ReadLidTemp`: `voltage_mv * 2200 / (5000 -
voltage_mv)`. A division by zero gives `none`. -/
def lidResistance (adc : Nat) : Option Nat :=
  let voltage_mv := lidVoltageMv adc
  if ulSub 5000 voltage_mv = 0 then none
  else some (ulMul voltage_mv 2200 / ulSub 5000 voltage_mv)

/-- `Thermocycler::ReadLidTemp`, for the reading `adc` of the analog pin. -/
def ReadLidTemp (s : Thermocycler) (adc : Nat) : Option Thermocycler :=
  match lidResistance adc with
  | none => none
  | some resistance =>
      match TableLookup LID_RESISTANCE_TABLE LID_RESISTANCE_TABLE.length 0 resistance with
      | none => none
      | some temp => some { s with iLidTemp := temp }

end Thermocycler

set_option linter.dupNamespace false in
/-- The constructor `Thermocycler::Thermocycler(boolean restarted)`. The record `u` gives the
members the constructor leaves uninitialised and the freshly constructed collaborators. -/
def Thermocycler.Thermocycler (restarted : Bool) (u : Thermocycler) : Thermocycler :=
  { u with
    iRestarted := restarted,
    ipProgram := none,
    ipDisplayCycle := none,
    iProgramState := ProgramState.EOff,
    ipCurrentStep := none,
    iThermalDirection := ThermalDirection.OFF,
    iPeltierPwm := 0,
    iLidPwm := 0,
    iPlateTemp := 0,
    iLidTemp := 0,
    iCycleStartTime := 0,
    iRamping := true,
    iPlatePid := (u.iPlatePid.SetTunings PLATE_PID_INC_P PLATE_PID_INC_I
      PLATE_PID_INC_D).SetOutputLimits MIN_PELTIER_PWM MAX_PELTIER_PWM,
    iLidPid := (((u.iLidPid.SetTunings LID_PID_P LID_PID_I LID_PID_D).SetOutputLimits
      MIN_LID_PWM MAX_LID_PWM).SetMode true),
    iTargetLidTemp := 0,
    iCyclePool := { iCapacity := 4, iAllocated := 0 },
    iStepPool := { iCapacity := 20, iAllocated := 0 },
    iszProgName := "" }

/-! ## The display (`display.cpp`) -/

/-- The pointer a null dereference meets. -/
inductive NullPointer where
  | currentStep
  | displayCycle
  deriving DecidableEq

/-- The dereference of `Display::DisplayState`: in the Running and Complete states, when the
thermal state is Holding, the state label is `GetCurrentStep()->GetName()`. What the display
draws is left out; the result is the null pointer the call meets, if it meets one. -/
def Display.DisplayState (s : Thermocycler) : Except NullPointer Unit :=
  match s.GetProgramState with
  | ProgramState.ERunning | ProgramState.EComplete =>
      match s.GetThermalState with
      | ThermalState.EHolding =>
          match s.GetCurrentStep with
          | none => Except.error NullPointer.currentStep
          | some _ => Except.ok ()
      | _ => Except.ok ()
  | _ => Except.ok ()

/-- The dereferences of `Display::DisplayCycle`: `GetCurrentCycleNum()` and
`GetNumCycles()` both dereference the display cycle pointer. -/
def Display.DisplayCycle (s : Thermocycler) : Except NullPointer Unit :=
  match s.GetNumCycles with
  | none => Except.error NullPointer.displayCycle
  | some _ => Except.ok ()

/-- The dereferences of `Display::Update`: in the Running, Complete, LidWait and Stopped
states it calls `DisplayState()`; in the Running state it then evaluates
`GetCurrentStep()->IsFinal()` and, for a step that is not final, calls `DisplayCycle()`
(`DisplayEta()`, `DisplayLidTemp()` and `DisplayBlockTemp()` dereference no pointer of the
thermocycler). What the display draws is left out; the result is the null pointer the call
meets, if it meets one. -/
def Display.Update (s : Thermocycler) : Except NullPointer Unit :=
  let state := s.GetProgramState
  if state = ProgramState.ERunning ∨ state = ProgramState.EComplete ∨
      state = ProgramState.ELidWait ∨ state = ProgramState.EStopped then
    match Display.DisplayState s with
    | Except.error e => Except.error e
    | Except.ok _ =>
        if state = ProgramState.ERunning then
          match s.GetCurrentStep with
          | none => Except.error NullPointer.currentStep
          | some pStep =>
              if pStep.IsFinal = false then Display.DisplayCycle s else Except.ok ()
        else Except.ok ()
  else Except.ok ()

/-! ## The end of the tick -/

/-- Modelled from the spec: `SerialControl::Process` (the serial collaborator is absent from
the sources), which drains and dispatches any pending commands each tick: `ProcessCommand`
is applied to the pending commands, in order. -/
def SerialControl.Process : Thermocycler → List SCommand → Option Thermocycler
  | s, [] => some s
  | s, command :: rest =>
      match s.ProcessCommand command with
      | none => none
      | some s1 => SerialControl.Process s1 rest

/-- The whole of `Thermocycler::Loop`, to its last statement: the control part `Loop`, then
`ipDisplay->Update()` and `ipSerialControl->Process()`; `pending` are the commands the
serial collaborator has pending at this tick. The result is `none` when the tick
dereferences a null pointer. -/
def LoopAndProcess (s : Thermocycler) (t : TickInput) (pending : List SCommand) :
    Option Thermocycler :=
  match s.Loop t with
  | none => none
  | some s1 =>
      match Display.Update s1 with
      | Except.error _ => none
      | Except.ok _ => SerialControl.Process s1 pending

/-! ## Example data -/

/-- The program of the end-to-end scenario: one step at 95 degrees for 30 s inside a Cycle
repeated twice, followed by a final step of duration 0. -/
def scenarioProgram : Cycle :=
  { iNumCycles := 1,
    iComponents :=
      [ProgramComponent.ECycle 2
          [ProgramComponent.EStep { iTemp := 95, iDuration := 30, iFinal := false }],
        ProgramComponent.EStep { iTemp := 20, iDuration := 0, iFinal := true }],
    iPosition := 0 }

/-- A PID collaborator with every field zero. -/
def blankPid : PID :=
  { inAuto := false, kp := 0, ki := 0, kd := 0, outMin := 0, outMax := 0, ITerm := 0 }

/-- A thermocycler record with every member zero. -/
def blankState : Thermocycler :=
  { iCyclePool := { iCapacity := 4, iAllocated := 0 },
    iStepPool := { iCapacity := 20, iAllocated := 0 },
    iProgramState := ProgramState.EOff,
    iPlateTemp := 0, iTargetPlateTemp := 0, iLidTemp := 0, iTargetLidTemp := 0,
    ipProgram := none, ipDisplayCycle := none, iszProgName := "", ipCurrentStep := none,
    iCycleStartTime := 0, iRamping := false, iDecreasing := false, iRestarted := false,
    iPlateControlMode := ControlMode.EBangBang, iLidControlMode := ControlMode.EBangBang,
    iPlatePid := blankPid, iLidPid := blankPid,
    iThermalDirection := ThermalDirection.OFF, iPeltierPwm := 0, iLidPwm := 0,
    iProgramStartTimeMs := 0, iProgramHoldDurationS := 0, iProgramRampDegrees := 0,
    iElapsedRampDegrees := 0, iElapsedRampDurationMs := 0, iRampStartTemp := 0,
    iRampStartTime := 0, iEstimatedTimeRemainingS := 0, iHasCooled := false,
    pins := { pin2 := false, pin4 := false, pin9 := 0, pin3 := 0 } }

/-- The state the constructor gives: powered off, no program. -/
def initialState : Thermocycler := Thermocycler.Thermocycler false blankState

/-- A stopped thermocycler with the scenario program loaded and lid target 100. -/
def loadedState : Thermocycler :=
  { initialState with iProgramState := ProgramState.EStopped,
                      ipProgram := some scenarioProgram,
                      ipDisplayCycle := some scenarioProgram,
                      iTargetLidTemp := 100 }

/-- A powered-off thermocycler with the scenario program loaded. -/
def loadedOffState : Thermocycler :=
  { initialState with ipProgram := some scenarioProgram }

/-- A running thermocycler, ramping to the first step of the scenario program. -/
def runningState : Thermocycler :=
  { loadedState with iProgramState := ProgramState.ERunning,
                     ipProgram := some { scenarioProgram with iPosition := 1 },
                     ipCurrentStep := some { iTemp := 95, iDuration := 30, iFinal := false },
                     iTargetPlateTemp := 95,
                     iRamping := true }

/-- A thermocycler in Startup, powered at clock value 0, with no program. -/
def startupState : Thermocycler :=
  { initialState with iProgramState := ProgramState.EStartup }

/-- A running thermocycler holding the first step of the scenario program since clock
value 0. -/
def holdingState : Thermocycler :=
  { runningState with iRamping := false, iCycleStartTime := 0 }

/-- A running thermocycler cooling from 100 to the first step of the scenario program,
started at clock value 0, with a hold budget of 60 s and a ramp budget of 100 degrees. -/
def coolingState : Thermocycler :=
  { runningState with iRampStartTemp := 100, iRampStartTime := 0,
                      iProgramStartTimeMs := 0,
                      iProgramHoldDurationS := 60, iProgramRampDegrees := 100,
                      iElapsedRampDegrees := 0, iElapsedRampDurationMs := 0,
                      iHasCooled := false }

/-- A PID control law that always gives output 0 and integral term 0. -/
def zeroLaw : PidLaw := fun _ _ _ => (0, 0)

/-- A tick that reads the given power pin, clock, plate temperature and lid temperature,
with no serial command and no stored program. -/
def tickOf (power : Bool) (now : Nat) (plate lid : ℚ) : TickInput :=
  { externalPower := power, millis := now, plateTemp := plate, lidTemp := lid,
    commandReceived := false, storedProgram := none,
    platePidLaw := zeroLaw, lidPidLaw := zeroLaw }

/-- A tick at clock value 6000 at which the storage collaborator gives a Start command for
the scenario program. -/
def storedTick : TickInput :=
  { tickOf true 6000 25 25 with
    storedProgram := some { command := SCommandType.EStart, pProgram := some scenarioProgram,
                            name := ⟨"PCR", by decide⟩, lidTemp := 100, contrast := 0 } }

/-- A program whose root, of repeat count 1, has one child Cycle of repeat count 2, which
itself holds a Cycle of repeat count 30. -/
def nestedProgram : Cycle :=
  { iNumCycles := 1,
    iComponents :=
      [ProgramComponent.ECycle 2
          [ProgramComponent.ECycle 30
            [ProgramComponent.EStep { iTemp := 95, iDuration := 30, iFinal := false }]],
        ProgramComponent.EStep { iTemp := 20, iDuration := 0, iFinal := true }],
    iPosition := 0 }

/-- A program whose root, of repeat count 5, has one child Cycle of repeat count 2. -/
def repeatedRootProgram : Cycle :=
  { iNumCycles := 5,
    iComponents :=
      [ProgramComponent.ECycle 2
          [ProgramComponent.EStep { iTemp := 95, iDuration := 30, iFinal := false }],
        ProgramComponent.EStep { iTemp := 20, iDuration := 0, iFinal := true }],
    iPosition := 0 }

/-- A Start command for the given program, with lid target 100. -/
def startCommand (p : Cycle) : SCommand :=
  { command := SCommandType.EStart, pProgram := some p, name := ⟨"PCR", by decide⟩,
    lidTemp := 100,
    contrast := 0 }

/-! ## The display cycle of the specification -/

mutual
/-- The largest repeat count among the Cycles of a component, itself included, at any
depth: the quantity by which the specification chooses the display cycle. -/
def ProgramComponent.largestRepeatCount : ProgramComponent → Nat
  | .EStep _ => 0
  | .ECycle n cs => max n (largestRepeatCountList cs)
/-- The largest repeat count among the Cycles of a sequence of components, at any depth. -/
def largestRepeatCountList : List ProgramComponent → Nat
  | [] => 0
  | c :: cs => max c.largestRepeatCount (largestRepeatCountList cs)
end

/-- The largest repeat count in the program tree of a root Cycle, the root included. -/
def Cycle.largestRepeatCount (c : Cycle) : Nat :=
  (ProgramComponent.ECycle c.iNumCycles c.iComponents).largestRepeatCount

/-- A thermocycler waiting for the lid with the scenario program loaded and lid target
100. -/
def lidWaitState : Thermocycler :=
  { loadedState with iProgramState := ProgramState.ELidWait }

/-- A running thermocycler holding the first scenario step after a cooling ramp: plate at
94.9, target 95, not ramping, with the high-band cooling tunings and the decreasing flag
still set. -/
def cooledHoldState : Thermocycler :=
  { holdingState with iPlateTemp := 949 / 10,
                      iDecreasing := true,
                      iPlatePid := { blankPid with kp := 800, ki := 700, kd := 300 } }

/-! ## The run budgets of the specification -/

/-- The contribution of one transition between two temperatures to the ramp budget: the
absolute difference less the start tolerance 0.2 when the temperatures differ, nothing when
they are equal. -/
def pairRamp (a b : ℚ) : ℚ := if a ≠ b then |a - b| - 2 / 10 else 0

/-- The steps a traversal yields before its first final step. -/
def stepsBeforeFinal (steps : List Step) : List Step :=
  steps.takeWhile (fun st => !st.IsFinal)

/-- The ramp budget as the specification states it: the sum of `pairRamp` over the pairs of
consecutive steps. -/
def specRampBudget : List Step → ℚ
  | a :: b :: rest => pairRamp a.GetTemp b.GetTemp + specRampBudget (b :: rest)
  | _ => 0

/-- The hold budget as the specification states it: the sum of the durations of the
steps. -/
def specHoldBudget (steps : List Step) : Nat := (steps.map Step.GetDuration).sum

/-- The ramp from the measured plate temperature to the first step, which the budget scan
of `Loop` counts as well: `lastTemp` starts as `iPlateTemp`. -/
def firstRamp (plateTemp : ℚ) : List Step → ℚ
  | [] => 0
  | a :: _ => pairRamp plateTemp a.GetTemp

/-! ## Reachable states -/

/-- Every program the tick hands over yields at least one step: the command the storage
collaborator gives, when it is a Start command, carries a program whose iteration yields a
step. -/
def TickInput.storedYields (t : TickInput) : Prop :=
  ∀ c, t.storedProgram = some c → c.command = SCommandType.EStart →
    ∃ p, c.pProgram = some p ∧ p.traversal ≠ []

/-- The states reachable from the state the constructor leaves by calls of `Loop`, `Start`,
`Stop` and `SetProgram`, every program handed over being one whose iteration yields at least
one step. -/
inductive Reachable : Thermocycler → Prop where
  | init (restarted : Bool) (u : Thermocycler) :
      Reachable (Thermocycler.Thermocycler restarted u)
  | loop (s s1 : Thermocycler) (t : TickInput) :
      Reachable s → t.storedYields → s.Loop t = some s1 → Reachable s1
  | start (s : Thermocycler) : Reachable s → Reachable s.Start.2
  | stop (s : Thermocycler) : Reachable s → Reachable s.Stop
  | setProgram (s s1 : Thermocycler) (p : Cycle) (d : Option Cycle) (name : String)
      (lid : Int) :
      Reachable s → p.traversal ≠ [] → s.SetProgram (some p) d name lid = some s1 →
      Reachable s1

/-- The pointers the control tick dereferences without a guard are not null: the loaded
program yields a step, a program is loaded in LidWait, Running and Complete, and there is a
current step in Running. -/
def pointersValid (s : Thermocycler) : Prop :=
  (∀ p, s.ipProgram = some p → p.traversal ≠ []) ∧
  ((s.iProgramState = ProgramState.ELidWait ∨ s.iProgramState = ProgramState.ERunning ∨
      s.iProgramState = ProgramState.EComplete) → s.ipProgram ≠ none) ∧
  (s.iProgramState = ProgramState.ERunning → s.ipCurrentStep ≠ none)

/-- In a Complete state without a current step the plate actuator is off, so that the
thermal state is Idle. -/
def idleWhenDone (s : Thermocycler) : Prop :=
  s.iProgramState = ProgramState.EComplete → s.ipCurrentStep = none →
    s.iThermalDirection = ThermalDirection.OFF

/-- A Stop command. -/
def stopCommand : SCommand :=
  { command := SCommandType.EStop, pProgram := none, name := ⟨"", by decide⟩, lidTemp := 0,
    contrast := 0 }

/-- A name of 40 characters, longer than the program-name buffer. -/
def longName : String := "AAAAAAAAAAAAAAAAAAAAAAAAAAAAAAAAAAAAAAAA"

/-! ## The state machine of the specification -/

/-- The transitions of the program state machine as the specification lists them:
Off→Startup, Startup→Stopped, any state→Off, Stopped→LidWait, LidWait→Running,
Running→Complete. -/
def specTransition (a b : ProgramState) : Prop :=
  (a = ProgramState.EOff ∧ b = ProgramState.EStartup) ∨
  (a = ProgramState.EStartup ∧ b = ProgramState.EStopped) ∨
  b = ProgramState.EOff ∨
  (a = ProgramState.EStopped ∧ b = ProgramState.ELidWait) ∨
  (a = ProgramState.ELidWait ∧ b = ProgramState.ERunning) ∨
  (a = ProgramState.ERunning ∧ b = ProgramState.EComplete)

/-- The changes of program state `Loop` makes: Off→Startup, Startup→Stopped,
Startup→LidWait (a stored program is reloaded and started), any state→Off,
LidWait→Running, Running→Complete. -/
def loopTransition (a b : ProgramState) : Prop :=
  (a = ProgramState.EOff ∧ b = ProgramState.EStartup) ∨
  (a = ProgramState.EStartup ∧ b = ProgramState.EStopped) ∨
  (a = ProgramState.EStartup ∧ b = ProgramState.ELidWait) ∨
  b = ProgramState.EOff ∨
  (a = ProgramState.ELidWait ∧ b = ProgramState.ERunning) ∨
  (a = ProgramState.ERunning ∧ b = ProgramState.EComplete)

/-- The change of program state `Stop` makes: any state other than Off→Stopped. -/
def stopTransition (a b : ProgramState) : Prop :=
  a ≠ ProgramState.EOff ∧ b = ProgramState.EStopped

/-- The change of program state `Start` makes: any state other than Off→LidWait. -/
def startTransition (a b : ProgramState) : Prop :=
  a ≠ ProgramState.EOff ∧ b = ProgramState.ELidWait

/-- A running state in BangBang mode on both axes, both PID collaborators in manual mode,
with plate target 95 and lid target 100. -/
def bangBangState : Thermocycler :=
  { runningState with iPlateControlMode := ControlMode.EBangBang,
                      iLidControlMode := ControlMode.EBangBang,
                      iPlatePid := blankPid,
                      iLidPid := blankPid }

/-! ## `Start`, `Stop`, `SetProgram`, `CheckPower` -/

/-- C1: from every state whose program state is Stopped and in which a program is loaded,
`Start` returns Success and changes the program state to LidWait and nothing else. -/
theorem start_from_stopped (s : Thermocycler)
    (hState : s.iProgramState = ProgramState.EStopped) (hProg : s.ipProgram ≠ none) :
    s.Start = (PcrStatus.ESuccess, { s with iProgramState := ProgramState.ELidWait }) := by
  cases hp : s.ipProgram with
  | none => exact absurd hp hProg
  | some p => simp [Thermocycler.Start, hp, hState]

/-- C1 at the stopped state with the scenario program loaded. -/
theorem start_from_stopped_witness :
    loadedState.iProgramState = ProgramState.EStopped ∧ loadedState.ipProgram ≠ none ∧
    loadedState.Start =
      (PcrStatus.ESuccess, { loadedState with iProgramState := ProgramState.ELidWait }) :=
  ⟨rfl, by simp [loadedState], start_from_stopped loadedState rfl (by simp [loadedState])⟩

/-- C2: in every state in which no program is loaded, whatever the program state, `Start`
returns NoProgram and leaves the whole state unchanged. -/
theorem start_without_program (s : Thermocycler) (hProg : s.ipProgram = none) :
    s.Start = (PcrStatus.ENoProgram, s) := by
  simp [Thermocycler.Start, hProg]

/-- C2 at the constructor's state. -/
theorem start_without_program_witness :
    initialState.ipProgram = none ∧ initialState.Start = (PcrStatus.ENoProgram, initialState) :=
  ⟨rfl, start_without_program initialState rfl⟩

/-- C3 as stated fails: in the constructor's state (program state Off, no program loaded)
`Start` returns NoProgram, not NoPower. -/
theorem start_off_counterexample :
    initialState.iProgramState = ProgramState.EOff ∧
    initialState.Start.1 = PcrStatus.ENoProgram ∧
    initialState.Start.1 ≠ PcrStatus.ENoPower := by
  refine ⟨rfl, ?_, ?_⟩ <;> simp [Thermocycler.Start, initialState, Thermocycler.Thermocycler]

/-- C3 amended: in every state whose program state is Off, `Start` leaves the whole state
unchanged (the program state stays Off), and it returns NoPower exactly when a program is
loaded; with no program loaded it returns NoProgram. -/
theorem start_off (s : Thermocycler) (hState : s.iProgramState = ProgramState.EOff) :
    s.Start.2 = s ∧ s.Start.2.iProgramState = ProgramState.EOff ∧
    (s.Start.1 = PcrStatus.ENoPower ↔ s.ipProgram ≠ none) ∧
    (s.Start.1 = PcrStatus.ENoProgram ↔ s.ipProgram = none) := by
  cases hp : s.ipProgram with
  | none => simp [Thermocycler.Start, hp, hState]
  | some p => simp [Thermocycler.Start, hp, hState]

/-- C3 amended, at a powered-off state with the scenario program loaded. -/
theorem start_off_witness :
    loadedOffState.iProgramState = ProgramState.EOff ∧
    loadedOffState.Start.2 = loadedOffState ∧
    loadedOffState.Start.2.iProgramState = ProgramState.EOff ∧
    (loadedOffState.Start.1 = PcrStatus.ENoPower ↔ loadedOffState.ipProgram ≠ none) ∧
    (loadedOffState.Start.1 = PcrStatus.ENoProgram ↔ loadedOffState.ipProgram = none) :=
  ⟨rfl, start_off loadedOffState rfl⟩

/-- The three calls that end the state-machine part of `Loop` (`ControlPeltier`,
`ControlLid`, `UpdateEta`) leave the program members of the record alone. -/
theorem controls_frame (s : Thermocycler) (t : TickInput) :
    let s1 := ((s.ControlPeltier t.platePidLaw).ControlLid t.lidPidLaw).UpdateEta t.millis
    s1.iProgramState = s.iProgramState ∧ s1.ipProgram = s.ipProgram ∧
    s1.ipCurrentStep = s.ipCurrentStep ∧ s1.iStepPool = s.iStepPool ∧
    s1.iCyclePool = s.iCyclePool ∧ s1.iRamping = s.iRamping ∧
    s1.iCycleStartTime = s.iCycleStartTime ∧ s1.iTargetPlateTemp = s.iTargetPlateTemp ∧
    s1.iTargetLidTemp = s.iTargetLidTemp ∧ s1.iPlateTemp = s.iPlateTemp ∧
    s1.iLidTemp = s.iLidTemp ∧ s1.ipDisplayCycle = s.ipDisplayCycle ∧
    s1.iRestarted = s.iRestarted ∧ s1.iProgramStartTimeMs = s.iProgramStartTimeMs :=
  ⟨rfl, rfl, rfl, rfl, rfl, rfl, rfl, rfl, rfl, rfl, rfl, rfl, rfl, rfl⟩

/-- `Loop` is the power check and the sensor reads, then the state-machine step, then the
three control calls. -/
theorem Loop_of_advance (s s3 : Thermocycler) (t : TickInput)
    (h : Thermocycler.advanceProgram
      { s.CheckPower t.externalPower t.millis with
        iPlateTemp := t.plateTemp, iLidTemp := t.lidTemp } t = some s3) :
    s.Loop t =
      some (((s3.ControlPeltier t.platePidLaw).ControlLid t.lidPidLaw).UpdateEta t.millis) := by
  simp only [Thermocycler.Loop, h]

/-- C4: a power check that observes external power absent, in a state whose program state
is not Off, leaves the program state Off, the loaded program null, the current step null and
both pools reset; so does the whole `Loop` tick that starts with this power check. -/
theorem power_removed (s : Thermocycler) (t : TickInput)
    (hState : s.iProgramState ≠ ProgramState.EOff) (hPower : t.externalPower = false) :
    (s.CheckPower false t.millis).iProgramState = ProgramState.EOff ∧
    (s.CheckPower false t.millis).ipProgram = none ∧
    (s.CheckPower false t.millis).ipCurrentStep = none ∧
    (s.CheckPower false t.millis).iStepPool = s.iStepPool.ResetPool ∧
    (s.CheckPower false t.millis).iCyclePool = s.iCyclePool.ResetPool ∧
    (s.CheckPower false t.millis).iStepPool.iAllocated = 0 ∧
    (s.CheckPower false t.millis).iCyclePool.iAllocated = 0 ∧
    ∃ s1, s.Loop t = some s1 ∧
      s1.iProgramState = ProgramState.EOff ∧ s1.ipProgram = none ∧
      s1.ipCurrentStep = none ∧
      s1.iStepPool = s.iStepPool.ResetPool ∧ s1.iCyclePool = s.iCyclePool.ResetPool := by
  have hc : s.CheckPower false t.millis =
      { s.Stop with iProgramState := ProgramState.EOff } := by
    simp [Thermocycler.CheckPower, hState]
  refine ⟨by rw [hc], by rw [hc]; rfl, by rw [hc]; rfl, by rw [hc]; rfl, by rw [hc]; rfl,
    by rw [hc]; rfl, by rw [hc]; rfl, ?_⟩
  have hadv : Thermocycler.advanceProgram
      { s.CheckPower t.externalPower t.millis with
        iPlateTemp := t.plateTemp, iLidTemp := t.lidTemp } t =
      some { s.CheckPower false t.millis with
        iPlateTemp := t.plateTemp, iLidTemp := t.lidTemp } := by
    rw [hPower, hc]; rfl
  refine ⟨_, Loop_of_advance s _ t hadv, ?_⟩
  rw [hc]
  exact ⟨rfl, rfl, rfl, rfl, rfl⟩

/-- C4 at the stopped state with the scenario program loaded and a tick without power. -/
theorem power_removed_witness :
    loadedState.iProgramState ≠ ProgramState.EOff ∧
    (tickOf false 1000 25 25).externalPower = false ∧
    ∃ s1, loadedState.Loop (tickOf false 1000 25 25) = some s1 ∧
      s1.iProgramState = ProgramState.EOff ∧ s1.ipProgram = none ∧
      s1.ipCurrentStep = none :=
  ⟨by decide, rfl,
    match (power_removed loadedState (tickOf false 1000 25 25) (by decide) rfl).2.2.2.2.2.2.2 with
    | ⟨s1, h, h1, h2, h3, _⟩ => ⟨s1, h, h1, h2, h3⟩⟩

/-- `SetProgram` with a name that fits the program-name buffer. -/
theorem SetProgram_fits (s : Thermocycler) (p d : Option Cycle) (name : String) (t : Int)
    (hFits : name.utf8ByteSize ≤ PROG_NAME_CAPACITY) :
    s.SetProgram p d name t =
      some (Thermocycler.SetLidTarget
        { s.Stop with ipProgram := p, ipDisplayCycle := d, iszProgName := name } t) := by
  unfold Thermocycler.SetProgram
  rw [if_neg (not_lt.mpr hFits)]

/-- The result of `SetProgram`, when it has one, is the state after `Stop` with the program,
the display cycle, the name and the lid target installed. -/
theorem SetProgram_some (s s1 : Thermocycler) (p d : Option Cycle) (name : String) (t : Int)
    (h : s.SetProgram p d name t = some s1) :
    s1 = Thermocycler.SetLidTarget
      { s.Stop with ipProgram := p, ipDisplayCycle := d, iszProgName := name } t := by
  unfold Thermocycler.SetProgram at h
  split_ifs at h
  exact (Option.some.inj h).symm

/-- From every state, `SetProgram(p, d, name, t)` with a name of at most 20 bytes is a full
`Stop` followed by the installation of the new program: afterwards the loaded program is
`p`, the display cycle is `d`, the name is `name`, the current step is null, both pools are
reset, the lid target is `t`, and the program state is Stopped if it was not Off before and
Off if it was. -/
theorem set_program_installs (s : Thermocycler) (p d : Cycle) (name : String) (t : Int)
    (hFits : name.utf8ByteSize ≤ PROG_NAME_CAPACITY) :
    ∃ s1, s.SetProgram (some p) (some d) name t = some s1 ∧
      s1.ipProgram = some p ∧
      s1.ipDisplayCycle = some d ∧
      s1.iszProgName = name ∧
      s1.ipCurrentStep = none ∧
      s1.iStepPool = s.iStepPool.ResetPool ∧
      s1.iCyclePool = s.iCyclePool.ResetPool ∧
      s1.iStepPool.iAllocated = 0 ∧
      s1.iCyclePool.iAllocated = 0 ∧
      s1.iTargetLidTemp = t ∧
      s1.iProgramState =
        (if s.iProgramState = ProgramState.EOff then ProgramState.EOff
         else ProgramState.EStopped) := by
  refine ⟨_, SetProgram_fits s (some p) (some d) name t hFits,
    rfl, rfl, rfl, rfl, rfl, rfl, rfl, rfl, rfl, ?_⟩
  show (if s.iProgramState ≠ ProgramState.EOff then ProgramState.EStopped
    else s.iProgramState) = _
  by_cases h : s.iProgramState = ProgramState.EOff <;> simp [h]

/-- C5, the failing input: in the Running state of the scenario, with an active step,
`SetProgram` with a name of 40 characters copies 41 bytes into the 21-byte program-name
buffer, past its end and over `ipCurrentStep`, the member declared after it: the call has no
defined result, where the claim says the current step is null afterwards. -/
theorem set_program_overflow :
    runningState.iProgramState = ProgramState.ERunning ∧
    runningState.ipCurrentStep ≠ none ∧
    longName.utf8ByteSize = 40 ∧
    PROG_NAME_CAPACITY = 20 ∧
    runningState.SetProgram (some scenarioProgram) (some scenarioProgram) longName 100 =
      none := by
  refine ⟨rfl, by decide, by decide, rfl, ?_⟩
  unfold Thermocycler.SetProgram
  rw [if_pos (by decide)]

/-- C10: for every measured temperature and every target, `SetPlateTarget` leaves the plate
control mode equal to BangBang if and only if |target - measured| >= 2.0, and otherwise
equal to PID with the plate PID collaborator in automatic mode; the stored plate target is
the argument. The same holds of `SetLidTarget` for the lid. -/
theorem set_target_mode (s : Thermocycler) (target : ℚ) (now : Nat) :
    ((s.SetPlateTarget target now).iPlateControlMode = ControlMode.EBangBang ↔
      |target - s.iPlateTemp| ≥ 2) ∧
    (¬ |target - s.iPlateTemp| ≥ 2 →
      (s.SetPlateTarget target now).iPlateControlMode = ControlMode.EPID ∧
      (s.SetPlateTarget target now).iPlatePid.inAuto = true) ∧
    (s.SetPlateTarget target now).iTargetPlateTemp = target ∧
    (s.SetPlateTarget target now).iPlateTemp = s.iPlateTemp ∧
    ((s.SetLidTarget target).iLidControlMode = ControlMode.EBangBang ↔
      |target - s.iLidTemp| ≥ 2) ∧
    (¬ |target - s.iLidTemp| ≥ 2 →
      (s.SetLidTarget target).iLidControlMode = ControlMode.EPID ∧
      (s.SetLidTarget target).iLidPid.inAuto = true) ∧
    (s.SetLidTarget target).iTargetLidTemp = target ∧
    (s.SetLidTarget target).iLidTemp = s.iLidTemp := by
  refine ⟨?_, ?_, rfl, rfl, ?_, ?_, rfl, rfl⟩
  · by_cases h : |target - s.iPlateTemp| ≥ 2 <;>
      simp [Thermocycler.SetPlateTarget, absf, PLATE_BANGBANG_THRESHOLD, h]
  · intro h
    refine ⟨by simp [Thermocycler.SetPlateTarget, absf, PLATE_BANGBANG_THRESHOLD, h], ?_⟩
    simp only [Thermocycler.SetPlateTarget, absf, PLATE_BANGBANG_THRESHOLD, if_neg h]
    split_ifs <;> rfl
  · by_cases h : |target - s.iLidTemp| ≥ 2 <;>
      simp [Thermocycler.SetLidTarget, absf, LID_BANGBANG_THRESHOLD, h]
  · intro h
    simp [Thermocycler.SetLidTarget, absf, LID_BANGBANG_THRESHOLD, h, PID.SetMode]

/-! ## Changes of the program state -/

/-- The program state after `Stop`. -/
theorem Stop_state (s : Thermocycler) :
    s.Stop.iProgramState =
      (if s.iProgramState = ProgramState.EOff then ProgramState.EOff
       else ProgramState.EStopped) := by
  show (if s.iProgramState ≠ ProgramState.EOff then ProgramState.EStopped
    else s.iProgramState) = _
  by_cases h : s.iProgramState = ProgramState.EOff <;> simp [h]

/-- The program state after `Start`. -/
theorem Start_state (s : Thermocycler) :
    s.Start.2.iProgramState = s.iProgramState ∨
    (s.iProgramState ≠ ProgramState.EOff ∧ s.ipProgram ≠ none ∧
      s.Start.2.iProgramState = ProgramState.ELidWait) := by
  cases hp : s.ipProgram with
  | none => left; simp [Thermocycler.Start, hp]
  | some p =>
    by_cases h : s.iProgramState = ProgramState.EOff
    · left; simp [Thermocycler.Start, hp, h]
    · right; simp [Thermocycler.Start, hp, h]

/-- `ProcessCommand` for a Start command with a program: the name of a command fits the
program-name buffer, so `SetProgram` installs the program, and `Start` follows. -/
theorem ProcessCommand_start (s : Thermocycler) (c : SCommand) (p : Cycle)
    (hStart : c.command = SCommandType.EStart) (hProg : c.pProgram = some p) :
    s.ProcessCommand c =
      some (Thermocycler.SetLidTarget
        { s.Stop with ipProgram := some p,
                      ipDisplayCycle := some (Thermocycler.findDisplayCycle p.iComponents 0 p),
                      iszProgName := c.name.chars } c.lidTemp).Start.2 := by
  unfold Thermocycler.ProcessCommand
  rw [if_pos hStart, hProg]
  dsimp only
  rw [SetProgram_fits _ _ _ _ _ c.name.fits]

/-- The program state after `ProcessCommand`. -/
theorem ProcessCommand_state (s s1 : Thermocycler) (c : SCommand)
    (h : s.ProcessCommand c = some s1) :
    s1.iProgramState = s.iProgramState ∨
    (s.iProgramState ≠ ProgramState.EOff ∧
      (s1.iProgramState = ProgramState.EStopped ∨ s1.iProgramState = ProgramState.ELidWait)) := by
  by_cases h1 : c.command = SCommandType.EStart
  · cases hp : c.pProgram with
    | none =>
      unfold Thermocycler.ProcessCommand at h
      rw [if_pos h1, hp] at h
      exact absurd h (by simp)
    | some p =>
      rw [ProcessCommand_start s c p h1 hp] at h
      simp only [Option.some.injEq] at h
      subst h
      by_cases hs : s.iProgramState = ProgramState.EOff
      · left
        simp [Thermocycler.Start, Thermocycler.SetLidTarget, Stop_state, hs]
      · right
        refine ⟨hs, Or.inr ?_⟩
        simp [Thermocycler.Start, Thermocycler.SetLidTarget, Stop_state, hs]
  · unfold Thermocycler.ProcessCommand at h
    rw [if_neg h1] at h
    split_ifs at h with h2
    · simp only [Option.some.injEq] at h
      subst h
      rw [Stop_state]
      by_cases hs : s.iProgramState = ProgramState.EOff
      · left; simp [hs]
      · right; exact ⟨hs, Or.inl (by simp [hs])⟩
    · simp only [Option.some.injEq] at h
      subst h
      exact Or.inl rfl

/-- The program state after the `switch` statement of `Loop`. -/
theorem advanceProgram_state (s s3 : Thermocycler) (t : TickInput)
    (h : s.advanceProgram t = some s3) :
    s3.iProgramState = s.iProgramState ∨
    (s.iProgramState = ProgramState.EStartup ∧
      ulSub t.millis s.iProgramStartTimeMs > STARTUP_DELAY ∧
      (s3.iProgramState = ProgramState.EStopped ∨ s3.iProgramState = ProgramState.ELidWait)) ∨
    (s.iProgramState = ProgramState.ELidWait ∧ s3.iProgramState = ProgramState.ERunning) ∨
    (s.iProgramState = ProgramState.ERunning ∧ s3.iProgramState = ProgramState.EComplete) := by
  unfold Thermocycler.advanceProgram at h
  split at h
  next hs =>
    -- EStartup
    by_cases h1 : ulSub t.millis s.iProgramStartTimeMs > STARTUP_DELAY
    · right; left
      refine ⟨hs, h1, ?_⟩
      simp only [h1, ↓reduceIte] at h
      by_cases h2 : s.iRestarted = false ∧ t.commandReceived = false
      · simp only [h2, and_self, ↓reduceIte] at h
        cases hc : t.storedProgram with
        | none =>
          simp only [hc, Option.some.injEq] at h
          subst h
          exact Or.inl rfl
        | some c =>
          simp only [hc] at h
          rcases ProcessCommand_state _ _ _ h with h3 | ⟨_, h3⟩
          · exact Or.inl h3
          · exact h3
      · simp only [h2, ↓reduceIte, Option.some.injEq] at h
        subst h
        exact Or.inl rfl
    · simp only [h1, ↓reduceIte, Option.some.injEq] at h
      subst h
      exact Or.inl rfl
  next hs =>
    -- ELidWait
    by_cases h1 : s.iLidTemp ≥ s.iTargetLidTemp - LID_START_TOLERANCE
    · simp only [h1, ↓reduceIte] at h
      cases hp : s.ipProgram with
      | none => simp [hp] at h
      | some p =>
        simp only [hp] at h
        cases hn : p.BeginIteration.GetNextStep.1 with
        | none => simp [hn] at h
        | some st =>
          simp only [hn, Option.some.injEq] at h
          subst h
          exact Or.inr (Or.inr (Or.inl ⟨hs, rfl⟩))
    · simp only [h1, ↓reduceIte, Option.some.injEq] at h
      subst h
      exact Or.inl rfl
  next hs =>
    -- ERunning
    cases hcur : s.ipCurrentStep with
    | none => simp [hcur] at h
    | some cur =>
      simp only [hcur] at h
      by_cases h1 : s.iRamping = true ∧
          absf (cur.GetTemp - s.iPlateTemp) ≤ CYCLE_START_TOLERANCE
      · simp only [h1, and_self, ↓reduceIte, Option.some.injEq] at h
        subst h
        exact Or.inl rfl
      · rw [if_neg h1] at h
        by_cases h2 : s.iRamping = false ∧ cur.IsFinal = false ∧
            ulSub t.millis s.iCycleStartTime > ulMul cur.GetDuration 1000
        · rw [if_pos h2] at h
          cases hp : s.ipProgram with
          | none => simp [hp] at h
          | some p =>
            simp only [hp] at h
            cases hn : p.GetNextStep.1 with
            | none =>
              simp only [hn, Option.some.injEq] at h
              subst h
              exact Or.inr (Or.inr (Or.inr ⟨hs, rfl⟩))
            | some nxt =>
              simp only [hn] at h
              by_cases h3 : nxt.GetDuration = 0
              · simp only [h3, ↓reduceIte, Option.some.injEq] at h
                subst h
                exact Or.inr (Or.inr (Or.inr ⟨hs, rfl⟩))
              · simp only [h3, ↓reduceIte, Option.some.injEq] at h
                subst h
                exact Or.inl rfl
        · rw [if_neg h2] at h
          simp only [Option.some.injEq] at h
          subst h
          exact Or.inl rfl
  next hs =>
    -- EComplete
    cases hcur : s.ipCurrentStep with
    | none =>
      simp only [hcur, Option.some.injEq] at h
      subst h
      exact Or.inl rfl
    | some cur =>
      simp only [hcur] at h
      split_ifs at h
      all_goals
        simp only [Option.some.injEq] at h
        subst h
        exact Or.inl (by simp [hs])
  next =>
    simp only [Option.some.injEq] at h
    subst h
    exact Or.inl rfl

/-- The three cases of `CheckPower`. -/
theorem CheckPower_cases (s : Thermocycler) (power : Bool) (now : Nat) :
    (power = true ∧ s.iProgramState = ProgramState.EOff ∧
      s.CheckPower power now =
        { s with iProgramState := ProgramState.EStartup, iProgramStartTimeMs := now }) ∨
    (power = false ∧ s.iProgramState ≠ ProgramState.EOff ∧
      s.CheckPower power now = { s.Stop with iProgramState := ProgramState.EOff }) ∨
    ((power = true ↔ s.iProgramState ≠ ProgramState.EOff) ∧ s.CheckPower power now = s) := by
  by_cases hs : s.iProgramState = ProgramState.EOff <;> cases power <;>
    simp [Thermocycler.CheckPower, hs]

/-- A `Loop` tick that returns splits into the state after the `switch` statement and the
three control calls. -/
theorem Loop_some (s s1 : Thermocycler) (t : TickInput) (h : s.Loop t = some s1) :
    ∃ s3, Thermocycler.advanceProgram
        { s.CheckPower t.externalPower t.millis with
          iPlateTemp := t.plateTemp, iLidTemp := t.lidTemp } t = some s3 ∧
      s1 = ((s3.ControlPeltier t.platePidLaw).ControlLid t.lidPidLaw).UpdateEta t.millis := by
  unfold Thermocycler.Loop at h
  simp only at h
  split at h
  · exact absurd h (by simp)
  · next s3 h3 => exact ⟨s3, h3, by simpa using h.symm⟩

/-- The program state after a `Loop` tick. -/
theorem Loop_state (s s1 : Thermocycler) (t : TickInput) (h : s.Loop t = some s1) :
    s1.iProgramState = s.iProgramState ∨ loopTransition s.iProgramState s1.iProgramState := by
  obtain ⟨s3, h3, rfl⟩ := Loop_some s s1 t h
  show s3.iProgramState = s.iProgramState ∨ loopTransition s.iProgramState s3.iProgramState
  have hadv := advanceProgram_state _ _ _ h3
  rcases CheckPower_cases s t.externalPower t.millis with
    ⟨_, hoff, hc⟩ | ⟨_, hon, hc⟩ | ⟨_, hc⟩
  · -- power applied in Off: Startup, and the start-up delay has not elapsed
    rw [hc] at hadv
    dsimp only at hadv
    right; left
    refine ⟨hoff, ?_⟩
    rcases hadv with h1 | ⟨_, h1, _⟩ | ⟨h1, _⟩ | ⟨h1, _⟩
    · exact h1
    · exfalso
      have : ulSub t.millis t.millis = 0 := by
        unfold ulSub ULONG_MOD
        have := Nat.mod_lt t.millis (show 4294967296 > 0 by norm_num)
        omega
      rw [this] at h1
      exact absurd h1 (by decide)
    · exact absurd h1 (by decide)
    · exact absurd h1 (by decide)
  · -- power removed: Off
    rw [hc] at hadv
    dsimp only at hadv
    right; right; right; right; left
    rcases hadv with h1 | ⟨h1, _⟩ | ⟨h1, _⟩ | ⟨h1, _⟩
    · exact h1
    · exact absurd h1 (by decide)
    · exact absurd h1 (by decide)
    · exact absurd h1 (by decide)
  · rw [hc] at hadv
    dsimp only at hadv
    rcases hadv with h1 | ⟨h0, _, h1 | h1⟩ | ⟨h0, h1⟩ | ⟨h0, h1⟩
    · exact Or.inl h1
    · exact Or.inr (Or.inr (Or.inl ⟨h0, h1⟩))
    · exact Or.inr (Or.inr (Or.inr (Or.inl ⟨h0, h1⟩)))
    · exact Or.inr (Or.inr (Or.inr (Or.inr (Or.inr (Or.inl ⟨h0, h1⟩)))))
    · exact Or.inr (Or.inr (Or.inr (Or.inr (Or.inr (Or.inr ⟨h0, h1⟩)))))

/-- A `Loop` tick in Startup, after the start-up delay, at which the storage collaborator
gives a Start command, ends in LidWait: the tick sets Stopped and `ProcessCommand` then
loads and starts the stored program. -/
theorem Loop_startup_autostart :
    startupState.iProgramState = ProgramState.EStartup ∧
    (startupState.Loop storedTick).map Thermocycler.GetProgramState =
      some ProgramState.ELidWait :=
  ⟨rfl, rfl⟩

/-- The program state after the commands the serial collaborator dispatches: unchanged, or
Stopped or LidWait from a state other than Off. -/
theorem Process_state (pending : List SCommand) :
    ∀ (s s2 : Thermocycler), SerialControl.Process s pending = some s2 →
      s2.iProgramState = s.iProgramState ∨
      (s.iProgramState ≠ ProgramState.EOff ∧
        (s2.iProgramState = ProgramState.EStopped ∨
          s2.iProgramState = ProgramState.ELidWait)) := by
  induction pending with
  | nil =>
    intro s s2 h
    have h1 : some s = some s2 := h
    cases h1
    exact Or.inl rfl
  | cons c rest ih =>
    intro s s2 h
    unfold SerialControl.Process at h
    cases hc : s.ProcessCommand c with
    | none => rw [hc] at h; exact absurd h (by simp)
    | some s1 =>
      rw [hc] at h
      dsimp only at h
      rcases ProcessCommand_state s s1 c hc with a | ⟨a0, a⟩
      · rcases ih s1 s2 h with b | ⟨b0, b⟩
        · exact Or.inl (b.trans a)
        · exact Or.inr ⟨fun h0 => b0 (a.trans h0), b⟩
      · rcases ih s1 s2 h with b | ⟨_, b⟩
        · exact Or.inr ⟨a0, by rw [b]; exact a⟩
        · exact Or.inr ⟨a0, b⟩

/-- A whole tick that returns splits into its control part, the display update and the
dispatch of the pending commands. -/
theorem LoopAndProcess_some (s s2 : Thermocycler) (t : TickInput) (pending : List SCommand)
    (h : LoopAndProcess s t pending = some s2) :
    ∃ s1, s.Loop t = some s1 ∧ Display.Update s1 = Except.ok () ∧
      SerialControl.Process s1 pending = some s2 := by
  unfold LoopAndProcess at h
  cases hL : s.Loop t with
  | none => rw [hL] at h; exact absurd h (by simp)
  | some s1 =>
    rw [hL] at h
    dsimp only at h
    cases hD : Display.Update s1 with
    | error e => rw [hD] at h; exact absurd h (by simp)
    | ok u =>
      rw [hD] at h
      exact ⟨s1, rfl, hD, h⟩

/-- A whole tick whose control part returns and whose display update meets no null pointer
is the dispatch of the pending commands in the state the control part leaves. -/
theorem LoopAndProcess_of_Loop (s s1 : Thermocycler) (t : TickInput)
    (pending : List SCommand) (hL : s.Loop t = some s1)
    (hD : Display.Update s1 = Except.ok ()) :
    LoopAndProcess s t pending = SerialControl.Process s1 pending := by
  unfold LoopAndProcess
  rw [hL]
  dsimp only
  rw [hD]

/-- C6 as stated fails: `Stop` takes a Running state to Stopped and `Start` takes a Running
state to LidWait; neither change is a transition of the specification's state machine. -/
theorem state_machine_counterexample :
    runningState.iProgramState = ProgramState.ERunning ∧
    runningState.Stop.iProgramState = ProgramState.EStopped ∧
    ¬ specTransition runningState.iProgramState runningState.Stop.iProgramState ∧
    runningState.Start.2.iProgramState = ProgramState.ELidWait ∧
    ¬ specTransition runningState.iProgramState runningState.Start.2.iProgramState := by
  have h1 : runningState.iProgramState = ProgramState.ERunning := rfl
  have h2 : runningState.Stop.iProgramState = ProgramState.EStopped := rfl
  have h3 : runningState.Start.2.iProgramState = ProgramState.ELidWait := rfl
  refine ⟨h1, h2, ?_, h3, ?_⟩
  · rw [h1, h2]; simp [specTransition]
  · rw [h1, h3]; simp [specTransition]

/-- C6 amended: every change of the program state made by a public operation, from every
state, is one of these. By `Loop`: its control part makes one of Off→Startup,
Startup→Stopped, Startup→LidWait (Stopped and then LidWait within one tick, when a stored
program is reloaded and started), any state→Off, LidWait→Running, Running→Complete, and the
commands the serial collaborator dispatches at the end of the same tick then make the
changes of `ProcessCommand`. By `Stop`, `SetProgram` and Stop commands of `ProcessCommand`:
any state other than Off→Stopped. By `Start` and Start commands of `ProcessCommand`: any
state other than Off→LidWait. No operation produces any other change of program state. -/
theorem program_state_changes (s : Thermocycler) :
    (∀ t pending s2, LoopAndProcess s t pending = some s2 →
      ∃ s1, s.Loop t = some s1 ∧ SerialControl.Process s1 pending = some s2 ∧
        (s1.iProgramState = s.iProgramState ∨
          loopTransition s.iProgramState s1.iProgramState) ∧
        (s2.iProgramState = s1.iProgramState ∨
          stopTransition s1.iProgramState s2.iProgramState ∨
          startTransition s1.iProgramState s2.iProgramState)) ∧
    (s.Stop.iProgramState = s.iProgramState ∨
      stopTransition s.iProgramState s.Stop.iProgramState) ∧
    (∀ p d name lid s1, s.SetProgram p d name lid = some s1 →
      s1.iProgramState = s.iProgramState ∨
      stopTransition s.iProgramState s1.iProgramState) ∧
    (s.Start.2.iProgramState = s.iProgramState ∨
      startTransition s.iProgramState s.Start.2.iProgramState) ∧
    (∀ c s1, s.ProcessCommand c = some s1 →
      s1.iProgramState = s.iProgramState ∨
      stopTransition s.iProgramState s1.iProgramState ∨
      startTransition s.iProgramState s1.iProgramState) := by
  have hstop : s.Stop.iProgramState = s.iProgramState ∨
      stopTransition s.iProgramState s.Stop.iProgramState := by
    rw [Stop_state]
    by_cases hs : s.iProgramState = ProgramState.EOff
    · left; simp [hs]
    · right; exact ⟨hs, by simp [hs]⟩
  refine ⟨fun t pending s2 h => ?_, hstop, fun p d name lid s1 h => ?_, ?_, ?_⟩
  · obtain ⟨s1, hL, _, hP⟩ := LoopAndProcess_some s s2 t pending h
    refine ⟨s1, hL, hP, Loop_state s s1 t hL, ?_⟩
    rcases Process_state pending s1 s2 hP with h1 | ⟨h0, h1 | h1⟩
    · exact Or.inl h1
    · exact Or.inr (Or.inl ⟨h0, h1⟩)
    · exact Or.inr (Or.inr ⟨h0, h1⟩)
  · rw [SetProgram_some s s1 p d name lid h]
    exact hstop
  · rcases Start_state s with h | ⟨h1, _, h2⟩
    · exact Or.inl h
    · exact Or.inr ⟨h1, h2⟩
  · intro c s1 h
    rcases ProcessCommand_state s s1 c h with h1 | ⟨h0, h1 | h1⟩
    · exact Or.inl h1
    · exact Or.inr (Or.inl ⟨h0, h1⟩)
    · exact Or.inr (Or.inr ⟨h0, h1⟩)

/-! ## The Running state -/

/-- With external power present in a state that is not Off, `Loop` is the sensor reads, the
`switch` statement and the three control calls. -/
theorem Loop_powered (s : Thermocycler) (t : TickInput)
    (hPower : t.externalPower = true) (hState : s.iProgramState ≠ ProgramState.EOff) :
    s.Loop t =
      (Thermocycler.advanceProgram
        { s with iPlateTemp := t.plateTemp, iLidTemp := t.lidTemp } t).map
        (fun s3 =>
          ((s3.ControlPeltier t.platePidLaw).ControlLid t.lidPidLaw).UpdateEta t.millis) := by
  have hc : s.CheckPower t.externalPower t.millis = s := by
    simp [Thermocycler.CheckPower, hPower, hState]
  unfold Thermocycler.Loop
  simp only [hc]
  cases Thermocycler.advanceProgram
    { s with iPlateTemp := t.plateTemp, iLidTemp := t.lidTemp } t <;> rfl

/-- The `ERunning` case of the `switch` statement of `Loop`. -/
theorem advanceProgram_running (s : Thermocycler) (t : TickInput) (cur : Step)
    (hState : s.iProgramState = ProgramState.ERunning) (hCur : s.ipCurrentStep = some cur) :
    s.advanceProgram t =
      if s.iRamping = true ∧ absf (cur.GetTemp - s.iPlateTemp) ≤ CYCLE_START_TOLERANCE then
        some { s with
          iElapsedRampDegrees :=
            s.iElapsedRampDegrees + absf (s.iPlateTemp - s.iRampStartTemp),
          iElapsedRampDurationMs :=
            ulAdd s.iElapsedRampDurationMs (ulSub t.millis s.iRampStartTime),
          iHasCooled := if s.iRampStartTemp > s.iPlateTemp then true else s.iHasCooled,
          iRamping := false,
          iCycleStartTime := t.millis }
      else if s.iRamping = false ∧ cur.IsFinal = false ∧
          ulSub t.millis s.iCycleStartTime > ulMul cur.GetDuration 1000 then
        match s.ipProgram with
        | none => none
        | some pProgram =>
            match pProgram.GetNextStep.1 with
            | some pNext =>
                if pNext.GetDuration = 0 then
                  some { Thermocycler.SetPlateTarget
                      { s with ipProgram := some pProgram.GetNextStep.2,
                               ipCurrentStep := pProgram.GetNextStep.1 }
                      pNext.GetTemp t.millis with
                    iProgramState := ProgramState.EComplete }
                else
                  some (Thermocycler.SetPlateTarget
                      { s with ipProgram := some pProgram.GetNextStep.2,
                               ipCurrentStep := pProgram.GetNextStep.1 }
                      pNext.GetTemp t.millis)
            | none =>
                some { s with ipProgram := some pProgram.GetNextStep.2,
                              ipCurrentStep := pProgram.GetNextStep.1,
                              iProgramState := ProgramState.EComplete }
      else some s := by
  unfold Thermocycler.advanceProgram
  rw [hState]
  simp only [hCur]

/-- The control part of a tick that observes external power present, in a Running state with
current step `cur`: if the state is holding (not ramping), `cur` is not final, the hold
time `millis() - iCycleStartTime` exceeds `duration * 1000` ms (both in 32-bit unsigned
arithmetic) and a program `p` is loaded, it replaces the current step by the next step of
the iterator of `p`, the program state after it is Complete if and only if that next step is
null or has hold duration 0, a non-null next step gives the plate target its temperature,
and a non-null next step of non-zero duration leaves the state Running. In every other
Running situation it does not advance the step or the iterator and does not leave
Running. -/
theorem Loop_running_cases (s : Thermocycler) (t : TickInput) (cur : Step)
    (hState : s.iProgramState = ProgramState.ERunning)
    (hPower : t.externalPower = true)
    (hCur : s.ipCurrentStep = some cur) :
    (∀ p, s.ipProgram = some p → s.iRamping = false → cur.IsFinal = false →
      ulSub t.millis s.iCycleStartTime > ulMul cur.GetDuration 1000 →
      ∃ s1, s.Loop t = some s1 ∧
        s1.ipCurrentStep = p.GetNextStep.1 ∧
        s1.ipProgram = some p.GetNextStep.2 ∧
        (s1.iProgramState = ProgramState.EComplete ↔
          (p.GetNextStep.1 = none ∨ ∃ n, p.GetNextStep.1 = some n ∧ n.GetDuration = 0)) ∧
        (∀ n, p.GetNextStep.1 = some n →
          s1.iTargetPlateTemp = n.GetTemp ∧
          (n.GetDuration ≠ 0 → s1.iProgramState = ProgramState.ERunning))) ∧
    (¬ (s.iRamping = false ∧ cur.IsFinal = false ∧
        ulSub t.millis s.iCycleStartTime > ulMul cur.GetDuration 1000) →
      ∃ s1, s.Loop t = some s1 ∧
        s1.ipCurrentStep = s.ipCurrentStep ∧ s1.ipProgram = s.ipProgram ∧
        s1.iProgramState = ProgramState.ERunning) := by
  have hOn : s.iProgramState ≠ ProgramState.EOff := by rw [hState]; decide
  have hadv := advanceProgram_running
    { s with iPlateTemp := t.plateTemp, iLidTemp := t.lidTemp } t cur hState hCur
  have hL := Loop_powered s t hPower hOn
  rw [hadv] at hL
  dsimp only at hL
  constructor
  · intro p hp hRamp hFinal hTime
    have h1 : ¬ (s.iRamping = true ∧
        absf (cur.GetTemp - t.plateTemp) ≤ CYCLE_START_TOLERANCE) := by
      simp [hRamp]
    rw [if_neg h1, if_pos ⟨hRamp, hFinal, hTime⟩, hp] at hL
    dsimp only at hL
    rw [hL]
    cases hn : p.GetNextStep.1 with
    | none =>
      refine ⟨_, rfl, hn.symm ▸ rfl, rfl, ?_, ?_⟩
      · exact ⟨fun _ => Or.inl rfl, fun _ => rfl⟩
      · intro n h; exact absurd h (by simp)
    | some nxt =>
      dsimp only
      by_cases hd : nxt.GetDuration = 0
      · rw [if_pos hd]
        refine ⟨_, rfl, hn.symm ▸ rfl, rfl, ?_, ?_⟩
        · exact ⟨fun _ => Or.inr ⟨nxt, rfl, hd⟩, fun _ => rfl⟩
        · intro n h
          cases h
          exact ⟨rfl, fun h0 => absurd hd h0⟩
      · rw [if_neg hd]
        refine ⟨_, rfl, hn.symm ▸ rfl, rfl, ?_, ?_⟩
        · constructor
          · intro h
            have h2 : s.iProgramState = ProgramState.EComplete := h
            rw [hState] at h2
            exact absurd h2 (by decide)
          · rintro (h | ⟨n, h, h0⟩)
            · exact absurd h (by simp)
            · cases h; exact absurd h0 hd
        · intro n h
          cases h
          exact ⟨rfl, fun _ => hState⟩
  · intro hNot
    rw [if_neg hNot] at hL
    rw [hL]
    by_cases h1 : s.iRamping = true ∧
        absf (cur.GetTemp - t.plateTemp) ≤ CYCLE_START_TOLERANCE
    · rw [if_pos h1]
      exact ⟨_, rfl, rfl, rfl, hState⟩
    · rw [if_neg h1]
      exact ⟨_, rfl, rfl, rfl, hState⟩

/-! ## The LidWait state -/

/-- The `ELidWait` case of the `switch` statement of `Loop` when the lid has not reached its
target within the tolerance: nothing changes. -/
theorem advanceProgram_lidwait_stay (s : Thermocycler) (t : TickInput)
    (hState : s.iProgramState = ProgramState.ELidWait)
    (hLid : ¬ s.iLidTemp ≥ s.iTargetLidTemp - LID_START_TOLERANCE) :
    s.advanceProgram t = some s := by
  unfold Thermocycler.advanceProgram
  rw [hState]
  simp only [hLid, if_false]

/-- The `ELidWait` case of the `switch` statement of `Loop` when the lid is within the
tolerance of its target and the program iterator yields a first step. -/
theorem advanceProgram_lidwait_enter (s : Thermocycler) (t : TickInput) (p : Cycle) (st : Step)
    (hState : s.iProgramState = ProgramState.ELidWait)
    (hProg : s.ipProgram = some p)
    (hFirst : p.BeginIteration.GetNextStep.1 = some st)
    (hLid : s.iLidTemp ≥ s.iTargetLidTemp - LID_START_TOLERANCE) :
    s.advanceProgram t =
      some { Thermocycler.SetPlateTarget
          { s with
            iProgramHoldDurationS :=
              (Thermocycler.budgetScan p.BeginIteration.remaining 0 0 s.iPlateTemp).1,
            iProgramRampDegrees :=
              (Thermocycler.budgetScan p.BeginIteration.remaining 0 0 s.iPlateTemp).2,
            iElapsedRampDurationMs := 0,
            iElapsedRampDegrees := 0,
            iEstimatedTimeRemainingS := 0,
            iHasCooled := false,
            iProgramState := ProgramState.ERunning,
            iThermalDirection := ThermalDirection.OFF,
            iPeltierPwm := 0,
            ipProgram := some p.BeginIteration.GetNextStep.2,
            ipCurrentStep := some st }
          st.GetTemp t.millis with
        iRamping := true, iProgramStartTimeMs := t.millis } := by
  unfold Thermocycler.advanceProgram
  rw [hState]
  simp only [hLid, if_true, hProg, hFirst]

/-- The first step a program yields after `BeginIteration` is the head of its traversal. -/
theorem first_step_of_traversal (p : Cycle) (st : Step) (rest : List Step)
    (h : p.traversal = st :: rest) : p.BeginIteration.GetNextStep.1 = some st := by
  have h1 : p.BeginIteration.traversal = st :: rest := h
  have h2 : p.BeginIteration.iPosition = 0 := rfl
  unfold Cycle.GetNextStep
  rw [h1, h2]
  simp

/-- The plate control mode after `ControlPeltier`. -/
theorem ControlPeltier_mode (s : Thermocycler) (law : PidLaw) :
    (s.ControlPeltier law).iPlateControlMode =
      if s.iProgramState = ProgramState.ERunning ∨
          (s.iProgramState = ProgramState.EComplete ∧ s.ipCurrentStep ≠ none) then
        (if s.iPlateControlMode = ControlMode.EBangBang ∧
            absf (s.iTargetPlateTemp - s.iPlateTemp) < PLATE_BANGBANG_THRESHOLD then
          ControlMode.EPID
         else s.iPlateControlMode)
      else s.iPlateControlMode :=
  rfl

/-- The lid control mode after `ControlLid`. -/
theorem ControlLid_mode (s : Thermocycler) (law : PidLaw) :
    (s.ControlLid law).iLidControlMode =
      if s.iProgramState = ProgramState.ERunning ∨
          s.iProgramState = ProgramState.ELidWait then
        (if s.iLidControlMode = ControlMode.EBangBang ∧
            absf (s.iTargetLidTemp - s.iLidTemp) < LID_BANGBANG_THRESHOLD then
          ControlMode.EPID
         else s.iLidControlMode)
      else s.iLidControlMode :=
  rfl

/-- A plate control tick never leaves PID mode. -/
theorem ControlPeltier_pid_stays (s : Thermocycler) (law : PidLaw)
    (h : s.iPlateControlMode = ControlMode.EPID) :
    (s.ControlPeltier law).iPlateControlMode = ControlMode.EPID := by
  rw [ControlPeltier_mode]
  split_ifs <;> first | rfl | exact h

/-- A lid control tick never leaves PID mode. -/
theorem ControlLid_pid_stays (s : Thermocycler) (law : PidLaw)
    (h : s.iLidControlMode = ControlMode.EPID) :
    (s.ControlLid law).iLidControlMode = ControlMode.EPID := by
  rw [ControlLid_mode]
  split_ifs <;> first | rfl | exact h

/-- A sequence of plate control ticks changes neither the program state, nor the current
step, nor the plate target. -/
theorem plateControlRun_frame (l : List (ℚ × PidLaw)) :
    ∀ s : Thermocycler,
      (s.plateControlRun l).iProgramState = s.iProgramState ∧
      (s.plateControlRun l).ipCurrentStep = s.ipCurrentStep ∧
      (s.plateControlRun l).iTargetPlateTemp = s.iTargetPlateTemp := by
  induction l with
  | nil => intro s; exact ⟨rfl, rfl, rfl⟩
  | cons m rest ih =>
    intro s
    obtain ⟨h1, h2, h3⟩ := ih (Thermocycler.ControlPeltier { s with iPlateTemp := m.1 } m.2)
    exact ⟨h1, h2, h3⟩

/-- A sequence of lid control ticks changes neither the program state nor the lid target. -/
theorem lidControlRun_frame (l : List (ℚ × PidLaw)) :
    ∀ s : Thermocycler,
      (s.lidControlRun l).iProgramState = s.iProgramState ∧
      (s.lidControlRun l).iTargetLidTemp = s.iTargetLidTemp := by
  induction l with
  | nil => intro s; exact ⟨rfl, rfl⟩
  | cons m rest ih =>
    intro s
    obtain ⟨h1, h2⟩ := ih (Thermocycler.ControlLid { s with iLidTemp := m.1 } m.2)
    exact ⟨h1, h2⟩

/-- A sequence of plate control ticks that starts in PID mode ends in PID mode. -/
theorem plateControlRun_pid_stays (l : List (ℚ × PidLaw)) :
    ∀ s : Thermocycler, s.iPlateControlMode = ControlMode.EPID →
      (s.plateControlRun l).iPlateControlMode = ControlMode.EPID := by
  induction l with
  | nil => intro s h; exact h
  | cons m rest ih =>
    intro s h
    exact ih _ (ControlPeltier_pid_stays { s with iPlateTemp := m.1 } m.2 h)

/-- A sequence of lid control ticks that starts in PID mode ends in PID mode. -/
theorem lidControlRun_pid_stays (l : List (ℚ × PidLaw)) :
    ∀ s : Thermocycler, s.iLidControlMode = ControlMode.EPID →
      (s.lidControlRun l).iLidControlMode = ControlMode.EPID := by
  induction l with
  | nil => intro s h; exact h
  | cons m rest ih =>
    intro s h
    exact ih _ (ControlLid_pid_stays { s with iLidTemp := m.1 } m.2 h)

/-- A sequence of plate control ticks on each of which the gap is at least 2.0 stays in
BangBang mode. -/
theorem plateControlRun_bang_stays (l : List (ℚ × PidLaw)) :
    ∀ s : Thermocycler, s.iPlateControlMode = ControlMode.EBangBang →
      (∀ x ∈ l, |s.iTargetPlateTemp - x.1| ≥ 2) →
      (s.plateControlRun l).iPlateControlMode = ControlMode.EBangBang := by
  induction l with
  | nil => intro s h _; exact h
  | cons m rest ih =>
    intro s h hgap
    have hm : ¬ |s.iTargetPlateTemp - m.1| < 2 := not_lt.mpr (hgap m (List.mem_cons_self m rest))
    refine ih _ ?_ (fun x hx => hgap x (List.mem_cons_of_mem m hx))
    rw [ControlPeltier_mode]
    have hno : ¬ (s.iPlateControlMode = ControlMode.EBangBang ∧
        absf (s.iTargetPlateTemp - m.1) < PLATE_BANGBANG_THRESHOLD) := fun hc => hm hc.2
    split_ifs <;> exact h

/-- A sequence of lid control ticks on each of which the gap is at least 2.0 stays in
BangBang mode. -/
theorem lidControlRun_bang_stays (l : List (ℚ × PidLaw)) :
    ∀ s : Thermocycler, s.iLidControlMode = ControlMode.EBangBang →
      (∀ x ∈ l, |s.iTargetLidTemp - x.1| ≥ 2) →
      (s.lidControlRun l).iLidControlMode = ControlMode.EBangBang := by
  induction l with
  | nil => intro s h _; exact h
  | cons m rest ih =>
    intro s h hgap
    have hm : ¬ |s.iTargetLidTemp - m.1| < 2 := not_lt.mpr (hgap m (List.mem_cons_self m rest))
    refine ih _ ?_ (fun x hx => hgap x (List.mem_cons_of_mem m hx))
    rw [ControlLid_mode]
    have hno : ¬ (s.iLidControlMode = ControlMode.EBangBang ∧
        absf (s.iTargetLidTemp - m.1) < LID_BANGBANG_THRESHOLD) := fun hc => hm hc.2
    split_ifs <;> exact h

/-- A sequence of plate control ticks, tick by tick. -/
theorem plateControlRun_append (l : List (ℚ × PidLaw)) :
    ∀ (s : Thermocycler) (m : ℚ × PidLaw) (rest : List (ℚ × PidLaw)),
      s.plateControlRun (l ++ m :: rest) =
        Thermocycler.plateControlRun
          (Thermocycler.ControlPeltier { s.plateControlRun l with iPlateTemp := m.1 } m.2)
          rest := by
  induction l with
  | nil => intro s m rest; rfl
  | cons x xs ih => intro s m rest; exact ih _ m rest

/-- A sequence of lid control ticks, tick by tick. -/
theorem lidControlRun_append (l : List (ℚ × PidLaw)) :
    ∀ (s : Thermocycler) (m : ℚ × PidLaw) (rest : List (ℚ × PidLaw)),
      s.lidControlRun (l ++ m :: rest) =
        Thermocycler.lidControlRun
          (Thermocycler.ControlLid { s.lidControlRun l with iLidTemp := m.1 } m.2)
          rest := by
  induction l with
  | nil => intro s m rest; rfl
  | cons x xs ih => intro s m rest; exact ih _ m rest

/-- The plate control tick that leaves BangBang mode: the mode is PID and the collaborator
has computed from a state in automatic mode whose integral term is reset. -/
theorem ControlPeltier_switch (s : Thermocycler) (law : PidLaw)
    (hActive : s.iProgramState = ProgramState.ERunning ∨
      (s.iProgramState = ProgramState.EComplete ∧ s.ipCurrentStep ≠ none))
    (hMode : s.iPlateControlMode = ControlMode.EBangBang)
    (hGap : |s.iTargetPlateTemp - s.iPlateTemp| < 2) :
    (s.ControlPeltier law).iPlateControlMode = ControlMode.EPID ∧
    ((s.ControlPeltier law).iPlatePid =
        (((s.iPlatePid.SetMode true).ResetI).Compute law s.iPlateTemp s.iTargetPlateTemp
          s.iPeltierPwm).1 ∨
      (s.ControlPeltier law).iPlatePid =
        (((s.iPlatePid.SetMode true).ResetI).Compute law s.iPlateTemp s.iTargetPlateTemp
          s.iPeltierPwm).1.ResetI) := by
  have hToPid : s.iPlateControlMode = ControlMode.EBangBang ∧
      absf (s.iTargetPlateTemp - s.iPlateTemp) < PLATE_BANGBANG_THRESHOLD := ⟨hMode, hGap⟩
  refine ⟨?_, ?_⟩
  · rw [ControlPeltier_mode, if_pos hActive, if_pos hToPid]
  · have hne : ¬ (ControlMode.EPID = ControlMode.EBangBang) := by decide
    simp only [Thermocycler.ControlPeltier, Thermocycler.SetPeltier, if_pos hActive,
      if_pos hToPid, if_neg hne]
    split_ifs
    · exact Or.inr rfl
    · exact Or.inl rfl
    · exact Or.inl rfl

/-- The lid control tick that leaves BangBang mode: the mode is PID and the collaborator has
computed from a state in automatic mode whose integral term is reset. -/
theorem ControlLid_switch (s : Thermocycler) (law : PidLaw)
    (hActive : s.iProgramState = ProgramState.ERunning ∨
      s.iProgramState = ProgramState.ELidWait)
    (hMode : s.iLidControlMode = ControlMode.EBangBang)
    (hGap : |s.iTargetLidTemp - s.iLidTemp| < 2) :
    (s.ControlLid law).iLidControlMode = ControlMode.EPID ∧
    (s.ControlLid law).iLidPid =
      (((s.iLidPid.SetMode true).ResetI).Compute law s.iLidTemp s.iTargetLidTemp
        s.iLidPwm).1 := by
  have hToPid : s.iLidControlMode = ControlMode.EBangBang ∧
      absf (s.iTargetLidTemp - s.iLidTemp) < LID_BANGBANG_THRESHOLD := ⟨hMode, hGap⟩
  refine ⟨?_, ?_⟩
  · rw [ControlLid_mode, if_pos hActive, if_pos hToPid]
  · have hne : ¬ (ControlMode.EPID = ControlMode.EBangBang) := by decide
    simp only [Thermocycler.ControlLid, if_pos hActive, if_pos hToPid, if_neg hne]

/-- C11: no thrashing. A control tick never changes the mode from PID back to BangBang
(first two parts). For every sequence of plate control ticks in an active state with no
target assignment in between, starting in BangBang mode, with gap |target - measured| >= 2.0
on every tick of `pre` and < 2.0 on the tick `m`: the mode is still BangBang after `pre`, it
is PID after `m`, on that tick the PID collaborator computes from a state in automatic mode
whose integral term has been reset to 0, and the mode is PID after every later tick `post`,
whatever the gap (third part). The same holds of the lid control ticks (fourth part). -/
theorem no_thrashing (s : Thermocycler) (pre post : List (ℚ × PidLaw)) (m : ℚ × PidLaw) :
    (∀ (s1 : Thermocycler) (law : PidLaw), s1.iPlateControlMode = ControlMode.EPID →
      (s1.ControlPeltier law).iPlateControlMode = ControlMode.EPID) ∧
    (∀ (s1 : Thermocycler) (law : PidLaw), s1.iLidControlMode = ControlMode.EPID →
      (s1.ControlLid law).iLidControlMode = ControlMode.EPID) ∧
    ((s.iProgramState = ProgramState.ERunning ∨
        (s.iProgramState = ProgramState.EComplete ∧ s.ipCurrentStep ≠ none)) →
      s.iPlateControlMode = ControlMode.EBangBang →
      (∀ x ∈ pre, |s.iTargetPlateTemp - x.1| ≥ 2) →
      |s.iTargetPlateTemp - m.1| < 2 →
      (s.plateControlRun pre).iPlateControlMode = ControlMode.EBangBang ∧
      (s.plateControlRun (pre ++ [m])).iPlateControlMode = ControlMode.EPID ∧
      (∃ pid0 : PID, pid0.ITerm = 0 ∧ pid0.inAuto = true ∧
        ((s.plateControlRun (pre ++ [m])).iPlatePid =
            (pid0.Compute m.2 m.1 s.iTargetPlateTemp
              (s.plateControlRun pre).iPeltierPwm).1 ∨
          (s.plateControlRun (pre ++ [m])).iPlatePid =
            (pid0.Compute m.2 m.1 s.iTargetPlateTemp
              (s.plateControlRun pre).iPeltierPwm).1.ResetI)) ∧
      (s.plateControlRun (pre ++ m :: post)).iPlateControlMode = ControlMode.EPID) ∧
    ((s.iProgramState = ProgramState.ERunning ∨ s.iProgramState = ProgramState.ELidWait) →
      s.iLidControlMode = ControlMode.EBangBang →
      (∀ x ∈ pre, |s.iTargetLidTemp - x.1| ≥ 2) →
      |s.iTargetLidTemp - m.1| < 2 →
      (s.lidControlRun pre).iLidControlMode = ControlMode.EBangBang ∧
      (s.lidControlRun (pre ++ [m])).iLidControlMode = ControlMode.EPID ∧
      (∃ pid0 : PID, pid0.ITerm = 0 ∧ pid0.inAuto = true ∧
        (s.lidControlRun (pre ++ [m])).iLidPid =
          (pid0.Compute m.2 m.1 s.iTargetLidTemp (s.lidControlRun pre).iLidPwm).1) ∧
      (s.lidControlRun (pre ++ m :: post)).iLidControlMode = ControlMode.EPID) := by
  refine ⟨ControlPeltier_pid_stays, ControlLid_pid_stays, ?_, ?_⟩
  · intro hActive hMode hPre hGap
    obtain ⟨f1, f2, f3⟩ := plateControlRun_frame pre s
    have hBang := plateControlRun_bang_stays pre s hMode hPre
    have hSw := ControlPeltier_switch
      { s.plateControlRun pre with iPlateTemp := m.1 } m.2
      (by
        show (s.plateControlRun pre).iProgramState = ProgramState.ERunning ∨
          ((s.plateControlRun pre).iProgramState = ProgramState.EComplete ∧
            (s.plateControlRun pre).ipCurrentStep ≠ none)
        rw [f1, f2]; exact hActive)
      hBang
      (by
        show |(s.plateControlRun pre).iTargetPlateTemp - m.1| < 2
        rw [f3]; exact hGap)
    have hOne : s.plateControlRun (pre ++ [m]) =
        Thermocycler.ControlPeltier { s.plateControlRun pre with iPlateTemp := m.1 } m.2 :=
      plateControlRun_append pre s m []
    refine ⟨hBang, by rw [hOne]; exact hSw.1, ?_, ?_⟩
    · refine ⟨((s.plateControlRun pre).iPlatePid.SetMode true).ResetI, rfl, rfl, ?_⟩
      rw [hOne, ← f3]
      exact hSw.2
    · rw [plateControlRun_append pre s m post]
      exact plateControlRun_pid_stays post _ hSw.1
  · intro hActive hMode hPre hGap
    obtain ⟨f1, f3⟩ := lidControlRun_frame pre s
    have hBang := lidControlRun_bang_stays pre s hMode hPre
    have hSw := ControlLid_switch
      { s.lidControlRun pre with iLidTemp := m.1 } m.2
      (by
        show (s.lidControlRun pre).iProgramState = ProgramState.ERunning ∨
          (s.lidControlRun pre).iProgramState = ProgramState.ELidWait
        rw [f1]; exact hActive)
      hBang
      (by
        show |(s.lidControlRun pre).iTargetLidTemp - m.1| < 2
        rw [f3]; exact hGap)
    have hOne : s.lidControlRun (pre ++ [m]) =
        Thermocycler.ControlLid { s.lidControlRun pre with iLidTemp := m.1 } m.2 :=
      lidControlRun_append pre s m []
    refine ⟨hBang, by rw [hOne]; exact hSw.1, ?_, ?_⟩
    · refine ⟨((s.lidControlRun pre).iLidPid.SetMode true).ResetI, rfl, rfl, ?_⟩
      rw [hOne, ← f3]
      exact hSw.2
    · rw [lidControlRun_append pre s m post]
      exact lidControlRun_pid_stays post _ hSw.1

/-- C11 on a running state in BangBang mode with plate target 95 and lid target 100: one
tick far from the target, one tick within 2.0 of it, one tick far from it again. -/
theorem no_thrashing_witness :
    bangBangState.iProgramState = ProgramState.ERunning ∧
    bangBangState.iPlateControlMode = ControlMode.EBangBang ∧
    bangBangState.iLidControlMode = ControlMode.EBangBang ∧
    (bangBangState.plateControlRun [(60, zeroLaw)]).iPlateControlMode =
      ControlMode.EBangBang ∧
    (bangBangState.plateControlRun
      ([(60, zeroLaw)] ++ (94, zeroLaw) :: [(80, zeroLaw)])).iPlateControlMode =
      ControlMode.EPID ∧
    (bangBangState.lidControlRun [(60, zeroLaw)]).iLidControlMode =
      ControlMode.EBangBang ∧
    (bangBangState.lidControlRun
      ([(60, zeroLaw)] ++ (99, zeroLaw) :: [(80, zeroLaw)])).iLidControlMode =
      ControlMode.EPID := by
  have hp := (no_thrashing bangBangState [(60, zeroLaw)] [(80, zeroLaw)] (94, zeroLaw)).2.2.1
    (Or.inl rfl) rfl
    (fun x hx => by
      rw [List.mem_singleton] at hx; subst hx
      show |(95 : ℚ) - 60| ≥ 2
      norm_num [abs_of_nonneg])
    (show |(95 : ℚ) - 94| < 2 by norm_num [abs_of_nonneg])
  have hl := (no_thrashing bangBangState [(60, zeroLaw)] [(80, zeroLaw)] (99, zeroLaw)).2.2.2
    (Or.inl rfl) rfl
    (fun x hx => by
      rw [List.mem_singleton] at hx; subst hx
      show |(100 : ℚ) - 60| ≥ 2
      norm_num [abs_of_nonneg])
    (show |(100 : ℚ) - 99| < 2 by norm_num [abs_of_nonneg])
  exact ⟨rfl, rfl, rfl, hp.1, hp.2.2.2, hl.1, hl.2.2.2⟩

/-! ## Calibration lookup -/

/-- Unsigned subtraction without wrap. -/
theorem ulSub_of_le (a b : Nat) (hle : b ≤ a) (ha : a < ULONG_MOD) : ulSub a b = a - b := by
  unfold ulSub
  unfold ULONG_MOD at *
  omega

/-- The linear search stops at or before the end of the table. -/
theorem tableScan_le_length (T : List Nat) (r : Nat) : Thermocycler.tableScan T r ≤ T.length := by
  induction T with
  | nil => simp [Thermocycler.tableScan]
  | cons e rest ih =>
    unfold Thermocycler.tableScan
    split_ifs
    · simp
    · simp only [List.length_cons]; omega

/-- The linear search stops inside the table when some entry is at or below the search
value. -/
theorem tableScan_lt_length (T : List Nat) (r : Nat) (h : ∃ x ∈ T, r ≥ x) :
    Thermocycler.tableScan T r < T.length := by
  induction T with
  | nil => obtain ⟨x, hx, _⟩ := h; simp at hx
  | cons e rest ih =>
    unfold Thermocycler.tableScan
    split_ifs with he
    · simp
    · obtain ⟨x, hx, hr⟩ := h
      rcases List.mem_cons.mp hx with rfl | hx
      · exact absurd hr he
      · have := ih ⟨x, hx, hr⟩
        simp only [List.length_cons]; omega

/-- The linear search exhausts the table when every entry is above the search value. -/
theorem tableScan_eq_length (T : List Nat) (r : Nat) (h : ∀ x ∈ T, r < x) :
    Thermocycler.tableScan T r = T.length := by
  induction T with
  | nil => rfl
  | cons e rest ih =>
    unfold Thermocycler.tableScan
    have he : ¬ r ≥ e := not_le.mpr (h e (List.mem_cons_self e rest))
    rw [if_neg he, ih (fun x hx => h x (List.mem_cons_of_mem e hx))]
    rfl

/-- The entry at which the linear search stops is at or below the search value, and every
entry before it is above the search value. -/
theorem tableScan_spec (T : List Nat) (r : Nat) :
    (∀ x, T[Thermocycler.tableScan T r]? = some x → r ≥ x) ∧
    (∀ j x, j < Thermocycler.tableScan T r → T[j]? = some x → r < x) := by
  induction T with
  | nil => simp [Thermocycler.tableScan]
  | cons e rest ih =>
    unfold Thermocycler.tableScan
    split_ifs with he
    · refine ⟨fun x hx => ?_, fun j x hj _ => absurd hj (by omega)⟩
      simp at hx; omega
    · refine ⟨fun x hx => ?_, fun j x hj hx => ?_⟩
      · rw [List.getElem?_cons_succ] at hx
        exact ih.1 x hx
      · cases j with
        | zero => simp at hx; omega
        | succ k =>
          rw [List.getElem?_cons_succ] at hx
          exact ih.2 k x (by omega) hx

/-- The linear search is antitone in the search value. -/
theorem tableScan_antitone (T : List Nat) (r1 r2 : Nat) (h : r1 ≤ r2) :
    Thermocycler.tableScan T r2 ≤ Thermocycler.tableScan T r1 := by
  induction T with
  | nil => simp [Thermocycler.tableScan]
  | cons e rest ih =>
    unfold Thermocycler.tableScan
    split_ifs with h2 h1 h1
    · exact le_refl _
    · exact Nat.zero_le _
    · omega
    · omega

/-- On a strictly decreasing table the linear search for an entry stops at that entry. -/
theorem tableScan_entry (T : List Nat) (hT : T.Pairwise (· > ·)) :
    ∀ (i x : Nat), T[i]? = some x → Thermocycler.tableScan T x = i := by
  induction T with
  | nil => intro i x hx; simp at hx
  | cons e rest ih =>
    intro i x hx
    unfold Thermocycler.tableScan
    cases i with
    | zero =>
      simp at hx
      rw [if_pos (by omega)]
    | succ k =>
      rw [List.getElem?_cons_succ] at hx
      have hmem : x ∈ rest := List.getElem?_mem hx
      have hgt : e > x := (List.pairwise_cons.mp hT).1 x hmem
      rw [if_neg (by omega), ih (List.pairwise_cons.mp hT).2 k x hx]

/-- The value of `TableLookup` on a strictly decreasing table of `unsigned long` entries,
for a search value at or above some entry: the baseline when the search stops at index 0,
and otherwise the interpolation between the entries `hi` at `i - 1` and `lo` at `i`, with
`lo <= searchValue < hi`. -/
theorem TableLookup_in_range (T : List Nat) (start : Int) (r : Nat)
    (hB : ∀ x ∈ T, x < ULONG_MOD) (hr : ∃ x ∈ T, r ≥ x) :
    (Thermocycler.tableScan T r = 0 ∧
      Thermocycler.TableLookup T T.length start r = some (start : ℚ)) ∨
    (∃ hi lo : Nat, 0 < Thermocycler.tableScan T r ∧
      T[Thermocycler.tableScan T r - 1]? = some hi ∧
      T[Thermocycler.tableScan T r]? = some lo ∧ lo ≤ r ∧ r < hi ∧
      Thermocycler.TableLookup T T.length start r =
        some (((Thermocycler.tableScan T r : ℕ) : ℚ) + (start : ℚ) -
          ((r - lo : ℕ) : ℚ) / ((hi - lo : ℕ) : ℚ))) := by
  have hlt := tableScan_lt_length T r hr
  obtain ⟨hspec1, hspec2⟩ := tableScan_spec T r
  by_cases h0 : Thermocycler.tableScan T r = 0
  · left
    refine ⟨h0, ?_⟩
    simp [Thermocycler.TableLookup, List.take_length, h0]
  · right
    have hpos : 0 < Thermocycler.tableScan T r := Nat.pos_of_ne_zero h0
    have hlo : T[Thermocycler.tableScan T r]? = some (T[Thermocycler.tableScan T r]) :=
      List.getElem?_eq_getElem hlt
    have hhi : T[Thermocycler.tableScan T r - 1]? =
        some (T[Thermocycler.tableScan T r - 1]) :=
      List.getElem?_eq_getElem (by omega)
    have h1 := hspec1 _ hlo
    have h2 := hspec2 _ _ (by omega) hhi
    have hb := hB _ (List.getElem?_mem hhi)
    refine ⟨_, _, hpos, hhi, hlo, h1, h2, ?_⟩
    unfold Thermocycler.TableLookup
    simp only [List.take_length, if_pos hpos, hhi, hlo]
    rw [ulSub_of_le _ _ h1 (by omega), ulSub_of_le _ _ (by omega) hb]
    push_cast
    rfl

/-- `TableLookup` at a table entry, on a strictly decreasing table: the index of the entry
plus the baseline. -/
theorem TableLookup_entry (T : List Nat) (start : Int) (i x : Nat)
    (hT : T.Pairwise (· > ·)) (hx : T[i]? = some x) :
    Thermocycler.TableLookup T T.length start x = some ((start : ℚ) + (i : ℚ)) := by
  have hscan := tableScan_entry T hT i x hx
  unfold Thermocycler.TableLookup
  simp only [List.take_length, hscan]
  cases i with
  | zero => simp
  | succ k =>
    have hk : k < T.length := by
      have := (List.getElem?_eq_some.mp hx).1
      omega
    have hhi : T[k + 1 - 1]? = some (T[k]) := by
      simp only [Nat.add_sub_cancel]
      exact List.getElem?_eq_getElem hk
    have hzero : ulSub x x = 0 := by
      unfold ulSub ULONG_MOD
      have := Nat.mod_lt x (show 4294967296 > 0 by norm_num)
      omega
    simp only [if_pos (Nat.succ_pos k), hhi, hx, hzero]
    push_cast
    simp
    ring

/-- `TableLookup` is antitone on a strictly decreasing table of `unsigned long` entries,
over the search values at or above some entry of the table. -/
theorem TableLookup_antitone (T : List Nat) (start : Int) (r1 r2 : Nat)
    (hB : ∀ x ∈ T, x < ULONG_MOD) (h12 : r1 ≤ r2) (hr : ∃ x ∈ T, r1 ≥ x) :
    ∃ v1 v2 : ℚ, Thermocycler.TableLookup T T.length start r1 = some v1 ∧
      Thermocycler.TableLookup T T.length start r2 = some v2 ∧ v2 ≤ v1 := by
  have hr2 : ∃ x ∈ T, r2 ≥ x := by
    obtain ⟨x, hx, h⟩ := hr
    exact ⟨x, hx, le_trans h h12⟩
  have hanti := tableScan_antitone T r1 r2 h12
  rcases TableLookup_in_range T start r1 hB hr with ⟨z1, e1⟩ | ⟨hi1, lo1, p1, a1, b1, c1, d1, e1⟩
  · -- both searches stop at index 0
    have z2 : Thermocycler.tableScan T r2 = 0 := by omega
    rcases TableLookup_in_range T start r2 hB hr2 with ⟨_, e2⟩ | ⟨_, _, p2, _⟩
    · exact ⟨_, _, e1, e2, le_refl _⟩
    · omega
  · rcases TableLookup_in_range T start r2 hB hr2 with
      ⟨z2, e2⟩ | ⟨hi2, lo2, p2, a2, b2, c2, d2, e2⟩
    · -- the second search stops at index 0, the first later
      refine ⟨_, _, e1, e2, ?_⟩
      have hfrac : ((r1 - lo1 : ℕ) : ℚ) / ((hi1 - lo1 : ℕ) : ℚ) ≤ 1 := by
        apply div_le_one_of_le₀
        · exact_mod_cast (by omega : r1 - lo1 ≤ hi1 - lo1)
        · exact Nat.cast_nonneg _
      have hone : (1 : ℚ) ≤ ((Thermocycler.tableScan T r1 : ℕ) : ℚ) := by
        exact_mod_cast p1
      linarith
    · refine ⟨_, _, e1, e2, ?_⟩
      have hden1 : (0 : ℚ) < ((hi1 - lo1 : ℕ) : ℚ) := by
        exact_mod_cast (by omega : 0 < hi1 - lo1)
      have hnn2 : (0 : ℚ) ≤ ((r2 - lo2 : ℕ) : ℚ) / ((hi2 - lo2 : ℕ) : ℚ) :=
        div_nonneg (Nat.cast_nonneg _) (Nat.cast_nonneg _)
      by_cases heq : Thermocycler.tableScan T r2 = Thermocycler.tableScan T r1
      · -- both searches stop at the same index
        rw [heq] at a2 b2
        rw [a1] at a2
        rw [b1] at b2
        cases a2
        cases b2
        rw [heq]
        have : ((r1 - lo1 : ℕ) : ℚ) / ((hi1 - lo1 : ℕ) : ℚ) ≤
            ((r2 - lo1 : ℕ) : ℚ) / ((hi1 - lo1 : ℕ) : ℚ) := by
          apply div_le_div_of_nonneg_right _ (le_of_lt hden1)
          exact_mod_cast (by omega : r1 - lo1 ≤ r2 - lo1)
        linarith
      · -- the second search stops earlier
        have hlt : Thermocycler.tableScan T r2 + 1 ≤ Thermocycler.tableScan T r1 := by
          omega
        have hlt' : ((Thermocycler.tableScan T r2 : ℕ) : ℚ) + 1 ≤
            ((Thermocycler.tableScan T r1 : ℕ) : ℚ) := by
          exact_mod_cast hlt
        have hfrac : ((r1 - lo1 : ℕ) : ℚ) / ((hi1 - lo1 : ℕ) : ℚ) ≤ 1 := by
          apply div_le_one_of_le₀
          · exact_mod_cast (by omega : r1 - lo1 ≤ hi1 - lo1)
          · exact Nat.cast_nonneg _
        linarith

/-- The plate table has 146 entries. -/
theorem plate_table_length : PLATE_RESISTANCE_TABLE.length = 146 := rfl

/-- The lid table has 126 entries. -/
theorem lid_table_length : LID_RESISTANCE_TABLE.length = 126 := rfl

set_option maxRecDepth 100000 in
/-- The plate table is strictly decreasing. -/
theorem plate_table_decreasing : PLATE_RESISTANCE_TABLE.Pairwise (· > ·) := by
  decide

set_option maxRecDepth 100000 in
/-- The lid table is strictly decreasing. -/
theorem lid_table_decreasing : LID_RESISTANCE_TABLE.Pairwise (· > ·) := by
  decide

set_option maxRecDepth 100000 in
/-- The entries of the plate table are `unsigned long` values. -/
theorem plate_table_bound : ∀ x ∈ PLATE_RESISTANCE_TABLE, x < ULONG_MOD := by
  decide

set_option maxRecDepth 100000 in
/-- The entries of the lid table are `unsigned int` values. -/
theorem lid_table_bound : ∀ x ∈ LID_RESISTANCE_TABLE, x < ULONG_MOD := by
  decide

set_option maxRecDepth 100000 in
/-- The last entry of the plate table is 5876 and its first entry 3364790. -/
theorem plate_table_ends :
    PLATE_RESISTANCE_TABLE.head? = some 3364790 ∧ 5876 ∈ PLATE_RESISTANCE_TABLE ∧
    ∀ x ∈ PLATE_RESISTANCE_TABLE, 5876 ≤ x := by
  decide

set_option maxRecDepth 100000 in
/-- The last entry of the lid table is 337 and its first entry 32919. -/
theorem lid_table_ends :
    LID_RESISTANCE_TABLE.head? = some 32919 ∧ 337 ∈ LID_RESISTANCE_TABLE ∧
    ∀ x ∈ LID_RESISTANCE_TABLE, 337 ≤ x := by
  decide

/-- `TableLookup` at or above the first entry of a table: the baseline, whatever the other
entries of the table. -/
theorem TableLookup_first (e : Nat) (rest : List Nat) (n : Nat) (start : Int) (r : Nat)
    (hn : 0 < n) (hr : r ≥ e) :
    Thermocycler.TableLookup (e :: rest) n start r = some (start : ℚ) := by
  obtain ⟨k, rfl⟩ : ∃ k, n = k + 1 := ⟨n - 1, by omega⟩
  simp [Thermocycler.TableLookup, Thermocycler.tableScan, hr]

/-- `TableLookup` below every entry of a non-empty table: the search exhausts the table and
the read of the entry at index `tableSize` is outside the table. -/
theorem TableLookup_below (T : List Nat) (start : Int) (r : Nat)
    (hne : 0 < T.length) (h : ∀ x ∈ T, r < x) :
    Thermocycler.TableLookup T T.length start r = none := by
  have hscan := tableScan_eq_length T r h
  have hout : T[T.length]? = none := List.getElem?_eq_none (le_refl _)
  unfold Thermocycler.TableLookup
  simp only [List.take_length, hscan, if_pos hne, hout]
  cases T[T.length - 1]? <;> rfl

/-- C12: for each of the two calibration tables and every index `i` below the table size,
`TableLookup` applied to a resistance exactly equal to entry `i` returns exactly the integer
baseline + `i`: -40 + `i` for the plate table, 0 + `i` for the lid table. -/
theorem lookup_at_entry :
    (∀ i : Nat, i < 146 → ∃ x, PLATE_RESISTANCE_TABLE[i]? = some x ∧
      Thermocycler.TableLookup PLATE_RESISTANCE_TABLE 146 (-40) x =
        some (((-40 + (i : Int) : Int)) : ℚ)) ∧
    (∀ i : Nat, i < 126 → ∃ x, LID_RESISTANCE_TABLE[i]? = some x ∧
      Thermocycler.TableLookup LID_RESISTANCE_TABLE 126 0 x =
        some (((0 + (i : Int) : Int)) : ℚ)) := by
  constructor
  · intro i hi
    have hx : PLATE_RESISTANCE_TABLE[i]? = some (PLATE_RESISTANCE_TABLE[i]) :=
      List.getElem?_eq_getElem (by rw [plate_table_length]; exact hi)
    refine ⟨_, hx, ?_⟩
    have h := TableLookup_entry PLATE_RESISTANCE_TABLE (-40) i _ plate_table_decreasing hx
    rw [plate_table_length] at h
    rw [h]
    push_cast
    rfl
  · intro i hi
    have hx : LID_RESISTANCE_TABLE[i]? = some (LID_RESISTANCE_TABLE[i]) :=
      List.getElem?_eq_getElem (by rw [lid_table_length]; exact hi)
    refine ⟨_, hx, ?_⟩
    have h := TableLookup_entry LID_RESISTANCE_TABLE 0 i _ lid_table_decreasing hx
    rw [lid_table_length] at h
    rw [h]
    push_cast
    rfl

/-- C13: saturate low. For every table, every resistance at or above its first entry gives
exactly the baseline `startValue`, whatever the other entries of the table (first part); in
particular every resistance at or above 3364790 gives -40 on the plate table and every
resistance at or above 32919 gives 0 on the lid table. -/
theorem lookup_saturates_low :
    (∀ (e : Nat) (rest : List Nat) (n : Nat) (startValue : Int) (r : Nat),
      0 < n → r ≥ e →
      Thermocycler.TableLookup (e :: rest) n startValue r = some (startValue : ℚ)) ∧
    PLATE_RESISTANCE_TABLE.head? = some 3364790 ∧
    (∀ r : Nat, r ≥ 3364790 →
      Thermocycler.TableLookup PLATE_RESISTANCE_TABLE 146 (-40) r = some (-40)) ∧
    LID_RESISTANCE_TABLE.head? = some 32919 ∧
    (∀ r : Nat, r ≥ 32919 →
      Thermocycler.TableLookup LID_RESISTANCE_TABLE 126 0 r = some 0) := by
  refine ⟨TableLookup_first, rfl, ?_, rfl, ?_⟩
  · intro r hr
    have h := TableLookup_first 3364790 PLATE_RESISTANCE_TABLE.tail 146 (-40) r
      (by norm_num) hr
    simpa using h
  · intro r hr
    have h := TableLookup_first 32919 LID_RESISTANCE_TABLE.tail 126 0 r (by norm_num) hr
    simpa using h

/-- Monotonicity of the calibration lookup over the range of the table: for each calibration
table and every pair of resistances `r1 <= r2` with `r1` at or above the table's last
(hottest) entry, 5876 for the plate and 337 for the lid, both lookups have a value and
`TableLookup(r1) >= TableLookup(r2)`, the interpolation being exact rational arithmetic. -/
theorem lookup_monotone_in_range (r1 r2 : Nat) (h : r1 ≤ r2) :
    (5876 ≤ r1 → ∃ v1 v2 : ℚ,
      Thermocycler.TableLookup PLATE_RESISTANCE_TABLE 146 (-40) r1 = some v1 ∧
      Thermocycler.TableLookup PLATE_RESISTANCE_TABLE 146 (-40) r2 = some v2 ∧ v2 ≤ v1) ∧
    (337 ≤ r1 → ∃ v1 v2 : ℚ,
      Thermocycler.TableLookup LID_RESISTANCE_TABLE 126 0 r1 = some v1 ∧
      Thermocycler.TableLookup LID_RESISTANCE_TABLE 126 0 r2 = some v2 ∧ v2 ≤ v1) := by
  refine ⟨fun hr => ?_, fun hr => ?_⟩
  · have := TableLookup_antitone PLATE_RESISTANCE_TABLE (-40) r1 r2 plate_table_bound h
      ⟨5876, plate_table_ends.2.1, hr⟩
    rwa [plate_table_length] at this
  · have := TableLookup_antitone LID_RESISTANCE_TABLE 0 r1 r2 lid_table_bound h
      ⟨337, lid_table_ends.2.1, hr⟩
    rwa [lid_table_length] at this

/-! ## The ETA estimator -/

/-- The estimate `UpdateEta` stores in the Running state. -/
theorem UpdateEta_running (s : Thermocycler) (now : Nat)
    (h : s.iProgramState = ProgramState.ERunning) :
    (s.UpdateEta now).iEstimatedTimeRemainingS =
      if s.estimatedDurationS > s.GetElapsedTimeS now then
        s.estimatedDurationS - s.GetElapsedTimeS now
      else 0 := by
  show (if s.iProgramState = ProgramState.ERunning then _ else _) = _
  rw [if_pos h]
  rfl

/-- The estimate after the three control calls that end a tick, when the state is
Running. -/
theorem controls_eta (s : Thermocycler) (t : TickInput)
    (h : s.iProgramState = ProgramState.ERunning) :
    (((s.ControlPeltier t.platePidLaw).ControlLid t.lidPidLaw).UpdateEta
      t.millis).iEstimatedTimeRemainingS =
      if s.estimatedDurationS > s.GetElapsedTimeS t.millis then
        s.estimatedDurationS - s.GetElapsedTimeS t.millis
      else 0 :=
  UpdateEta_running ((s.ControlPeltier t.platePidLaw).ControlLid t.lidPidLaw) t.millis h

/-- A `Loop` tick that observes external power absent ends in Off. -/
theorem Loop_unpowered (s s1 : Thermocycler) (t : TickInput)
    (hPower : t.externalPower = false) (h : s.Loop t = some s1) :
    s1.iProgramState = ProgramState.EOff := by
  obtain ⟨s3, h3, rfl⟩ := Loop_some s s1 t h
  show s3.iProgramState = ProgramState.EOff
  have hadv := advanceProgram_state _ _ _ h3
  rcases CheckPower_cases s t.externalPower t.millis with
    ⟨hp, _, _⟩ | ⟨_, _, hc⟩ | ⟨hiff, hc⟩
  · rw [hPower] at hp; exact absurd hp (by decide)
  · rw [hc] at hadv
    dsimp only at hadv
    rcases hadv with h1 | ⟨h1, _⟩ | ⟨h1, _⟩ | ⟨h1, _⟩
    · exact h1
    · exact absurd h1 (by decide)
    · exact absurd h1 (by decide)
    · exact absurd h1 (by decide)
  · have hoff : s.iProgramState = ProgramState.EOff := by
      by_contra hne
      have := hiff.mpr hne
      rw [hPower] at this
      exact absurd this (by decide)
    rw [hc] at hadv
    dsimp only at hadv
    rw [hoff] at hadv
    rcases hadv with h1 | ⟨h1, _⟩ | ⟨h1, _⟩ | ⟨h1, _⟩
    · exact h1
    · exact absurd h1 (by decide)
    · exact absurd h1 (by decide)
    · exact absurd h1 (by decide)

/-- The `ERunning` case of the `switch` statement of `Loop`, when no ramp ends: the budgets,
the ramp accumulators and the program start time are untouched. -/
theorem advanceProgram_running_eta (s s3 : Thermocycler) (t : TickInput) (cur : Step)
    (hState : s.iProgramState = ProgramState.ERunning)
    (hCur : s.ipCurrentStep = some cur)
    (hNoEnd : ¬ (s.iRamping = true ∧
      absf (cur.GetTemp - s.iPlateTemp) ≤ CYCLE_START_TOLERANCE))
    (h : s.advanceProgram t = some s3) :
    s3.estimatedDurationS = s.estimatedDurationS ∧
    s3.iProgramStartTimeMs = s.iProgramStartTimeMs := by
  rw [advanceProgram_running s t cur hState hCur, if_neg hNoEnd] at h
  split_ifs at h with h2
  · cases hp : s.ipProgram with
    | none => simp [hp] at h
    | some p =>
      simp only [hp] at h
      cases hn : p.GetNextStep.1 with
      | none =>
        simp only [hn, Option.some.injEq] at h
        subst h
        exact ⟨rfl, rfl⟩
      | some nxt =>
        simp only [hn] at h
        split_ifs at h
        all_goals
          simp only [Option.some.injEq] at h
          subst h
          exact ⟨rfl, rfl⟩
  · simp only [Option.some.injEq] at h
    subst h
    exact ⟨rfl, rfl⟩

/-- The `ERunning` case of the `switch` statement of `Loop` dereferences the current
step. -/
theorem advanceProgram_running_null (s : Thermocycler) (t : TickInput)
    (hState : s.iProgramState = ProgramState.ERunning) (hCur : s.ipCurrentStep = none) :
    s.advanceProgram t = none := by
  unfold Thermocycler.advanceProgram
  rw [hState]
  simp only [hCur]

/-- C15 amended: for every two consecutive `Loop` ticks that both end in the Running state,
when the later tick does not end a ramp (it does not find the plate within 0.2 of the
current step while ramping) and the elapsed time `millis() - iProgramStartTimeMs`, in 32-bit
unsigned arithmetic, has not wrapped between the two ticks, the estimated time remaining
after the later tick is less than or equal to the estimate after the earlier tick. -/
theorem eta_non_increasing (s s1 s2 : Thermocycler) (t1 t2 : TickInput)
    (h1 : s.Loop t1 = some s1) (hR1 : s1.iProgramState = ProgramState.ERunning)
    (h2 : s1.Loop t2 = some s2) (hR2 : s2.iProgramState = ProgramState.ERunning)
    (hNoEnd : ¬ (s1.iRamping = true ∧ ∃ cur, s1.ipCurrentStep = some cur ∧
      |cur.GetTemp - t2.plateTemp| ≤ 2 / 10))
    (hClock : ulSub t1.millis s1.iProgramStartTimeMs ≤
      ulSub t2.millis s1.iProgramStartTimeMs) :
    s2.iEstimatedTimeRemainingS ≤ s1.iEstimatedTimeRemainingS := by
  -- the earlier tick
  obtain ⟨x, _, hs1⟩ := Loop_some s s1 t1 h1
  have hxR : x.iProgramState = ProgramState.ERunning := by rw [hs1] at hR1; exact hR1
  have e1 : s1.iEstimatedTimeRemainingS =
      if x.estimatedDurationS > x.GetElapsedTimeS t1.millis then
        x.estimatedDurationS - x.GetElapsedTimeS t1.millis
      else 0 := by
    rw [hs1]; exact controls_eta x t1 hxR
  have fD : s1.estimatedDurationS = x.estimatedDurationS := by rw [hs1]; rfl
  have fS : s1.iProgramStartTimeMs = x.iProgramStartTimeMs := by rw [hs1]; rfl
  -- the later tick observes power present
  have hPower : t2.externalPower = true := by
    cases hp : t2.externalPower with
    | true => rfl
    | false =>
      have := Loop_unpowered s1 s2 t2 hp h2
      rw [hR2] at this
      exact absurd this (by decide)
  have hOn : s1.iProgramState ≠ ProgramState.EOff := by rw [hR1]; decide
  have hL := Loop_powered s1 t2 hPower hOn
  rw [h2] at hL
  cases hy : Thermocycler.advanceProgram
      { s1 with iPlateTemp := t2.plateTemp, iLidTemp := t2.lidTemp } t2 with
  | none => rw [hy] at hL; exact absurd hL (by simp)
  | some y =>
    rw [hy] at hL
    have hs2 : s2 = ((y.ControlPeltier t2.platePidLaw).ControlLid t2.lidPidLaw).UpdateEta
        t2.millis := by
      simpa using hL
    have hyR : y.iProgramState = ProgramState.ERunning := by rw [hs2] at hR2; exact hR2
    cases hcur : s1.ipCurrentStep with
    | none =>
      rw [advanceProgram_running_null
        { s1 with iPlateTemp := t2.plateTemp, iLidTemp := t2.lidTemp } t2 hR1 hcur] at hy
      exact absurd hy (by simp)
    | some cur =>
      obtain ⟨gD, gS⟩ := advanceProgram_running_eta
        { s1 with iPlateTemp := t2.plateTemp, iLidTemp := t2.lidTemp } y t2 cur hR1 hcur
        (fun hc => hNoEnd ⟨hc.1, cur, hcur, hc.2⟩) hy
      have gD' : y.estimatedDurationS = x.estimatedDurationS := gD.trans fD
      have gS' : y.iProgramStartTimeMs = x.iProgramStartTimeMs := gS.trans fS
      have e2 : s2.iEstimatedTimeRemainingS =
          if y.estimatedDurationS > y.GetElapsedTimeS t2.millis then
            y.estimatedDurationS - y.GetElapsedTimeS t2.millis
          else 0 := by
        rw [hs2]; exact controls_eta y t2 hyR
      have hElapsed : x.GetElapsedTimeS t1.millis ≤ y.GetElapsedTimeS t2.millis := by
        unfold Thermocycler.GetElapsedTimeS
        rw [gS', ← fS]
        exact Nat.div_le_div_right hClock
      rw [e1, e2, gD']
      split_ifs <;> omega

/-- The estimate after a `Loop` tick in Running, with power present, that neither ends a
ramp nor finds an expired hold. -/
theorem Loop_running_idle_eta (s : Thermocycler) (t : TickInput) (cur : Step)
    (hState : s.iProgramState = ProgramState.ERunning)
    (hPower : t.externalPower = true)
    (hCur : s.ipCurrentStep = some cur)
    (hRamp : ¬ (s.iRamping = true ∧
      absf (cur.GetTemp - t.plateTemp) ≤ CYCLE_START_TOLERANCE))
    (hHold : ¬ (s.iRamping = false ∧ cur.IsFinal = false ∧
      ulSub t.millis s.iCycleStartTime > ulMul cur.GetDuration 1000)) :
    ∃ s1, s.Loop t = some s1 ∧
      s1.iProgramState = ProgramState.ERunning ∧
      s1.ipCurrentStep = some cur ∧
      s1.iRamping = s.iRamping ∧
      s1.iRampStartTemp = s.iRampStartTemp ∧
      s1.iRampStartTime = s.iRampStartTime ∧
      s1.iProgramStartTimeMs = s.iProgramStartTimeMs ∧
      s1.iProgramHoldDurationS = s.iProgramHoldDurationS ∧
      s1.iProgramRampDegrees = s.iProgramRampDegrees ∧
      s1.iElapsedRampDegrees = s.iElapsedRampDegrees ∧
      s1.iElapsedRampDurationMs = s.iElapsedRampDurationMs ∧
      s1.iHasCooled = s.iHasCooled ∧
      s1.iEstimatedTimeRemainingS =
        (if s.estimatedDurationS > s.GetElapsedTimeS t.millis then
          s.estimatedDurationS - s.GetElapsedTimeS t.millis
         else 0) := by
  have hOn : s.iProgramState ≠ ProgramState.EOff := by rw [hState]; decide
  have hL := Loop_powered s t hPower hOn
  rw [advanceProgram_running
    { s with iPlateTemp := t.plateTemp, iLidTemp := t.lidTemp } t cur hState hCur] at hL
  dsimp only at hL
  rw [if_neg hRamp, if_neg hHold] at hL
  exact ⟨_, hL, hState, hCur, rfl, rfl, rfl, rfl, rfl, rfl, rfl, rfl, rfl,
    controls_eta { s with iPlateTemp := t.plateTemp, iLidTemp := t.lidTemp } t hState⟩

/-- The estimate after a `Loop` tick in Running, with power present, that ends a ramp: the
ramp just ended is added to the accumulators before the estimate is computed. -/
theorem Loop_running_ramp_end_eta (s : Thermocycler) (t : TickInput) (cur : Step)
    (hState : s.iProgramState = ProgramState.ERunning)
    (hPower : t.externalPower = true)
    (hCur : s.ipCurrentStep = some cur)
    (hRamping : s.iRamping = true)
    (hTemp : absf (cur.GetTemp - t.plateTemp) ≤ CYCLE_START_TOLERANCE) :
    ∃ s1, s.Loop t = some s1 ∧
      s1.iProgramState = ProgramState.ERunning ∧
      s1.iEstimatedTimeRemainingS =
        (if doubleToULong ((s.iProgramHoldDurationS : ℚ) + s.iProgramRampDegrees *
              (if s.iElapsedRampDegrees + absf (t.plateTemp - s.iRampStartTemp) = 0 ∨
                  (if s.iRampStartTemp > t.plateTemp then true else s.iHasCooled) = false
               then 1
               else ((ulAdd s.iElapsedRampDurationMs (ulSub t.millis s.iRampStartTime) /
                  1000 : Nat) : ℚ) /
                 (s.iElapsedRampDegrees + absf (t.plateTemp - s.iRampStartTemp))))
            > s.GetElapsedTimeS t.millis then
          doubleToULong ((s.iProgramHoldDurationS : ℚ) + s.iProgramRampDegrees *
              (if s.iElapsedRampDegrees + absf (t.plateTemp - s.iRampStartTemp) = 0 ∨
                  (if s.iRampStartTemp > t.plateTemp then true else s.iHasCooled) = false
               then 1
               else ((ulAdd s.iElapsedRampDurationMs (ulSub t.millis s.iRampStartTime) /
                  1000 : Nat) : ℚ) /
                 (s.iElapsedRampDegrees + absf (t.plateTemp - s.iRampStartTemp))))
            - s.GetElapsedTimeS t.millis
         else 0) := by
  have hOn : s.iProgramState ≠ ProgramState.EOff := by rw [hState]; decide
  have hL := Loop_powered s t hPower hOn
  rw [advanceProgram_running
    { s with iPlateTemp := t.plateTemp, iLidTemp := t.lidTemp } t cur hState hCur] at hL
  dsimp only at hL
  rw [if_pos ⟨hRamping, hTemp⟩] at hL
  exact ⟨_, hL, hState, controls_eta _ t hState⟩

/-- C15 as stated fails: in a Running state cooling from 100 to 95, with a hold budget of
60 s and a ramp budget of 100 degrees, the tick at clock value 10000 leaves the estimate at
150 s (rate 1.0 s per degree, no cooling ramp completed yet), and the next tick, at clock
value 11000, ends the cooling ramp (5 degrees in 11 s), so that the rate becomes 11/5 s per
degree and the estimate 269 s. -/
theorem eta_counterexample :
    ∃ s1 s2 : Thermocycler,
      coolingState.Loop (tickOf true 10000 98 100) = some s1 ∧
      s1.iProgramState = ProgramState.ERunning ∧
      s1.Loop (tickOf true 11000 95 100) = some s2 ∧
      s2.iProgramState = ProgramState.ERunning ∧
      s1.iEstimatedTimeRemainingS = 150 ∧
      s2.iEstimatedTimeRemainingS = 269 ∧
      ¬ s2.iEstimatedTimeRemainingS ≤ s1.iEstimatedTimeRemainingS := by
  obtain ⟨s1, h1, a1, a2, a3, a4, a5, a6, a7, a8, a9, a10, a11, a12⟩ :=
    Loop_running_idle_eta coolingState (tickOf true 10000 98 100)
      { iTemp := 95, iDuration := 30, iFinal := false } rfl rfl rfl
      (fun h => absurd h.2 (by
        show ¬ |(95 : ℚ) - 98| ≤ 2 / 10
        norm_num [abs_le]))
      (fun h => absurd h.1 (by decide))
  obtain ⟨s2, h2, b1, b2⟩ :=
    Loop_running_ramp_end_eta s1 (tickOf true 11000 95 100)
      { iTemp := 95, iDuration := 30, iFinal := false } a1 rfl a2 (a3.trans rfl)
      (by
        show |(95 : ℚ) - 95| ≤ 2 / 10
        norm_num)
  have e1 : s1.iEstimatedTimeRemainingS = 150 := by
    rw [a12]
    show (if doubleToULong (((60 : ℕ) : ℚ) + 100 * (if (0 : ℚ) = 0 ∨ false = false then 1
        else (((0 : ℕ) / 1000 : ℕ) : ℚ) / 0)) > ulSub 10000 0 / 1000 then
      doubleToULong (((60 : ℕ) : ℚ) + 100 * (if (0 : ℚ) = 0 ∨ false = false then 1
        else (((0 : ℕ) / 1000 : ℕ) : ℚ) / 0)) - ulSub 10000 0 / 1000 else 0) = 150
    norm_num [doubleToULong, ulSub, ULONG_MOD]
    decide
  have e2 : s2.iEstimatedTimeRemainingS = 269 := by
    rw [b2]
    unfold Thermocycler.GetElapsedTimeS
    rw [a4, a5, a6, a7, a8, a9, a10, a11]
    show (if doubleToULong (((60 : ℕ) : ℚ) + 100 *
          (if (0 : ℚ) + absf (95 - 100) = 0 ∨
              (if (100 : ℚ) > 95 then true else false) = false then 1
           else ((ulAdd 0 (ulSub 11000 0) / 1000 : ℕ) : ℚ) / (0 + absf (95 - 100))))
        > ulSub 11000 0 / 1000 then
      doubleToULong (((60 : ℕ) : ℚ) + 100 *
          (if (0 : ℚ) + absf (95 - 100) = 0 ∨
              (if (100 : ℚ) > 95 then true else false) = false then 1
           else ((ulAdd 0 (ulSub 11000 0) / 1000 : ℕ) : ℚ) / (0 + absf (95 - 100))))
        - ulSub 11000 0 / 1000 else 0) = 269
    norm_num [doubleToULong, ulSub, ulAdd, ULONG_MOD, absf, abs_of_nonneg]
    decide
  refine ⟨s1, s2, h1, a1, h2, b1, e1, e2, ?_⟩
  rw [e1, e2]
  norm_num

/-- C15 amended, on the cooling state: two consecutive ticks, at clock values 10000 and
10500, neither of which ends the ramp. -/
theorem eta_non_increasing_witness :
    ∃ s1 s2 : Thermocycler,
      coolingState.Loop (tickOf true 10000 98 100) = some s1 ∧
      s1.iProgramState = ProgramState.ERunning ∧
      s1.Loop (tickOf true 10500 97 100) = some s2 ∧
      s2.iProgramState = ProgramState.ERunning ∧
      s2.iEstimatedTimeRemainingS ≤ s1.iEstimatedTimeRemainingS := by
  obtain ⟨s1, h1, a1, a2, a3, _, _, a6, _⟩ :=
    Loop_running_idle_eta coolingState (tickOf true 10000 98 100)
      { iTemp := 95, iDuration := 30, iFinal := false } rfl rfl rfl
      (fun h => absurd h.2 (by
        show ¬ |(95 : ℚ) - 98| ≤ 2 / 10
        norm_num [abs_le]))
      (fun h => absurd h.1 (by decide))
  have hRamping : s1.iRamping = true := a3.trans rfl
  obtain ⟨s2, h2, b1, _⟩ :=
    Loop_running_idle_eta s1 (tickOf true 10500 97 100)
      { iTemp := 95, iDuration := 30, iFinal := false } a1 rfl a2
      (fun h => absurd h.2 (by
        show ¬ |(95 : ℚ) - 97| ≤ 2 / 10
        norm_num [abs_le]))
      (fun h => by rw [hRamping] at h; exact absurd h.1 (by decide))
  refine ⟨s1, s2, h1, a1, h2, b1, ?_⟩
  exact eta_non_increasing coolingState s1 s2 (tickOf true 10000 98 100)
    (tickOf true 10500 97 100) h1 a1 h2 b1
    (fun h => by
      obtain ⟨_, cur, hc, ht⟩ := h
      rw [a2] at hc
      cases hc
      exact absurd ht (by
        show ¬ |(95 : ℚ) - 97| ≤ 2 / 10
        norm_num [abs_le]))
    (by
      rw [a6]
      show ulSub 10000 0 ≤ ulSub 10500 0
      decide)

/-! ## The display cycle -/

/-- The display-cycle search: either no component is a Cycle of repeat count above the
running maximum and the running display cycle is kept, or the result is a component Cycle
whose repeat count is above the running maximum and is the largest among the component
Cycles. -/
theorem findDisplayCycle_spec (cs : List ProgramComponent) :
    ∀ (l : Nat) (d : Cycle),
      (Thermocycler.findDisplayCycle cs l d = d ∧
        ∀ n sub, ProgramComponent.ECycle n sub ∈ cs → n ≤ l) ∨
      (∃ n sub, ProgramComponent.ECycle n sub ∈ cs ∧
        Thermocycler.findDisplayCycle cs l d =
          { iNumCycles := n, iComponents := sub, iPosition := 0 } ∧
        l < n ∧ ∀ m sub1, ProgramComponent.ECycle m sub1 ∈ cs → m ≤ n) := by
  induction cs with
  | nil => intro l d; left; exact ⟨rfl, fun n sub h => by simp at h⟩
  | cons c rest ih =>
    intro l d
    cases c with
    | EStep st =>
      rcases ih l d with ⟨h1, h2⟩ | ⟨n, sub, h1, h2, h3, h4⟩
      · left
        refine ⟨h1, fun n sub h => ?_⟩
        rcases List.mem_cons.mp h with h | h
        · cases h
        · exact h2 n sub h
      · right
        refine ⟨n, sub, List.mem_cons_of_mem _ h1, h2, h3, fun m sub1 h => ?_⟩
        rcases List.mem_cons.mp h with h | h
        · cases h
        · exact h4 m sub1 h
    | ECycle k sub0 =>
      by_cases hk : k > l
      · have hdef : Thermocycler.findDisplayCycle (ProgramComponent.ECycle k sub0 :: rest) l d =
            Thermocycler.findDisplayCycle rest k
              { iNumCycles := k, iComponents := sub0, iPosition := 0 } := by
          simp only [Thermocycler.findDisplayCycle, if_pos hk]
        rw [hdef]
        right
        rcases ih k { iNumCycles := k, iComponents := sub0, iPosition := 0 } with
          ⟨h1, h2⟩ | ⟨n, sub, h1, h2, h3, h4⟩
        · refine ⟨k, sub0, List.mem_cons_self _ _, h1, hk, fun m sub1 h => ?_⟩
          rcases List.mem_cons.mp h with h | h
          · cases h; exact le_refl _
          · exact h2 m sub1 h
        · refine ⟨n, sub, List.mem_cons_of_mem _ h1, h2, by omega, fun m sub1 h => ?_⟩
          rcases List.mem_cons.mp h with h | h
          · cases h; omega
          · exact h4 m sub1 h
      · have hdef : Thermocycler.findDisplayCycle (ProgramComponent.ECycle k sub0 :: rest) l d =
            Thermocycler.findDisplayCycle rest l d := by
          simp only [Thermocycler.findDisplayCycle, if_neg hk]
        rw [hdef]
        rcases ih l d with ⟨h1, h2⟩ | ⟨n, sub, h1, h2, h3, h4⟩
        · left
          refine ⟨h1, fun m sub1 h => ?_⟩
          rcases List.mem_cons.mp h with h | h
          · cases h; omega
          · exact h2 m sub1 h
        · right
          refine ⟨n, sub, List.mem_cons_of_mem _ h1, h2, h3, fun m sub1 h => ?_⟩
          rcases List.mem_cons.mp h with h | h
          · cases h; omega
          · exact h4 m sub1 h

/-- The display cycle `ProcessCommand` installs for a Start command. -/
theorem ProcessCommand_display (s : Thermocycler) (c : SCommand) (p : Cycle)
    (hStart : c.command = SCommandType.EStart) (hProg : c.pProgram = some p) :
    ∃ s1, s.ProcessCommand c = some s1 ∧
      s1.ipDisplayCycle = some (Thermocycler.findDisplayCycle p.iComponents 0 p) ∧
      s1.ipProgram = some p := by
  refine ⟨_, ProcessCommand_start s c p hStart hProg, ?_, ?_⟩
  · by_cases hs : s.iProgramState = ProgramState.EOff <;>
      simp [Thermocycler.Start, Thermocycler.SetLidTarget, Stop_state, hs]
  · by_cases hs : s.iProgramState = ProgramState.EOff <;>
      simp [Thermocycler.Start, Thermocycler.SetLidTarget, Stop_state, hs]

/-- C16 as stated fails: for a Start command whose program has a Cycle of repeat count 30
nested in a child Cycle of repeat count 2, `ProcessCommand` installs the child of repeat
count 2 as display cycle; and for a program whose root has repeat count 5 and a child Cycle
of repeat count 2, it installs the child of repeat count 2, not the root. -/
theorem display_cycle_counterexample :
    nestedProgram.largestRepeatCount = 30 ∧
    (initialState.ProcessCommand (startCommand nestedProgram)).map
        (fun s1 => s1.ipDisplayCycle.map Cycle.GetNumCycles) = some (some 2) ∧
    repeatedRootProgram.largestRepeatCount = 5 ∧
    repeatedRootProgram.GetNumCycles = 5 ∧
    (initialState.ProcessCommand (startCommand repeatedRootProgram)).map
        (fun s1 => s1.ipDisplayCycle.map Cycle.GetNumCycles) = some (some 2) :=
  ⟨rfl, rfl, rfl, rfl, rfl⟩

/-- C16 amended: for every Start command, the display cycle that `ProcessCommand` passes to
`SetProgram` is a direct child Cycle of the root whose repeat count is positive and is the
largest among the direct child Cycles of the root; when the root has no direct child Cycle
of positive repeat count it is the root itself. The repeat count of the root and the Cycles
nested deeper are not compared. -/
theorem display_cycle_direct_children (s : Thermocycler) (c : SCommand) (p : Cycle)
    (hStart : c.command = SCommandType.EStart) (hProg : c.pProgram = some p) :
    ∃ s1 d, s.ProcessCommand c = some s1 ∧ s1.ipDisplayCycle = some d ∧
      ((d = p ∧ ∀ n sub, ProgramComponent.ECycle n sub ∈ p.iComponents → n = 0) ∨
       (∃ n sub, ProgramComponent.ECycle n sub ∈ p.iComponents ∧
          d = { iNumCycles := n, iComponents := sub, iPosition := 0 } ∧ 0 < n ∧
          ∀ m sub1, ProgramComponent.ECycle m sub1 ∈ p.iComponents → m ≤ n)) := by
  obtain ⟨s1, h1, h2, _⟩ := ProcessCommand_display s c p hStart hProg
  refine ⟨s1, _, h1, h2, ?_⟩
  rcases findDisplayCycle_spec p.iComponents 0 p with ⟨k1, k2⟩ | ⟨n, sub, k1, k2, k3, k4⟩
  · left
    exact ⟨k1, fun n sub h => Nat.le_zero.mp (k2 n sub h)⟩
  · right
    exact ⟨n, sub, k1, k2, k3, k4⟩

/-- C16 amended, on a Start command for the scenario program: the display cycle is the
child Cycle of repeat count 2. -/
theorem display_cycle_direct_children_witness :
    (startCommand scenarioProgram).command = SCommandType.EStart ∧
    (startCommand scenarioProgram).pProgram = some scenarioProgram ∧
    ∃ s1 d, initialState.ProcessCommand (startCommand scenarioProgram) = some s1 ∧
      s1.ipDisplayCycle = some d ∧
      ((d = scenarioProgram ∧
          ∀ n sub, ProgramComponent.ECycle n sub ∈ scenarioProgram.iComponents → n = 0) ∨
       (∃ n sub, ProgramComponent.ECycle n sub ∈ scenarioProgram.iComponents ∧
          d = { iNumCycles := n, iComponents := sub, iPosition := 0 } ∧ 0 < n ∧
          ∀ m sub1, ProgramComponent.ECycle m sub1 ∈ scenarioProgram.iComponents → m ≤ n)) :=
  ⟨rfl, rfl,
    display_cycle_direct_children initialState (startCommand scenarioProgram) scenarioProgram
      rfl rfl⟩

/-! ## Entry to Running -/

/-- The control part of a tick with power present, in a LidWait state with a program loaded
whose iterator yields a first step `st` after `BeginIteration`: it moves the program state
to Running if and only if lidTemp >= lidTarget - 1.0; otherwise the state stays LidWait and
the current step is untouched; when it moves, the current step is `st`, the plate target is
the temperature of `st`, the ramping flag is true, the elapsed-ramp accumulators are zero,
the has-cooled flag is false and the program start time is the clock value of the tick. -/
theorem Loop_lidwait_cases (s : Thermocycler) (t : TickInput) (p : Cycle) (st : Step)
    (hState : s.iProgramState = ProgramState.ELidWait)
    (hPower : t.externalPower = true)
    (hProg : s.ipProgram = some p)
    (hFirst : p.BeginIteration.GetNextStep.1 = some st) :
    ∃ s1, s.Loop t = some s1 ∧
      (s1.iProgramState = ProgramState.ERunning ↔ t.lidTemp ≥ s.iTargetLidTemp - 1) ∧
      (¬ t.lidTemp ≥ s.iTargetLidTemp - 1 →
        s1.iProgramState = ProgramState.ELidWait ∧ s1.ipCurrentStep = s.ipCurrentStep) ∧
      (t.lidTemp ≥ s.iTargetLidTemp - 1 →
        s1.ipCurrentStep = some st ∧
        s1.iTargetPlateTemp = st.GetTemp ∧
        s1.iRamping = true ∧
        s1.iElapsedRampDurationMs = 0 ∧
        s1.iElapsedRampDegrees = 0 ∧
        s1.iHasCooled = false ∧
        s1.iProgramStartTimeMs = t.millis) := by
  have hOn : s.iProgramState ≠ ProgramState.EOff := by rw [hState]; decide
  have hL := Loop_powered s t hPower hOn
  by_cases hLid : t.lidTemp ≥ s.iTargetLidTemp - 1
  · rw [advanceProgram_lidwait_enter
      { s with iPlateTemp := t.plateTemp, iLidTemp := t.lidTemp } t p st hState hProg hFirst
      hLid] at hL
    refine ⟨_, hL, ⟨fun _ => hLid, fun _ => rfl⟩, fun h => absurd hLid h,
      fun _ => ⟨rfl, rfl, rfl, rfl, rfl, rfl, rfl⟩⟩
  · rw [advanceProgram_lidwait_stay
      { s with iPlateTemp := t.plateTemp, iLidTemp := t.lidTemp } t hState hLid] at hL
    refine ⟨_, hL, ⟨fun h => ?_, fun h => absurd h hLid⟩, fun _ => ⟨hState, rfl⟩,
      fun h => absurd h hLid⟩
    have h' : s.iProgramState = ProgramState.ERunning := h
    rw [hState] at h'
    exact absurd h' (by decide)

/-! ## BangBang drive -/

/-- The conversion of a natural drive value to `int` is exact. -/
theorem doubleToInt_natCast (n : ℕ) : doubleToInt (n : ℚ) = (n : Int) := by
  unfold doubleToInt
  rw [if_pos (Nat.cast_nonneg n)]
  exact Int.floor_natCast n

/-- A plate control tick in an active state that ends in BangBang mode started in BangBang
mode with a gap of at least 2.0. -/
theorem ControlPeltier_bang_after (s : Thermocycler) (law : PidLaw)
    (hActive : s.iProgramState = ProgramState.ERunning ∨
      (s.iProgramState = ProgramState.EComplete ∧ s.ipCurrentStep ≠ none))
    (hAfter : (s.ControlPeltier law).iPlateControlMode = ControlMode.EBangBang) :
    s.iPlateControlMode = ControlMode.EBangBang ∧
    ¬ (s.iPlateControlMode = ControlMode.EBangBang ∧
      absf (s.iTargetPlateTemp - s.iPlateTemp) < PLATE_BANGBANG_THRESHOLD) := by
  rw [ControlPeltier_mode, if_pos hActive] at hAfter
  by_cases h : s.iPlateControlMode = ControlMode.EBangBang ∧
      absf (s.iTargetPlateTemp - s.iPlateTemp) < PLATE_BANGBANG_THRESHOLD
  · rw [if_pos h] at hAfter
    exact absurd hAfter (by decide)
  · rw [if_neg h] at hAfter
    exact ⟨hAfter, h⟩

/-- A lid control tick in an active state that ends in BangBang mode started in BangBang
mode with a gap of at least 2.0. -/
theorem ControlLid_bang_after (s : Thermocycler) (law : PidLaw)
    (hActive : s.iProgramState = ProgramState.ERunning ∨
      s.iProgramState = ProgramState.ELidWait)
    (hAfter : (s.ControlLid law).iLidControlMode = ControlMode.EBangBang) :
    s.iLidControlMode = ControlMode.EBangBang ∧
    ¬ (s.iLidControlMode = ControlMode.EBangBang ∧
      absf (s.iTargetLidTemp - s.iLidTemp) < LID_BANGBANG_THRESHOLD) := by
  rw [ControlLid_mode, if_pos hActive] at hAfter
  by_cases h : s.iLidControlMode = ControlMode.EBangBang ∧
      absf (s.iTargetLidTemp - s.iLidTemp) < LID_BANGBANG_THRESHOLD
  · rw [if_pos h] at hAfter
    exact absurd hAfter (by decide)
  · rw [if_neg h] at hAfter
    exact ⟨hAfter, h⟩

/-- C18: for every control tick in an active state after which the axis is still in BangBang
mode, its PID collaborator being in manual mode, the drive is full scale in the direction of
the target. Plate: +1023 with thermal direction HEAT when target > measured, -1023 with
thermal direction COOL otherwise, and the magnitude written to the actuator (pin 9) is 1023.
Lid: 255 when target > measured and 0 otherwise, which is also what is written to the
actuator (pin 3). The two setters leave the PID collaborator in manual mode whenever they
choose BangBang mode (last two parts). -/
theorem bang_bang_drive (s : Thermocycler) (law : PidLaw) :
    ((s.iProgramState = ProgramState.ERunning ∨
        (s.iProgramState = ProgramState.EComplete ∧ s.ipCurrentStep ≠ none)) →
      s.iPlatePid.inAuto = false →
      (s.ControlPeltier law).iPlateControlMode = ControlMode.EBangBang →
      (s.iTargetPlateTemp > s.iPlateTemp →
        (s.ControlPeltier law).iPeltierPwm = 1023 ∧
        (s.ControlPeltier law).iThermalDirection = ThermalDirection.HEAT ∧
        (s.ControlPeltier law).pins.pin9 = 1023) ∧
      (¬ s.iTargetPlateTemp > s.iPlateTemp →
        (s.ControlPeltier law).iPeltierPwm = -1023 ∧
        (s.ControlPeltier law).iThermalDirection = ThermalDirection.COOL ∧
        (s.ControlPeltier law).pins.pin9 = 1023)) ∧
    ((s.iProgramState = ProgramState.ERunning ∨ s.iProgramState = ProgramState.ELidWait) →
      s.iLidPid.inAuto = false →
      (s.ControlLid law).iLidControlMode = ControlMode.EBangBang →
      (s.iTargetLidTemp > s.iLidTemp →
        (s.ControlLid law).iLidPwm = 255 ∧ (s.ControlLid law).pins.pin3 = 255) ∧
      (¬ s.iTargetLidTemp > s.iLidTemp →
        (s.ControlLid law).iLidPwm = 0 ∧ (s.ControlLid law).pins.pin3 = 0)) ∧
    (∀ (target : ℚ) (now : Nat),
      (s.SetPlateTarget target now).iPlateControlMode = ControlMode.EBangBang →
      (s.SetPlateTarget target now).iPlatePid.inAuto = false) ∧
    (∀ target : ℚ,
      (s.SetLidTarget target).iLidControlMode = ControlMode.EBangBang →
      (s.SetLidTarget target).iLidPid.inAuto = false) := by
  have h1023 : doubleToInt (absf 1023) = 1023 := by
    have : absf 1023 = ((1023 : ℕ) : ℚ) := by unfold absf; norm_num
    rw [this, doubleToInt_natCast]; rfl
  have hm1023 : doubleToInt (absf (-1023)) = 1023 := by
    have : absf (-1023) = ((1023 : ℕ) : ℚ) := by unfold absf; norm_num
    rw [this, doubleToInt_natCast]; rfl
  have h255 : doubleToInt 255 = 255 := by
    have : (255 : ℚ) = ((255 : ℕ) : ℚ) := by norm_num
    rw [this, doubleToInt_natCast]; rfl
  have h0 : doubleToInt 0 = 0 := by
    have : (0 : ℚ) = ((0 : ℕ) : ℚ) := by norm_num
    rw [this, doubleToInt_natCast]; rfl
  refine ⟨?_, ?_, ?_, ?_⟩
  · intro hActive hManual hAfter
    obtain ⟨hMode, hNo⟩ := ControlPeltier_bang_after s law hActive hAfter
    have hpwm : (s.ControlPeltier law).iPeltierPwm =
        if s.iTargetPlateTemp > s.iPlateTemp then MAX_PELTIER_PWM else MIN_PELTIER_PWM := by
      have hGap : ¬ absf (s.iTargetPlateTemp - s.iPlateTemp) < PLATE_BANGBANG_THRESHOLD :=
        fun h => hNo ⟨hMode, h⟩
      simp only [Thermocycler.ControlPeltier, Thermocycler.SetPeltier, PID.Compute,
        if_pos hActive, hMode, true_and, if_neg hGap, hManual]
      simp
    have hdir : (s.ControlPeltier law).iThermalDirection =
        if (s.ControlPeltier law).iPeltierPwm > 0 then ThermalDirection.HEAT
        else if (s.ControlPeltier law).iPeltierPwm < 0 then ThermalDirection.COOL
        else ThermalDirection.OFF := by
      simp only [Thermocycler.ControlPeltier, Thermocycler.SetPeltier, if_pos hActive]
    have hpin : (s.ControlPeltier law).pins.pin9 =
        doubleToInt (absf (s.ControlPeltier law).iPeltierPwm) := by
      simp only [Thermocycler.ControlPeltier, Thermocycler.SetPeltier]
    constructor
    · intro hgt
      rw [if_pos hgt] at hpwm
      rw [hdir, hpin, hpwm]
      unfold MAX_PELTIER_PWM
      exact ⟨rfl, if_pos (by norm_num), h1023⟩
    · intro hle
      rw [if_neg hle] at hpwm
      rw [hdir, hpin, hpwm]
      unfold MIN_PELTIER_PWM
      refine ⟨rfl, ?_, hm1023⟩
      rw [if_neg (by norm_num), if_pos (by norm_num)]
  · intro hActive hManual hAfter
    obtain ⟨hMode, hNo⟩ := ControlLid_bang_after s law hActive hAfter
    have hpwm : (s.ControlLid law).iLidPwm =
        if s.iTargetLidTemp > s.iLidTemp then MAX_LID_PWM else MIN_LID_PWM := by
      have hGap : ¬ absf (s.iTargetLidTemp - s.iLidTemp) < LID_BANGBANG_THRESHOLD :=
        fun h => hNo ⟨hMode, h⟩
      simp only [Thermocycler.ControlLid, PID.Compute, if_pos hActive, hMode, true_and,
        if_neg hGap, hManual]
      simp
    have hpin : (s.ControlLid law).pins.pin3 = doubleToInt (s.ControlLid law).iLidPwm := by
      simp only [Thermocycler.ControlLid, if_pos hActive]
    constructor
    · intro hgt
      rw [if_pos hgt] at hpwm
      rw [hpin, hpwm]
      unfold MAX_LID_PWM
      exact ⟨rfl, h255⟩
    · intro hle
      rw [if_neg hle] at hpwm
      rw [hpin, hpwm]
      unfold MIN_LID_PWM
      exact ⟨rfl, h0⟩
  · intro target now hB
    by_cases hb : absf (target - s.iPlateTemp) ≥ PLATE_BANGBANG_THRESHOLD
    · simp only [Thermocycler.SetPlateTarget, if_pos hb]
      split_ifs <;> rfl
    · simp [Thermocycler.SetPlateTarget, hb] at hB
  · intro target hB
    by_cases hb : absf (target - s.iLidTemp) ≥ LID_BANGBANG_THRESHOLD
    · simp only [Thermocycler.SetLidTarget, if_pos hb]
      rfl
    · simp [Thermocycler.SetLidTarget, hb] at hB

/-- C18 on a running state in BangBang mode, plate at 0 with target 95 and lid at 0 with
target 100: full heating drive on both axes. -/
theorem bang_bang_drive_witness :
    bangBangState.iProgramState = ProgramState.ERunning ∧
    bangBangState.iPlatePid.inAuto = false ∧
    bangBangState.iLidPid.inAuto = false ∧
    (bangBangState.ControlPeltier zeroLaw).iPlateControlMode = ControlMode.EBangBang ∧
    (bangBangState.ControlPeltier zeroLaw).iPeltierPwm = 1023 ∧
    (bangBangState.ControlPeltier zeroLaw).iThermalDirection = ThermalDirection.HEAT ∧
    (bangBangState.ControlPeltier zeroLaw).pins.pin9 = 1023 ∧
    (bangBangState.ControlLid zeroLaw).iLidControlMode = ControlMode.EBangBang ∧
    (bangBangState.ControlLid zeroLaw).iLidPwm = 255 ∧
    (bangBangState.ControlLid zeroLaw).pins.pin3 = 255 := by
  have hp : (bangBangState.ControlPeltier zeroLaw).iPlateControlMode =
      ControlMode.EBangBang := by
    have hAct : bangBangState.iProgramState = ProgramState.ERunning ∨
        (bangBangState.iProgramState = ProgramState.EComplete ∧
          bangBangState.ipCurrentStep ≠ none) := Or.inl rfl
    have hNo : ¬ (bangBangState.iPlateControlMode = ControlMode.EBangBang ∧
        absf (bangBangState.iTargetPlateTemp - bangBangState.iPlateTemp) <
          PLATE_BANGBANG_THRESHOLD) := fun h =>
      absurd h.2 (by
        show ¬ |(95 : ℚ) - 0| < 2
        norm_num [abs_of_nonneg])
    rw [ControlPeltier_mode, if_pos hAct, if_neg hNo]
    rfl
  have hl : (bangBangState.ControlLid zeroLaw).iLidControlMode = ControlMode.EBangBang := by
    have hAct : bangBangState.iProgramState = ProgramState.ERunning ∨
        bangBangState.iProgramState = ProgramState.ELidWait := Or.inl rfl
    have hNo : ¬ (bangBangState.iLidControlMode = ControlMode.EBangBang ∧
        absf (bangBangState.iTargetLidTemp - bangBangState.iLidTemp) <
          LID_BANGBANG_THRESHOLD) := fun h =>
      absurd h.2 (by
        show ¬ |(100 : ℚ) - 0| < 2
        norm_num [abs_of_nonneg])
    rw [ControlLid_mode, if_pos hAct, if_neg hNo]
    rfl
  obtain ⟨a1, a2, a3⟩ := ((bang_bang_drive bangBangState zeroLaw).1 (Or.inl rfl) rfl hp).1
    (show (95 : ℚ) > 0 by norm_num)
  obtain ⟨b1, b2⟩ := ((bang_bang_drive bangBangState zeroLaw).2.1 (Or.inl rfl) rfl hl).1
    (show (100 : ℚ) > 0 by norm_num)
  exact ⟨rfl, rfl, rfl, hp, a1, a2, a3, hl, b1, b2⟩

/-! ## Tuning selection -/

/-- `SetPlateTarget` with the target the plate already has, while not ramping, selects no
tunings and leaves the decreasing flag alone. -/
theorem SetPlateTarget_same_target (s : Thermocycler) (target : ℚ) (now : Nat)
    (hSame : s.iTargetPlateTemp = target) (hRamping : s.iRamping = false) :
    (s.SetPlateTarget target now).iPlatePid.kp = s.iPlatePid.kp ∧
    (s.SetPlateTarget target now).iPlatePid.ki = s.iPlatePid.ki ∧
    (s.SetPlateTarget target now).iPlatePid.kd = s.iPlatePid.kd ∧
    (s.SetPlateTarget target now).iDecreasing = s.iDecreasing ∧
    (s.SetPlateTarget target now).iRamping = false := by
  have hc : ¬ s.iTargetPlateTemp ≠ target := fun h => h hSame
  simp only [Thermocycler.SetPlateTarget, if_neg hc, hRamping]
  refine ⟨?_, ?_, ?_, ?_, ?_⟩
  · split_ifs <;> first | rfl | contradiction
  · split_ifs <;> first | rfl | contradiction
  · split_ifs <;> first | rfl | contradiction
  · split_ifs <;> first | rfl | contradiction
  · trivial

/-- `SetPlateTarget` with a new target, or while ramping, selects the tunings by direction
and band and sets the decreasing flag by direction. -/
theorem SetPlateTarget_ramping (s : Thermocycler) (target : ℚ) (now : Nat)
    (h : s.iTargetPlateTemp ≠ target ∨ s.iRamping = true) :
    (s.SetPlateTarget target now).iRamping = true ∧
    ((s.SetPlateTarget target now).iPlatePid.kp,
      (s.SetPlateTarget target now).iPlatePid.ki,
      (s.SetPlateTarget target now).iPlatePid.kd) =
      (if target ≥ s.iPlateTemp then
        (if target < 40 then ((600 : ℚ), (200 : ℚ), (400 : ℚ)) else (1000, 250, 250))
       else
        (if target > 70 then (800, 700, 300)
         else if target < 35 then (2000, 100, 200)
         else (500, 400, 200))) ∧
    ((s.SetPlateTarget target now).iDecreasing = true ↔ target < s.iPlateTemp) := by
  have hr : (if s.iTargetPlateTemp ≠ target then true else s.iRamping) = true := by
    rcases h with h | h
    · rw [if_pos h]
    · rw [h]; split_ifs <;> rfl
  simp only [Thermocycler.SetPlateTarget, hr, if_true]
  refine ⟨trivial, ?_, ?_⟩
  · unfold PLATE_PID_INC_LOW_THRESHOLD PLATE_PID_DEC_HIGH_THRESHOLD
      PLATE_PID_DEC_LOW_THRESHOLD PLATE_PID_INC_LOW_P PLATE_PID_INC_LOW_I PLATE_PID_INC_LOW_D
      PLATE_PID_INC_P PLATE_PID_INC_I PLATE_PID_INC_D PLATE_PID_DEC_HIGH_P
      PLATE_PID_DEC_HIGH_I PLATE_PID_DEC_HIGH_D PLATE_PID_DEC_LOW_P PLATE_PID_DEC_LOW_I
      PLATE_PID_DEC_LOW_D PLATE_PID_DEC_P PLATE_PID_DEC_I PLATE_PID_DEC_D
    split_ifs <;> rfl
  · by_cases hd : target ≥ s.iPlateTemp
    · rw [if_pos hd]
      constructor
      · intro hf; exact absurd hf (by decide)
      · intro hlt; exact absurd hd (not_le.mpr hlt)
    · rw [if_neg hd]
      exact ⟨fun _ => not_le.mp hd, fun _ => rfl⟩

/-- C19 as stated fails: in a state holding at target 95 after a cooling ramp (not ramping,
plate at 94.9, tunings (800, 700, 300), decreasing flag set), the call `SetPlateTarget(95)`
that starts the next step, of the same temperature, has target >= measured and target >= 40,
yet the tunings stay (800, 700, 300), not (1000, 250, 250), and the decreasing flag stays
set. -/
theorem tuning_selection_counterexample :
    cooledHoldState.iPlateTemp ≤ 95 ∧
    ¬ ((95 : ℚ) < 40) ∧
    (cooledHoldState.SetPlateTarget 95 31000).iPlatePid.kp = 800 ∧
    (cooledHoldState.SetPlateTarget 95 31000).iPlatePid.ki = 700 ∧
    (cooledHoldState.SetPlateTarget 95 31000).iPlatePid.kd = 300 ∧
    (cooledHoldState.SetPlateTarget 95 31000).iPlatePid.kp ≠ 1000 ∧
    (cooledHoldState.SetPlateTarget 95 31000).iDecreasing = true := by
  obtain ⟨h1, h2, h3, h4, _⟩ := SetPlateTarget_same_target cooledHoldState 95 31000 rfl rfl
  refine ⟨?_, by norm_num, h1.trans rfl, h2.trans rfl, h3.trans rfl, ?_, h4.trans rfl⟩
  · show (949 / 10 : ℚ) ≤ 95
    norm_num
  · rw [h1]
    show (800 : ℚ) ≠ 1000
    norm_num

/-- C19 amended: on every call of `SetPlateTarget` that assigns a new target or finds the
ramping flag set, ramping is set afterwards, exactly one of the five fixed (P, I, D) triples
is selected as a function of direction and band only, (600, 200, 400) or (1000, 250, 250)
when target >= measured, by target < 40, and (800, 700, 300), (2000, 100, 200) or
(500, 400, 200) when target < measured, by target > 70 and target < 35, and the decreasing
flag is set exactly when target < measured. On a call with the target the plate already has,
while not ramping, no triple is selected: the tunings and the decreasing flag are left
unchanged. -/
theorem tuning_selection (s : Thermocycler) (target : ℚ) (now : Nat) :
    ((s.iTargetPlateTemp ≠ target ∨ s.iRamping = true) →
      (s.SetPlateTarget target now).iRamping = true ∧
      ((s.SetPlateTarget target now).iPlatePid.kp,
        (s.SetPlateTarget target now).iPlatePid.ki,
        (s.SetPlateTarget target now).iPlatePid.kd) =
        (if target ≥ s.iPlateTemp then
          (if target < 40 then ((600 : ℚ), (200 : ℚ), (400 : ℚ)) else (1000, 250, 250))
         else
          (if target > 70 then (800, 700, 300)
           else if target < 35 then (2000, 100, 200)
           else (500, 400, 200))) ∧
      ((s.SetPlateTarget target now).iDecreasing = true ↔ target < s.iPlateTemp)) ∧
    ((s.iTargetPlateTemp = target ∧ s.iRamping = false) →
      (s.SetPlateTarget target now).iPlatePid.kp = s.iPlatePid.kp ∧
      (s.SetPlateTarget target now).iPlatePid.ki = s.iPlatePid.ki ∧
      (s.SetPlateTarget target now).iPlatePid.kd = s.iPlatePid.kd ∧
      (s.SetPlateTarget target now).iDecreasing = s.iDecreasing) := by
  refine ⟨SetPlateTarget_ramping s target now, fun h => ?_⟩
  obtain ⟨h1, h2, h3, h4, _⟩ := SetPlateTarget_same_target s target now h.1 h.2
  exact ⟨h1, h2, h3, h4⟩

/-- C19 amended, on the holding state at target 95 with the plate at 0: the new target 60
selects the heating triple (1000, 250, 250) and clears the decreasing flag. -/
theorem tuning_selection_witness :
    holdingState.iTargetPlateTemp ≠ 60 ∧
    (holdingState.SetPlateTarget 60 31000).iRamping = true ∧
    ((holdingState.SetPlateTarget 60 31000).iPlatePid.kp,
      (holdingState.SetPlateTarget 60 31000).iPlatePid.ki,
      (holdingState.SetPlateTarget 60 31000).iPlatePid.kd) = (1000, 250, 250) ∧
    ¬ (holdingState.SetPlateTarget 60 31000).iDecreasing = true := by
  have hne : holdingState.iTargetPlateTemp ≠ 60 := by
    show (95 : ℚ) ≠ 60
    norm_num
  obtain ⟨h1, h2, h3⟩ := (tuning_selection holdingState 60 31000).1 (Or.inl hne)
  have hge : (60 : ℚ) ≥ holdingState.iPlateTemp := by
    show (60 : ℚ) ≥ 0
    norm_num
  rw [if_pos hge, if_neg (by norm_num)] at h2
  exact ⟨hne, h1, h2, fun hd => absurd (h3.mp hd) (not_lt.mpr hge)⟩

/-! ## The run budgets -/

/-- The budget scan: the hold budget is the sum of the durations of the steps before the
first final step, modulo `2 ^ 32`, and the ramp budget is the first ramp, from `lastTemp` to
the first step, plus the sum over the pairs of consecutive steps before the first final
step. -/
theorem budgetScan_spec (steps : List Step) :
    ∀ (hold : Nat) (ramp lastTemp : ℚ), hold < ULONG_MOD →
      (Thermocycler.budgetScan steps hold ramp lastTemp).1 =
        (hold + specHoldBudget (stepsBeforeFinal steps)) % ULONG_MOD ∧
      (Thermocycler.budgetScan steps hold ramp lastTemp).2 =
        ramp + (firstRamp lastTemp (stepsBeforeFinal steps) +
          specRampBudget (stepsBeforeFinal steps)) := by
  induction steps with
  | nil =>
    intro hold ramp lastTemp hh
    refine ⟨?_, ?_⟩
    · show hold = (hold + 0) % ULONG_MOD
      rw [Nat.add_zero, Nat.mod_eq_of_lt hh]
    · show ramp = ramp + (0 + 0)
      ring
  | cons st rest ih =>
    intro hold ramp lastTemp hh
    by_cases hf : st.IsFinal = true
    · have hs : stepsBeforeFinal (st :: rest) = [] := by
        simp [stepsBeforeFinal, hf]
      have hb : Thermocycler.budgetScan (st :: rest) hold ramp lastTemp = (hold, ramp) := by
        simp [Thermocycler.budgetScan, hf]
      rw [hs, hb]
      refine ⟨?_, ?_⟩
      · show hold = (hold + 0) % ULONG_MOD
        rw [Nat.add_zero, Nat.mod_eq_of_lt hh]
      · show ramp = ramp + (0 + 0)
        ring
    · have hs : stepsBeforeFinal (st :: rest) = st :: stepsBeforeFinal rest := by
        simp [stepsBeforeFinal, hf]
      have hb : Thermocycler.budgetScan (st :: rest) hold ramp lastTemp =
          Thermocycler.budgetScan rest (ulAdd hold st.GetDuration)
            (if lastTemp ≠ st.GetTemp then
              ramp + (absf (lastTemp - st.GetTemp) - CYCLE_START_TOLERANCE)
             else ramp)
            st.GetTemp := by
        simp [Thermocycler.budgetScan, hf]
      have hlt : ulAdd hold st.GetDuration < ULONG_MOD :=
        Nat.mod_lt _ (by unfold ULONG_MOD; norm_num)
      obtain ⟨i1, i2⟩ := ih (ulAdd hold st.GetDuration)
        (if lastTemp ≠ st.GetTemp then
          ramp + (absf (lastTemp - st.GetTemp) - CYCLE_START_TOLERANCE)
         else ramp)
        st.GetTemp hlt
      rw [hs, hb, i1, i2]
      refine ⟨?_, ?_⟩
      · unfold ulAdd specHoldBudget
        simp only [List.map_cons, List.sum_cons]
        rw [Nat.mod_add_mod, Nat.add_assoc]
      · have hfirst : firstRamp lastTemp (st :: stepsBeforeFinal rest) =
            pairRamp lastTemp st.GetTemp := rfl
        have hrest : firstRamp st.GetTemp (stepsBeforeFinal rest) +
            specRampBudget (stepsBeforeFinal rest) =
            specRampBudget (st :: stepsBeforeFinal rest) := by
          cases stepsBeforeFinal rest with
          | nil => simp [firstRamp, specRampBudget]
          | cons b more => rfl
        rw [hfirst, hrest]
        unfold pairRamp absf CYCLE_START_TOLERANCE
        split_ifs <;> ring

/-- The budgets after the `Loop` tick that enters Running. -/
theorem Loop_lidwait_enter_budget (s : Thermocycler) (t : TickInput) (p : Cycle) (st : Step)
    (hState : s.iProgramState = ProgramState.ELidWait)
    (hPower : t.externalPower = true)
    (hProg : s.ipProgram = some p)
    (hFirst : p.BeginIteration.GetNextStep.1 = some st)
    (hLid : t.lidTemp ≥ s.iTargetLidTemp - LID_START_TOLERANCE) :
    ∃ s1, s.Loop t = some s1 ∧
      s1.iProgramState = ProgramState.ERunning ∧
      s1.iProgramHoldDurationS =
        (Thermocycler.budgetScan p.traversal 0 0 t.plateTemp).1 ∧
      s1.iProgramRampDegrees =
        (Thermocycler.budgetScan p.traversal 0 0 t.plateTemp).2 := by
  have hOn : s.iProgramState ≠ ProgramState.EOff := by rw [hState]; decide
  have hL := Loop_powered s t hPower hOn
  rw [advanceProgram_lidwait_enter
    { s with iPlateTemp := t.plateTemp, iLidTemp := t.lidTemp } t p st hState hProg hFirst
    hLid] at hL
  exact ⟨_, hL, rfl, rfl, rfl⟩

/-- C20 fails as stated: the scenario program yields two non-final steps, both at 95
degrees, so the sum over the pairs of consecutive non-final steps is 0; entered at a
measured plate temperature of 25 degrees, the budget scan gives a ramp budget of
|25 - 95| - 0.2 = 69.8, because it starts from the measured plate temperature. -/
theorem ramp_budget_counterexample :
    ∃ s1, lidWaitState.Loop (tickOf true 6000 25 100) = some s1 ∧
      s1.iProgramState = ProgramState.ERunning ∧
      s1.iProgramRampDegrees = 349 / 5 ∧
      specRampBudget (stepsBeforeFinal scenarioProgram.traversal) = 0 ∧
      s1.iProgramRampDegrees ≠ specRampBudget (stepsBeforeFinal scenarioProgram.traversal) := by
  have hLid : (tickOf true 6000 25 100).lidTemp ≥
      lidWaitState.iTargetLidTemp - LID_START_TOLERANCE := by
    show (100 : ℚ) ≥ 100 - LID_START_TOLERANCE
    unfold LID_START_TOLERANCE
    norm_num
  obtain ⟨s1, h, h1, _, h3⟩ := Loop_lidwait_enter_budget lidWaitState
    (tickOf true 6000 25 100) scenarioProgram { iTemp := 95, iDuration := 30, iFinal := false }
    rfl rfl rfl (first_step_of_traversal _ _ _ rfl) hLid
  have hSteps : stepsBeforeFinal scenarioProgram.traversal =
      [{ iTemp := 95, iDuration := 30, iFinal := false },
       { iTemp := 95, iDuration := 30, iFinal := false }] := rfl
  have hSpec : specRampBudget (stepsBeforeFinal scenarioProgram.traversal) = 0 := by
    rw [hSteps]
    simp [specRampBudget, pairRamp, Step.GetTemp]
  have hRamp : s1.iProgramRampDegrees = 349 / 5 := by
    rw [h3, (budgetScan_spec scenarioProgram.traversal 0 0 (tickOf true 6000 25 100).plateTemp
      (by unfold ULONG_MOD; norm_num)).2, hSpec, hSteps]
    show (0 : ℚ) + (pairRamp 25 95 + 0) = 349 / 5
    unfold pairRamp
    norm_num [abs_of_nonpos]
  refine ⟨s1, h, h1, hRamp, hSpec, ?_⟩
  rw [hRamp, hSpec]
  norm_num

/-- C20, amended: for every LidWait state with a program loaded whose iterator yields a
first step, at a `Loop` tick with power present and the lid within 1.0 of its target, the
state entered is Running; its ramp budget equals the contribution of the ramp from the
measured plate temperature of the tick to the first step (the absolute difference less 0.2
when they differ, nothing when the program yields no step before its first final step or the
temperatures are equal) plus the sum, over each pair of consecutive steps yielded before the
first final step whose temperatures differ, of the absolute difference less 0.2; and its
hold budget equals the sum of the durations of the steps yielded before the first final
step, reduced modulo `2 ^ 32`. -/
theorem run_budgets (s : Thermocycler) (t : TickInput) (p : Cycle) (st : Step)
    (hState : s.iProgramState = ProgramState.ELidWait)
    (hPower : t.externalPower = true)
    (hProg : s.ipProgram = some p)
    (hFirst : p.BeginIteration.GetNextStep.1 = some st)
    (hLid : t.lidTemp ≥ s.iTargetLidTemp - 1) :
    ∃ s1, s.Loop t = some s1 ∧
      s1.iProgramState = ProgramState.ERunning ∧
      s1.iProgramRampDegrees =
        firstRamp t.plateTemp (stepsBeforeFinal p.traversal) +
          specRampBudget (stepsBeforeFinal p.traversal) ∧
      s1.iProgramHoldDurationS =
        specHoldBudget (stepsBeforeFinal p.traversal) % 2 ^ 32 := by
  obtain ⟨s1, h, h1, h2, h3⟩ :=
    Loop_lidwait_enter_budget s t p st hState hPower hProg hFirst hLid
  obtain ⟨b1, b2⟩ := budgetScan_spec p.traversal 0 0 t.plateTemp
    (by unfold ULONG_MOD; norm_num)
  refine ⟨s1, h, h1, ?_, ?_⟩
  · rw [h3, b2, zero_add]
  · rw [h2, b1, Nat.zero_add]
    rfl

/-- C20, amended, on the scenario program entered at a measured plate temperature of 25
degrees: the ramp budget is 69.8 and the hold budget is 60 seconds. -/
theorem run_budgets_witness :
    lidWaitState.iProgramState = ProgramState.ELidWait ∧
    lidWaitState.ipProgram = some scenarioProgram ∧
    ∃ s1, lidWaitState.Loop (tickOf true 6000 25 100) = some s1 ∧
      s1.iProgramState = ProgramState.ERunning ∧
      s1.iProgramRampDegrees =
        firstRamp 25 (stepsBeforeFinal scenarioProgram.traversal) +
          specRampBudget (stepsBeforeFinal scenarioProgram.traversal) ∧
      s1.iProgramHoldDurationS =
        specHoldBudget (stepsBeforeFinal scenarioProgram.traversal) % 2 ^ 32 ∧
      specHoldBudget (stepsBeforeFinal scenarioProgram.traversal) % 2 ^ 32 = 60 := by
  have hLid : (tickOf true 6000 25 100).lidTemp ≥ lidWaitState.iTargetLidTemp - 1 := by
    show (100 : ℚ) ≥ 100 - 1
    norm_num
  obtain ⟨s1, h, h1, h2, h3⟩ := run_budgets lidWaitState (tickOf true 6000 25 100)
    scenarioProgram { iTemp := 95, iDuration := 30, iFinal := false } rfl rfl rfl
    (first_step_of_traversal _ _ _ rfl) hLid
  exact ⟨rfl, rfl, s1, h, h1, h2, h3, by decide⟩

/-! ## Steps of equal temperature -/

/-- `SetPlateTarget` with the target the plate already has starts no ramp. -/
theorem SetPlateTarget_same_frame (s : Thermocycler) (target : ℚ) (now : Nat)
    (hSame : s.iTargetPlateTemp = target) :
    (s.SetPlateTarget target now).iRamping = s.iRamping ∧
    (s.SetPlateTarget target now).iRampStartTime = s.iRampStartTime ∧
    (s.SetPlateTarget target now).iRampStartTemp = s.iRampStartTemp ∧
    (s.SetPlateTarget target now).iCycleStartTime = now := by
  have hc : ¬ s.iTargetPlateTemp ≠ target := fun h => h hSame
  refine ⟨?_, ?_, ?_, ?_⟩
  · show (if s.iTargetPlateTemp ≠ target then true else s.iRamping) = _
    rw [if_neg hc]
  · show (if s.iTargetPlateTemp ≠ target then now else s.iRampStartTime) = _
    rw [if_neg hc]
  · show (if s.iTargetPlateTemp ≠ target then s.iPlateTemp else s.iRampStartTemp) = _
    rw [if_neg hc]
  · show (if s.iTargetPlateTemp ≠ target then s.iCycleStartTime else now) = _
    rw [if_neg hc]

/-- A `Loop` tick that advances from a held step to a next step of the temperature the
plate target already has: no ramp starts, the hold of the next step starts at this tick and
the ramp accumulators are untouched. -/
theorem Loop_running_advance_same (s : Thermocycler) (t : TickInput) (cur nxt : Step)
    (p : Cycle)
    (hState : s.iProgramState = ProgramState.ERunning)
    (hPower : t.externalPower = true)
    (hCur : s.ipCurrentStep = some cur)
    (hProg : s.ipProgram = some p)
    (hRamping : s.iRamping = false)
    (hFinal : cur.IsFinal = false)
    (hTime : ulSub t.millis s.iCycleStartTime > ulMul cur.GetDuration 1000)
    (hNext : p.GetNextStep.1 = some nxt)
    (hSame : s.iTargetPlateTemp = nxt.GetTemp) :
    ∃ s1, s.Loop t = some s1 ∧
      (s1.iProgramState = ProgramState.ERunning ∨
        s1.iProgramState = ProgramState.EComplete) ∧
      s1.ipCurrentStep = some nxt ∧
      s1.iRamping = false ∧
      s1.iCycleStartTime = t.millis ∧
      s1.iElapsedRampDegrees = s.iElapsedRampDegrees ∧
      s1.iElapsedRampDurationMs = s.iElapsedRampDurationMs ∧
      s1.iRampStartTime = s.iRampStartTime ∧
      s1.iRampStartTemp = s.iRampStartTemp ∧
      s1.iTargetPlateTemp = nxt.GetTemp := by
  have hOn : s.iProgramState ≠ ProgramState.EOff := by rw [hState]; decide
  have hL := Loop_powered s t hPower hOn
  rw [advanceProgram_running
    { s with iPlateTemp := t.plateTemp, iLidTemp := t.lidTemp } t cur hState hCur] at hL
  dsimp only at hL
  have h1 : ¬ (s.iRamping = true ∧
      absf (cur.GetTemp - t.plateTemp) ≤ CYCLE_START_TOLERANCE) := by
    simp [hRamping]
  rw [if_neg h1, if_pos ⟨hRamping, hFinal, hTime⟩, hProg] at hL
  dsimp only at hL
  rw [hNext] at hL
  dsimp only at hL
  have hc : ¬ s.iTargetPlateTemp ≠ nxt.GetTemp := fun h => h hSame
  by_cases hd : nxt.GetDuration = 0
  · rw [if_pos hd] at hL
    refine ⟨_, hL, Or.inr rfl, rfl, ?_, ?_, rfl, rfl, ?_, ?_, rfl⟩
    · show (if s.iTargetPlateTemp ≠ nxt.GetTemp then true else s.iRamping) = _
      rw [if_neg hc, hRamping]
    · show (if s.iTargetPlateTemp ≠ nxt.GetTemp then s.iCycleStartTime else t.millis) = _
      rw [if_neg hc]
    · show (if s.iTargetPlateTemp ≠ nxt.GetTemp then t.millis else s.iRampStartTime) = _
      rw [if_neg hc]
    · show (if s.iTargetPlateTemp ≠ nxt.GetTemp then t.plateTemp else s.iRampStartTemp) = _
      rw [if_neg hc]
  · rw [if_neg hd] at hL
    refine ⟨_, hL, Or.inl hState, rfl, ?_, ?_, rfl, rfl, ?_, ?_, rfl⟩
    · show (if s.iTargetPlateTemp ≠ nxt.GetTemp then true else s.iRamping) = _
      rw [if_neg hc, hRamping]
    · show (if s.iTargetPlateTemp ≠ nxt.GetTemp then s.iCycleStartTime else t.millis) = _
      rw [if_neg hc]
    · show (if s.iTargetPlateTemp ≠ nxt.GetTemp then t.millis else s.iRampStartTime) = _
      rw [if_neg hc]
    · show (if s.iTargetPlateTemp ≠ nxt.GetTemp then t.plateTemp else s.iRampStartTemp) = _
      rw [if_neg hc]

/-- The `switch` statement of `Loop` in a Running or Complete state that is not ramping
leaves the ramp accumulators alone. -/
theorem advanceProgram_hold_accumulators (s s3 : Thermocycler) (t : TickInput)
    (hState : s.iProgramState = ProgramState.ERunning ∨
      s.iProgramState = ProgramState.EComplete ∨ s.iProgramState = ProgramState.EOff)
    (hRamping : s.iRamping = false)
    (h : s.advanceProgram t = some s3) :
    s3.iElapsedRampDegrees = s.iElapsedRampDegrees ∧
    s3.iElapsedRampDurationMs = s.iElapsedRampDurationMs := by
  have h1 : ∀ x : ℚ, ¬ (s.iRamping = true ∧ x ≤ CYCLE_START_TOLERANCE) := by
    intro x hx
    rw [hRamping] at hx
    exact absurd hx.1 (by decide)
  rcases hState with hRun | hComplete | hOff
  · cases hCur : s.ipCurrentStep with
    | none =>
      unfold Thermocycler.advanceProgram at h
      simp [hRun, hCur] at h
    | some cur =>
      rw [advanceProgram_running s t cur hRun hCur, if_neg (h1 _)] at h
      split_ifs at h with h2
      · cases hp : s.ipProgram with
        | none => simp [hp] at h
        | some p =>
          simp only [hp] at h
          cases hn : p.GetNextStep.1 with
          | none =>
            simp only [hn, Option.some.injEq] at h
            subst h
            exact ⟨rfl, rfl⟩
          | some nxt =>
            simp only [hn] at h
            split_ifs at h
            all_goals
              simp only [Option.some.injEq] at h
              subst h
              exact ⟨rfl, rfl⟩
      · simp only [Option.some.injEq] at h
        subst h
        exact ⟨rfl, rfl⟩
  · unfold Thermocycler.advanceProgram at h
    rw [hComplete] at h
    simp only at h
    cases hCur : s.ipCurrentStep with
    | none =>
      simp only [hCur, Option.some.injEq] at h
      subst h
      exact ⟨rfl, rfl⟩
    | some cur =>
      simp only [hCur, if_neg (h1 _), Option.some.injEq] at h
      subst h
      exact ⟨rfl, rfl⟩
  · unfold Thermocycler.advanceProgram at h
    rw [hOff] at h
    simp only [Option.some.injEq] at h
    subst h
    exact ⟨rfl, rfl⟩

/-- A `Loop` tick in a Running or Complete state that is not ramping leaves the ramp
accumulators alone. -/
theorem Loop_hold_accumulators (s s1 : Thermocycler) (t : TickInput)
    (hState : s.iProgramState = ProgramState.ERunning ∨
      s.iProgramState = ProgramState.EComplete)
    (hRamping : s.iRamping = false)
    (h : s.Loop t = some s1) :
    s1.iElapsedRampDegrees = s.iElapsedRampDegrees ∧
    s1.iElapsedRampDurationMs = s.iElapsedRampDurationMs := by
  obtain ⟨s3, h3, rfl⟩ := Loop_some s s1 t h
  show s3.iElapsedRampDegrees = s.iElapsedRampDegrees ∧
    s3.iElapsedRampDurationMs = s.iElapsedRampDurationMs
  have hOn : s.iProgramState ≠ ProgramState.EOff := by
    rcases hState with h0 | h0 <;> rw [h0] <;> decide
  rcases CheckPower_cases s t.externalPower t.millis with
    ⟨_, hoff, _⟩ | ⟨_, _, hc⟩ | ⟨_, hc⟩
  · exact absurd hoff hOn
  · rw [hc] at h3
    exact advanceProgram_hold_accumulators
      { ({ s.Stop with iProgramState := ProgramState.EOff } : Thermocycler) with
        iPlateTemp := t.plateTemp, iLidTemp := t.lidTemp } s3 t
      (Or.inr (Or.inr rfl)) hRamping h3
  · rw [hc] at h3
    exact advanceProgram_hold_accumulators
      { s with iPlateTemp := t.plateTemp, iLidTemp := t.lidTemp } s3 t
      (hState.elim Or.inl (fun h0 => Or.inr (Or.inl h0))) hRamping h3

/-- C22: for every state and every target equal to the current plate target,
`SetPlateTarget` does not start a ramp: the ramping flag, the ramp start time and the ramp
start temperature are unchanged and the hold timer start is set to the current clock value.
Consequently the `Loop` tick that advances from a held step (not ramping, hold elapsed, the
plate target being the temperature of the step) to a next step with the same temperature
leaves ramping false, begins the hold of that step on the same tick, and adds nothing to the
elapsed ramp degrees or the elapsed ramp duration, on that tick and on the tick after it. -/
theorem same_target_no_ramp (s : Thermocycler) :
    (∀ (target : ℚ) (now : Nat), s.iTargetPlateTemp = target →
      (s.SetPlateTarget target now).iRamping = s.iRamping ∧
      (s.SetPlateTarget target now).iRampStartTime = s.iRampStartTime ∧
      (s.SetPlateTarget target now).iRampStartTemp = s.iRampStartTemp ∧
      (s.SetPlateTarget target now).iCycleStartTime = now) ∧
    (∀ (t : TickInput) (cur nxt : Step) (p : Cycle),
      s.iProgramState = ProgramState.ERunning → t.externalPower = true →
      s.ipCurrentStep = some cur → s.ipProgram = some p →
      s.iRamping = false → cur.IsFinal = false →
      ulSub t.millis s.iCycleStartTime > ulMul cur.GetDuration 1000 →
      p.GetNextStep.1 = some nxt →
      s.iTargetPlateTemp = cur.GetTemp → nxt.GetTemp = cur.GetTemp →
      ∃ s1, s.Loop t = some s1 ∧
        s1.ipCurrentStep = some nxt ∧
        s1.iTargetPlateTemp = nxt.GetTemp ∧
        s1.iRamping = false ∧
        s1.iCycleStartTime = t.millis ∧
        s1.iElapsedRampDegrees = s.iElapsedRampDegrees ∧
        s1.iElapsedRampDurationMs = s.iElapsedRampDurationMs ∧
        s1.iRampStartTime = s.iRampStartTime ∧
        s1.iRampStartTemp = s.iRampStartTemp ∧
        ∀ (t2 : TickInput) (s2 : Thermocycler), s1.Loop t2 = some s2 →
          s2.iElapsedRampDegrees = s.iElapsedRampDegrees ∧
          s2.iElapsedRampDurationMs = s.iElapsedRampDurationMs) := by
  refine ⟨fun target now hSame => SetPlateTarget_same_frame s target now hSame, ?_⟩
  intro t cur nxt p hState hPower hCur hProg hRamping hFinal hTime hNext hTarget hTemp
  have hSame : s.iTargetPlateTemp = nxt.GetTemp := by rw [hTarget, hTemp]
  obtain ⟨s1, hL, a1, a2, a3, a4, a5, a6, a7, a8, a9⟩ :=
    Loop_running_advance_same s t cur nxt p hState hPower hCur hProg hRamping hFinal hTime
      hNext hSame
  refine ⟨s1, hL, a2, a9, a3, a4, a5, a6, a7, a8, fun t2 s2 h2 => ?_⟩
  obtain ⟨c1, c2⟩ := Loop_hold_accumulators s1 s2 t2 a1 a3 h2
  exact ⟨c1.trans a5, c2.trans a6⟩

/-- C22 on the holding state of the scenario: at clock value 31000 the hold of the first
step at 95 degrees has elapsed and the next step is at 95 degrees too. -/
theorem same_target_no_ramp_witness :
    ∃ s1, holdingState.Loop (tickOf true 31000 95 100) = some s1 ∧
      s1.ipCurrentStep = some { iTemp := 95, iDuration := 30, iFinal := false } ∧
      s1.iRamping = false ∧
      s1.iCycleStartTime = 31000 ∧
      s1.iElapsedRampDegrees = holdingState.iElapsedRampDegrees ∧
      s1.iElapsedRampDurationMs = holdingState.iElapsedRampDurationMs := by
  obtain ⟨s1, h, a1, _, a3, a4, a5, a6, _⟩ :=
    (same_target_no_ramp holdingState).2 (tickOf true 31000 95 100)
      { iTemp := 95, iDuration := 30, iFinal := false }
      { iTemp := 95, iDuration := 30, iFinal := false }
      { scenarioProgram with iPosition := 1 } rfl rfl rfl rfl rfl rfl (by decide) rfl rfl rfl
  exact ⟨s1, h, a1, a3, a4, a5, a6⟩

/-! ## Safety of the calibration lookup -/

/-- The linear search on a table whose smallest entry is `last`: it stops inside the table
exactly for the search values at or above `last`; then the entry `lo` at the stop index is
at or below the search value and, when the stop index is positive, the entry `hi` before it
is above the search value, so that neither subtraction of the interpolation wraps and the
denominator is not zero. Below `last` the search exhausts the table. -/
theorem tableScan_safe (T : List Nat) (last : Nat) (hB : ∀ x ∈ T, x < ULONG_MOD)
    (hMem : last ∈ T) (hLeast : ∀ x ∈ T, last ≤ x) (v : Nat) :
    (Thermocycler.tableScan T v < T.length ↔ v ≥ last) ∧
    (v ≥ last →
      ∃ lo, T[Thermocycler.tableScan T v]? = some lo ∧ lo ≤ v ∧
        (0 < Thermocycler.tableScan T v →
          ∃ hi, T[Thermocycler.tableScan T v - 1]? = some hi ∧ lo < hi ∧
            ulSub hi lo = hi - lo ∧ ulSub hi lo ≠ 0)) ∧
    (v < last → Thermocycler.tableScan T v = T.length) := by
  obtain ⟨hspec1, hspec2⟩ := tableScan_spec T v
  have hIn : v ≥ last → Thermocycler.tableScan T v < T.length :=
    fun hv => tableScan_lt_length T v ⟨last, hMem, hv⟩
  refine ⟨⟨fun hlt => ?_, hIn⟩, fun hv => ?_, fun hv => ?_⟩
  · have hx : T[Thermocycler.tableScan T v]? = some (T[Thermocycler.tableScan T v]) :=
      List.getElem?_eq_getElem hlt
    exact le_trans (hLeast _ (List.getElem?_mem hx)) (hspec1 _ hx)
  · have hlt := hIn hv
    have hx : T[Thermocycler.tableScan T v]? = some (T[Thermocycler.tableScan T v]) :=
      List.getElem?_eq_getElem hlt
    refine ⟨_, hx, hspec1 _ hx, fun hpos => ?_⟩
    have hlt1 : Thermocycler.tableScan T v - 1 < T.length := by omega
    have hy : T[Thermocycler.tableScan T v - 1]? =
        some (T[Thermocycler.tableScan T v - 1]) := List.getElem?_eq_getElem hlt1
    have hgt : v < T[Thermocycler.tableScan T v - 1] := hspec2 _ _ (by omega) hy
    have hle : T[Thermocycler.tableScan T v] ≤ v := hspec1 _ hx
    have hsub := ulSub_of_le (T[Thermocycler.tableScan T v - 1])
      (T[Thermocycler.tableScan T v]) (by omega) (hB _ (List.getElem?_mem hy))
    refine ⟨_, hy, by omega, hsub, ?_⟩
    rw [hsub]
    omega
  · exact tableScan_eq_length T v (fun x hx => lt_of_lt_of_le hv (hLeast x hx))

/-- C23: both calibration tables are strictly decreasing, with last (hottest) entries 5876
and 337; for each table and every search value the linear scan of `TableLookup` stops at an
index below the table size if and only if the search value is greater than or equal to the
last entry; under that precondition the read at the stop index is inside the table, its
entry is at or below the search value (no underflow) and, when the index is positive, the
read at the index before is inside the table and the interpolation denominator is non-zero.
For a search value below the last entry the scan exhausts the table (index = table
size). -/
theorem scan_stays_in_table :
    PLATE_RESISTANCE_TABLE.Pairwise (· > ·) ∧ LID_RESISTANCE_TABLE.Pairwise (· > ·) ∧
    PLATE_RESISTANCE_TABLE.getLast? = some 5876 ∧ LID_RESISTANCE_TABLE.getLast? = some 337 ∧
    ∀ v : Nat,
      ((Thermocycler.tableScan PLATE_RESISTANCE_TABLE v < PLATE_RESISTANCE_TABLE.length ↔
          v ≥ 5876) ∧
        (v ≥ 5876 →
          ∃ lo, PLATE_RESISTANCE_TABLE[Thermocycler.tableScan PLATE_RESISTANCE_TABLE v]? =
              some lo ∧ lo ≤ v ∧
            (0 < Thermocycler.tableScan PLATE_RESISTANCE_TABLE v →
              ∃ hi,
                PLATE_RESISTANCE_TABLE[Thermocycler.tableScan PLATE_RESISTANCE_TABLE v - 1]? =
                  some hi ∧ lo < hi ∧ ulSub hi lo = hi - lo ∧ ulSub hi lo ≠ 0)) ∧
        (v < 5876 →
          Thermocycler.tableScan PLATE_RESISTANCE_TABLE v = PLATE_RESISTANCE_TABLE.length)) ∧
      ((Thermocycler.tableScan LID_RESISTANCE_TABLE v < LID_RESISTANCE_TABLE.length ↔
          v ≥ 337) ∧
        (v ≥ 337 →
          ∃ lo, LID_RESISTANCE_TABLE[Thermocycler.tableScan LID_RESISTANCE_TABLE v]? =
              some lo ∧ lo ≤ v ∧
            (0 < Thermocycler.tableScan LID_RESISTANCE_TABLE v →
              ∃ hi,
                LID_RESISTANCE_TABLE[Thermocycler.tableScan LID_RESISTANCE_TABLE v - 1]? =
                  some hi ∧ lo < hi ∧ ulSub hi lo = hi - lo ∧ ulSub hi lo ≠ 0)) ∧
        (v < 337 →
          Thermocycler.tableScan LID_RESISTANCE_TABLE v = LID_RESISTANCE_TABLE.length)) := by
  refine ⟨plate_table_decreasing, lid_table_decreasing, rfl, rfl, fun v => ⟨?_, ?_⟩⟩
  · exact tableScan_safe PLATE_RESISTANCE_TABLE 5876 plate_table_bound plate_table_ends.2.1
      plate_table_ends.2.2 v
  · exact tableScan_safe LID_RESISTANCE_TABLE 337 lid_table_bound lid_table_ends.2.1
      lid_table_ends.2.2 v

/-! ## Actuators outside a run -/

/-- The magnitude written to the plate actuator for a drive of 0 is 0. -/
theorem doubleToInt_absf_zero : doubleToInt (absf 0) = 0 := by
  unfold doubleToInt absf
  simp

/-- Outside its active states `ControlPeltier` switches the plate actuator off. -/
theorem ControlPeltier_inactive (s : Thermocycler) (law : PidLaw)
    (h : ¬ (s.iProgramState = ProgramState.ERunning ∨
      (s.iProgramState = ProgramState.EComplete ∧ s.ipCurrentStep ≠ none))) :
    (s.ControlPeltier law).iPeltierPwm = 0 ∧
    (s.ControlPeltier law).iThermalDirection = ThermalDirection.OFF ∧
    (s.ControlPeltier law).pins.pin9 = 0 ∧
    (s.ControlPeltier law).pins.pin2 = false ∧
    (s.ControlPeltier law).pins.pin4 = false := by
  simp only [Thermocycler.ControlPeltier, Thermocycler.SetPeltier, if_neg h]
  exact ⟨trivial, trivial, doubleToInt_absf_zero, by decide, by decide⟩

/-- Outside its active states `ControlLid` switches the lid actuator off. -/
theorem ControlLid_inactive (s : Thermocycler) (law : PidLaw)
    (h : ¬ (s.iProgramState = ProgramState.ERunning ∨
      s.iProgramState = ProgramState.ELidWait)) :
    (s.ControlLid law).iLidPwm = 0 ∧ (s.ControlLid law).pins.pin3 = 0 := by
  simp only [Thermocycler.ControlLid, if_neg h]
  refine ⟨trivial, ?_⟩
  unfold doubleToInt
  simp

/-- C25: for every state in which the program state is Off, Startup, Stopped or LidWait, or
Complete with a null current step, `ControlPeltier` leaves the plate drive equal to 0 and
the thermal direction OFF and writes magnitude 0 to the plate actuator, with both direction
pins low; and for every state in which the program state is neither Running nor LidWait,
`ControlLid` leaves the lid drive equal to 0 and writes 0 to the lid actuator. -/
theorem actuators_off (s : Thermocycler) (law : PidLaw) :
    ((s.iProgramState = ProgramState.EOff ∨ s.iProgramState = ProgramState.EStartup ∨
        s.iProgramState = ProgramState.EStopped ∨ s.iProgramState = ProgramState.ELidWait ∨
        (s.iProgramState = ProgramState.EComplete ∧ s.ipCurrentStep = none)) →
      (s.ControlPeltier law).iPeltierPwm = 0 ∧
      (s.ControlPeltier law).iThermalDirection = ThermalDirection.OFF ∧
      (s.ControlPeltier law).pins.pin9 = 0 ∧
      (s.ControlPeltier law).pins.pin2 = false ∧
      (s.ControlPeltier law).pins.pin4 = false) ∧
    ((s.iProgramState ≠ ProgramState.ERunning ∧ s.iProgramState ≠ ProgramState.ELidWait) →
      (s.ControlLid law).iLidPwm = 0 ∧ (s.ControlLid law).pins.pin3 = 0) := by
  refine ⟨fun h => ControlPeltier_inactive s law ?_, fun h => ControlLid_inactive s law ?_⟩
  · rintro (hRun | ⟨hComplete, hStep⟩)
    · rcases h with h0 | h0 | h0 | h0 | ⟨h0, _⟩ <;> rw [hRun] at h0 <;>
        exact absurd h0 (by decide)
    · rcases h with h0 | h0 | h0 | h0 | ⟨_, h1⟩
      · rw [hComplete] at h0; exact absurd h0 (by decide)
      · rw [hComplete] at h0; exact absurd h0 (by decide)
      · rw [hComplete] at h0; exact absurd h0 (by decide)
      · rw [hComplete] at h0; exact absurd h0 (by decide)
      · exact hStep h1
  · rintro (hRun | hLid)
    · exact h.1 hRun
    · exact h.2 hLid

/-! ## The arithmetic of the lid sensor -/

/-- The voltage of a 10-bit reading is computed without overflow and is at most 4995. -/
theorem lidVoltageMv_eq (a : Nat) (ha : a ≤ 1023) :
    Thermocycler.lidVoltageMv a = a * 5000 / 1024 ∧ Thermocycler.lidVoltageMv a ≤ 4995 := by
  have hmod : a * 5000 % 4294967296 = a * 5000 := Nat.mod_eq_of_lt (by omega)
  unfold Thermocycler.lidVoltageMv ulMul ULONG_MOD
  rw [hmod]
  exact ⟨rfl, by omega⟩

/-- The voltage is non-decreasing in the reading. -/
theorem lidVoltageMv_mono (a b : Nat) (hab : a ≤ b) (hb : b ≤ 1023) :
    Thermocycler.lidVoltageMv a ≤ Thermocycler.lidVoltageMv b := by
  rw [(lidVoltageMv_eq a (le_trans hab hb)).1, (lidVoltageMv_eq b hb).1]
  omega

/-- The resistance of a 10-bit reading is computed without overflow, underflow or division
by zero. -/
theorem lidResistance_eq (a : Nat) (ha : a ≤ 1023) :
    Thermocycler.lidResistance a =
      some (Thermocycler.lidVoltageMv a * 2200 / (5000 - Thermocycler.lidVoltageMv a)) := by
  have hv := (lidVoltageMv_eq a ha).2
  have hsub : ulSub 5000 (Thermocycler.lidVoltageMv a) =
      5000 - Thermocycler.lidVoltageMv a :=
    ulSub_of_le 5000 _ (by omega) (by unfold ULONG_MOD; norm_num)
  have hmul : ulMul (Thermocycler.lidVoltageMv a) 2200 =
      Thermocycler.lidVoltageMv a * 2200 := by
    unfold ulMul ULONG_MOD
    exact Nat.mod_eq_of_lt (by omega)
  unfold Thermocycler.lidResistance
  simp only [hsub, hmul]
  rw [if_neg (by omega)]

/-- `ReadLidTemp` on a 10-bit reading is the table lookup of the resistance: its integer
arithmetic does not fail. -/
theorem ReadLidTemp_eq (s : Thermocycler) (a : Nat) (ha : a ≤ 1023) :
    s.ReadLidTemp a =
      (Thermocycler.TableLookup LID_RESISTANCE_TABLE LID_RESISTANCE_TABLE.length 0
        (Thermocycler.lidVoltageMv a * 2200 / (5000 - Thermocycler.lidVoltageMv a))).map
        (fun temp => { s with iLidTemp := temp }) := by
  unfold Thermocycler.ReadLidTemp
  rw [lidResistance_eq a ha]
  dsimp only
  cases Thermocycler.TableLookup LID_RESISTANCE_TABLE LID_RESISTANCE_TABLE.length 0
    (Thermocycler.lidVoltageMv a * 2200 / (5000 - Thermocycler.lidVoltageMv a)) <;> rfl

/-- C26: for every 10-bit lid ADC reading `a` in [0, 1023], the integer arithmetic of
`ReadLidTemp` is safe: `voltage_mv` = `a` * 5000 / 1024 is at most 4995, so the divisor
5000 - `voltage_mv` is at least 5 (no division by zero, no unsigned underflow), and neither
`a` * 5000 nor `voltage_mv` * 2200 exceeds 2^32 - 1; the computed resistance
`voltage_mv` * 2200 / (5000 - `voltage_mv`), which `ReadLidTemp` hands to the table lookup,
is non-decreasing in `a`. -/
theorem lid_adc_safe (a : Nat) (ha : a ≤ 1023) :
    a * 5000 ≤ 2 ^ 32 - 1 ∧
    Thermocycler.lidVoltageMv a = a * 5000 / 1024 ∧
    Thermocycler.lidVoltageMv a ≤ 4995 ∧
    ulSub 5000 (Thermocycler.lidVoltageMv a) = 5000 - Thermocycler.lidVoltageMv a ∧
    5 ≤ 5000 - Thermocycler.lidVoltageMv a ∧
    Thermocycler.lidVoltageMv a * 2200 ≤ 2 ^ 32 - 1 ∧
    Thermocycler.lidResistance a =
      some (Thermocycler.lidVoltageMv a * 2200 / (5000 - Thermocycler.lidVoltageMv a)) ∧
    (∀ s : Thermocycler, s.ReadLidTemp a =
      (Thermocycler.TableLookup LID_RESISTANCE_TABLE LID_RESISTANCE_TABLE.length 0
        (Thermocycler.lidVoltageMv a * 2200 / (5000 - Thermocycler.lidVoltageMv a))).map
        (fun temp => { s with iLidTemp := temp })) ∧
    ∀ (b ra rb : Nat), a ≤ b → b ≤ 1023 →
      Thermocycler.lidResistance a = some ra → Thermocycler.lidResistance b = some rb →
      ra ≤ rb := by
  obtain ⟨hv, hle⟩ := lidVoltageMv_eq a ha
  refine ⟨by omega, hv, hle, ?_, by omega, by omega, lidResistance_eq a ha,
    fun s => ReadLidTemp_eq s a ha, ?_⟩
  · exact ulSub_of_le 5000 _ (by omega) (by unfold ULONG_MOD; norm_num)
  · intro b ra rb hab hb hra hrb
    rw [lidResistance_eq a ha] at hra
    rw [lidResistance_eq b hb] at hrb
    cases hra
    cases hrb
    have hmono := lidVoltageMv_mono a b hab hb
    have hbv := (lidVoltageMv_eq b hb).2
    exact Nat.div_le_div (Nat.mul_le_mul_right 2200 hmono) (by omega) (by omega)

/-- C26 at the reading 512: the voltage is 2500 mV and the resistance 2200 Ohms. -/
theorem lid_adc_safe_witness :
    (512 : Nat) ≤ 1023 ∧
    Thermocycler.lidVoltageMv 512 = 2500 ∧
    Thermocycler.lidResistance 512 = some 2200 ∧
    5 ≤ 5000 - Thermocycler.lidVoltageMv 512 := by
  obtain ⟨_, _, _, _, h5, _, _, _, _⟩ := lid_adc_safe 512 (by decide)
  exact ⟨by decide, by decide, by decide, h5⟩

/-! ## Null pointers -/

/-- The iterator walks one and the same traversal. -/
theorem GetNextStep_traversal (p : Cycle) : p.GetNextStep.2.traversal = p.traversal := by
  unfold Cycle.GetNextStep
  split <;> rfl

/-- The invariant reads the program state, the program and the current step only. -/
theorem pointersValid_of_fields (s s1 : Thermocycler)
    (h1 : s1.iProgramState = s.iProgramState) (h2 : s1.ipProgram = s.ipProgram)
    (h3 : s1.ipCurrentStep = s.ipCurrentStep) (h : pointersValid s) : pointersValid s1 := by
  unfold pointersValid at *
  rw [h1, h2, h3]
  exact h

/-- The invariant in a state that is not LidWait, Running or Complete. -/
theorem pointersValid_idle (s : Thermocycler) (st : ProgramState)
    (hst : s.iProgramState = st)
    (hp : ∀ p, s.ipProgram = some p → p.traversal ≠ [])
    (h1 : st ≠ ProgramState.ELidWait)
    (h2 : st ≠ ProgramState.ERunning)
    (h3 : st ≠ ProgramState.EComplete) : pointersValid s :=
  ⟨hp, fun h => h.elim (fun h => absurd (hst.symm.trans h) h1)
    (fun h => h.elim (fun h => absurd (hst.symm.trans h) h2)
      (fun h => absurd (hst.symm.trans h) h3)),
    fun h => absurd (hst.symm.trans h) h2⟩

/-- The invariant in a state with a program loaded that yields a step. -/
theorem pointersValid_loaded (s : Thermocycler) (st : ProgramState) (p : Cycle)
    (hst : s.iProgramState = st)
    (hp : s.ipProgram = some p) (hy : p.traversal ≠ [])
    (hrun : st = ProgramState.ERunning → ∃ cur, s.ipCurrentStep = some cur) :
    pointersValid s := by
  refine ⟨fun q hq => ?_, fun _ => ?_, fun h => ?_⟩
  · rw [hp] at hq
    cases hq
    exact hy
  · rw [hp]
    exact Option.some_ne_none p
  · obtain ⟨cur, hcur⟩ := hrun (hst.symm.trans h)
    rw [hcur]
    exact Option.some_ne_none cur

/-- The state the constructor leaves satisfies the invariant. -/
theorem pointersValid_init (restarted : Bool) (u : Thermocycler) :
    pointersValid (Thermocycler.Thermocycler restarted u) :=
  pointersValid_idle _ ProgramState.EOff rfl (fun p hp => absurd hp (Option.noConfusion))
    (by decide) (by decide) (by decide)

/-- The program state after `Stop` is Off or Stopped. -/
theorem Stop_state_cases (s : Thermocycler) :
    s.Stop.iProgramState = ProgramState.EOff ∨
    s.Stop.iProgramState = ProgramState.EStopped := by
  rw [Stop_state]
  split_ifs
  · exact Or.inl rfl
  · exact Or.inr rfl

/-- `Stop` establishes the invariant. -/
theorem pointersValid_Stop (s : Thermocycler) : pointersValid s.Stop := by
  have hp : ∀ p, s.Stop.ipProgram = some p → p.traversal ≠ [] :=
    fun p hp => absurd hp (Option.noConfusion)
  rcases Stop_state_cases s with h | h
  · exact pointersValid_idle _ _ h hp (by decide) (by decide) (by decide)
  · exact pointersValid_idle _ _ h hp (by decide) (by decide) (by decide)

/-- `Start` keeps the invariant. -/
theorem pointersValid_Start (s : Thermocycler) (h : pointersValid s) :
    pointersValid s.Start.2 := by
  unfold Thermocycler.Start
  split_ifs with h1 h2
  · exact h
  · exact h
  · cases hp : s.ipProgram with
    | none => rw [hp] at h1; exact absurd rfl h1
    | some p =>
      exact pointersValid_loaded _ ProgramState.ELidWait p rfl rfl (h.1 p hp)
        (fun hr => absurd hr (by decide))

/-- `SetProgram` with a program that yields a step establishes the invariant. -/
theorem pointersValid_SetProgram (s s1 : Thermocycler) (p : Cycle) (d : Option Cycle)
    (name : String) (lid : Int) (hy : p.traversal ≠ [])
    (h : s.SetProgram (some p) d name lid = some s1) : pointersValid s1 := by
  rw [SetProgram_some s s1 (some p) d name lid h]
  have hp : ∀ q, (Thermocycler.SetLidTarget
      { s.Stop with ipProgram := some p, ipDisplayCycle := d, iszProgName := name }
      lid).ipProgram = some q → q.traversal ≠ [] := by
    intro q hq
    have hq1 : some p = some q := hq
    cases hq1
    exact hy
  have hs : (Thermocycler.SetLidTarget
      { s.Stop with ipProgram := some p, ipDisplayCycle := d, iszProgName := name }
      lid).iProgramState = s.Stop.iProgramState := rfl
  rcases Stop_state_cases s with h | h
  · exact pointersValid_idle _ _ (hs.trans h) hp (by decide) (by decide) (by decide)
  · exact pointersValid_idle _ _ (hs.trans h) hp (by decide) (by decide) (by decide)

/-- `ProcessCommand` with a command whose program yields a step meets no null pointer and
keeps the invariant. -/
theorem pointersValid_ProcessCommand (s : Thermocycler) (c : SCommand)
    (h : pointersValid s)
    (hc : c.command = SCommandType.EStart → ∃ p, c.pProgram = some p ∧ p.traversal ≠ []) :
    ∃ s1, s.ProcessCommand c = some s1 ∧ pointersValid s1 := by
  by_cases h1 : c.command = SCommandType.EStart
  · obtain ⟨p, hp, hy⟩ := hc h1
    exact ⟨_, ProcessCommand_start s c p h1 hp,
      pointersValid_Start _ (pointersValid_SetProgram s _ p _ c.name.chars c.lidTemp hy
        (SetProgram_fits s _ _ _ _ c.name.fits))⟩
  · unfold Thermocycler.ProcessCommand
    rw [if_neg h1]
    split_ifs with h2
    · exact ⟨_, rfl, pointersValid_Stop s⟩
    · exact ⟨_, rfl, h⟩

/-- `CheckPower` keeps the invariant. -/
theorem pointersValid_CheckPower (s : Thermocycler) (power : Bool) (now : Nat)
    (h : pointersValid s) : pointersValid (s.CheckPower power now) := by
  rcases CheckPower_cases s power now with ⟨_, _, hc⟩ | ⟨_, _, hc⟩ | ⟨_, hc⟩
  · rw [hc]
    exact pointersValid_idle _ ProgramState.EStartup rfl h.1 (by decide) (by decide)
      (by decide)
  · rw [hc]
    exact pointersValid_idle _ ProgramState.EOff rfl
      (fun p hp => absurd hp (Option.noConfusion)) (by decide) (by decide) (by decide)
  · rw [hc]
    exact h

/-- The `switch` statement of `Loop` meets no null pointer in a state that satisfies the
invariant, and keeps the invariant. -/
theorem pointersValid_advanceProgram (s : Thermocycler) (t : TickInput)
    (h : pointersValid s) (ht : t.storedYields) :
    ∃ s3, s.advanceProgram t = some s3 ∧ pointersValid s3 := by
  cases hs : s.iProgramState with
  | EStartup =>
    have hStopped : pointersValid { s with iProgramState := ProgramState.EStopped } :=
      pointersValid_idle _ ProgramState.EStopped rfl h.1 (by decide) (by decide) (by decide)
    unfold Thermocycler.advanceProgram
    rw [hs]
    dsimp only
    by_cases h1 : ulSub t.millis s.iProgramStartTimeMs > STARTUP_DELAY
    · rw [if_pos h1]
      by_cases h2 : s.iRestarted = false ∧ t.commandReceived = false
      · rw [if_pos h2]
        cases hc : t.storedProgram with
        | none => exact ⟨_, rfl, hStopped⟩
        | some c => exact pointersValid_ProcessCommand _ c hStopped (ht c hc)
      · rw [if_neg h2]
        exact ⟨_, rfl, hStopped⟩
    · rw [if_neg h1]
      exact ⟨s, rfl, h⟩
  | ELidWait =>
    by_cases h1 : s.iLidTemp ≥ s.iTargetLidTemp - LID_START_TOLERANCE
    · cases hp : s.ipProgram with
      | none => exact absurd hp (h.2.1 (Or.inl hs))
      | some p =>
        obtain ⟨st, rest, htr⟩ := List.exists_cons_of_ne_nil (h.1 p hp)
        have hFirst := first_step_of_traversal p st rest htr
        rw [advanceProgram_lidwait_enter s t p st hs hp hFirst h1]
        refine ⟨_, rfl, pointersValid_loaded _ ProgramState.ERunning
          p.BeginIteration.GetNextStep.2 rfl rfl ?_ (fun _ => ⟨st, rfl⟩)⟩
        rw [GetNextStep_traversal]
        exact h.1 p hp
    · unfold Thermocycler.advanceProgram
      rw [hs]
      dsimp only
      rw [if_neg h1]
      exact ⟨s, rfl, h⟩
  | ERunning =>
    cases hcur : s.ipCurrentStep with
    | none => exact absurd hcur (h.2.2 hs)
    | some cur =>
      cases hp : s.ipProgram with
      | none => exact absurd hp (h.2.1 (Or.inr (Or.inl hs)))
      | some p =>
        have hy : p.GetNextStep.2.traversal ≠ [] := by
          rw [GetNextStep_traversal]
          exact h.1 p hp
        have hadv := advanceProgram_running s t cur hs hcur
        by_cases h1 : s.iRamping = true ∧
            absf (cur.GetTemp - s.iPlateTemp) ≤ CYCLE_START_TOLERANCE
        · rw [if_pos h1] at hadv
          exact ⟨_, hadv, pointersValid_of_fields s _ rfl rfl rfl h⟩
        · rw [if_neg h1] at hadv
          by_cases h2 : s.iRamping = false ∧ cur.IsFinal = false ∧
              ulSub t.millis s.iCycleStartTime > ulMul cur.GetDuration 1000
          · rw [if_pos h2, hp] at hadv
            dsimp only at hadv
            cases hn : p.GetNextStep.1 with
            | none =>
              rw [hn] at hadv
              dsimp only at hadv
              exact ⟨_, hadv, pointersValid_loaded _ ProgramState.EComplete p.GetNextStep.2
                rfl rfl hy (fun hr => absurd hr (by decide))⟩
            | some nxt =>
              rw [hn] at hadv
              dsimp only at hadv
              by_cases h3 : nxt.GetDuration = 0
              · rw [if_pos h3] at hadv
                exact ⟨_, hadv, pointersValid_loaded _ ProgramState.EComplete
                  p.GetNextStep.2 rfl rfl hy (fun hr => absurd hr (by decide))⟩
              · rw [if_neg h3] at hadv
                exact ⟨_, hadv, pointersValid_loaded _ ProgramState.ERunning
                  p.GetNextStep.2 hs rfl hy (fun _ => ⟨nxt, rfl⟩)⟩
          · rw [if_neg h2] at hadv
            exact ⟨s, hadv, h⟩
  | EComplete =>
    unfold Thermocycler.advanceProgram
    rw [hs]
    dsimp only
    cases hcur : s.ipCurrentStep with
    | none => exact ⟨s, rfl, h⟩
    | some cur =>
      dsimp only
      split_ifs
      · exact ⟨_, rfl, pointersValid_of_fields s _ hs.symm rfl
          (by first | rfl | exact hcur.symm) h⟩
      · exact ⟨s, rfl, h⟩
  | EOff =>
    unfold Thermocycler.advanceProgram
    rw [hs]
    exact ⟨s, rfl, h⟩
  | EStopped =>
    unfold Thermocycler.advanceProgram
    rw [hs]
    exact ⟨s, rfl, h⟩
  | EError =>
    unfold Thermocycler.advanceProgram
    rw [hs]
    exact ⟨s, rfl, h⟩
  | EClear =>
    unfold Thermocycler.advanceProgram
    rw [hs]
    exact ⟨s, rfl, h⟩

/-- A `Loop` tick in a state that satisfies the invariant meets no null pointer and keeps
the invariant. -/
theorem pointersValid_Loop (s : Thermocycler) (t : TickInput)
    (h : pointersValid s) (ht : t.storedYields) :
    ∃ s1, s.Loop t = some s1 ∧ pointersValid s1 := by
  have hc := pointersValid_CheckPower s t.externalPower t.millis h
  have hs : pointersValid
      { s.CheckPower t.externalPower t.millis with
        iPlateTemp := t.plateTemp, iLidTemp := t.lidTemp } :=
    pointersValid_of_fields _ _ rfl rfl rfl hc
  obtain ⟨s3, h3, hv⟩ := pointersValid_advanceProgram _ t hs ht
  exact ⟨_, Loop_of_advance s s3 t h3, pointersValid_of_fields s3 _ rfl rfl rfl hv⟩

/-- Every reachable state satisfies the invariant. -/
theorem Reachable_pointersValid (s : Thermocycler) (h : Reachable s) : pointersValid s := by
  induction h with
  | init restarted u => exact pointersValid_init restarted u
  | loop s s1 t _ ht hL ih =>
    obtain ⟨s2, h2, hv⟩ := pointersValid_Loop s t ih ht
    rw [hL] at h2
    cases h2
    exact hv
  | start s _ ih => exact pointersValid_Start s ih
  | stop s _ _ => exact pointersValid_Stop s
  | setProgram s s1 p d name lid _ hy hS _ =>
    exact pointersValid_SetProgram s s1 p d name lid hy hS

/-! ## The display update -/

/-- After the control part of a tick, a Complete state without a current step has the plate
actuator off. -/
theorem Loop_idleWhenDone (s s1 : Thermocycler) (t : TickInput) (h : s.Loop t = some s1) :
    idleWhenDone s1 := by
  obtain ⟨s3, _, rfl⟩ := Loop_some s s1 t h
  intro hState hStep
  have hState3 : s3.iProgramState = ProgramState.EComplete := hState
  have hStep3 : s3.ipCurrentStep = none := hStep
  have hIn : ¬ (s3.iProgramState = ProgramState.ERunning ∨
      (s3.iProgramState = ProgramState.EComplete ∧ s3.ipCurrentStep ≠ none)) := by
    rintro (h0 | ⟨_, h0⟩)
    · rw [hState3] at h0; exact absurd h0 (by decide)
    · exact h0 hStep3
  exact (ControlPeltier_inactive s3 t.platePidLaw hIn).2.1

/-- A state that is not Complete satisfies `idleWhenDone`. -/
theorem idleWhenDone_of_state (s : Thermocycler) (st : ProgramState)
    (hst : s.iProgramState = st) (h : st ≠ ProgramState.EComplete) : idleWhenDone s :=
  fun hc _ => absurd (hst.symm.trans hc) h

/-- `Start` keeps `idleWhenDone`. -/
theorem idleWhenDone_Start (s : Thermocycler) (h : idleWhenDone s) :
    idleWhenDone s.Start.2 := by
  unfold Thermocycler.Start
  split_ifs with h1 h2
  · exact h
  · exact h
  · exact idleWhenDone_of_state _ ProgramState.ELidWait rfl (by decide)

/-- `Stop` establishes `idleWhenDone`. -/
theorem idleWhenDone_Stop (s : Thermocycler) : idleWhenDone s.Stop := by
  rcases Stop_state_cases s with h | h
  · exact idleWhenDone_of_state _ _ h (by decide)
  · exact idleWhenDone_of_state _ _ h (by decide)

/-- `SetProgram` establishes `idleWhenDone`. -/
theorem idleWhenDone_SetProgram (s s1 : Thermocycler) (p d : Option Cycle) (name : String)
    (lid : Int) (h : s.SetProgram p d name lid = some s1) : idleWhenDone s1 := by
  rw [SetProgram_some s s1 p d name lid h]
  have hs : (Thermocycler.SetLidTarget
      { s.Stop with ipProgram := p, ipDisplayCycle := d, iszProgName := name }
      lid).iProgramState = s.Stop.iProgramState := rfl
  rcases Stop_state_cases s with h0 | h0
  · exact idleWhenDone_of_state _ _ (hs.trans h0) (by decide)
  · exact idleWhenDone_of_state _ _ (hs.trans h0) (by decide)

/-- Every reachable state satisfies `idleWhenDone`. -/
theorem Reachable_idleWhenDone (s : Thermocycler) (h : Reachable s) : idleWhenDone s := by
  induction h with
  | init restarted u => exact idleWhenDone_of_state _ ProgramState.EOff rfl (by decide)
  | loop s s1 t _ _ hL _ => exact Loop_idleWhenDone s s1 t hL
  | start s _ ih => exact idleWhenDone_Start s ih
  | stop s _ _ => exact idleWhenDone_Stop s
  | setProgram s s1 p d name lid _ _ hS _ =>
    exact idleWhenDone_SetProgram s s1 (some p) d name lid hS

/-- `Display::DisplayState` meets no null pointer when there is a current step in Running
and the plate actuator is off in a Complete state without a current step. -/
theorem DisplayState_ok (s : Thermocycler)
    (hStep : s.iProgramState = ProgramState.ERunning → s.ipCurrentStep ≠ none)
    (hDone : idleWhenDone s) : Display.DisplayState s = Except.ok () := by
  have hHold : s.GetThermalState = ThermalState.EHolding → s.ipCurrentStep = none →
      s.iProgramState = ProgramState.EComplete → False := by
    intro hth hcur hst
    have hdir := hDone hst hcur
    unfold Thermocycler.GetThermalState at hth
    rw [if_pos hdir] at hth
    exact absurd hth (by decide)
  unfold Display.DisplayState Thermocycler.GetProgramState Thermocycler.GetCurrentStep
  cases hs : s.iProgramState <;> dsimp only
  case ERunning =>
    cases hth : s.GetThermalState <;> dsimp only
    cases hcur : s.ipCurrentStep with
    | none => exact absurd hcur (hStep hs)
    | some cur => rfl
  case EComplete =>
    cases hth : s.GetThermalState <;> dsimp only
    cases hcur : s.ipCurrentStep with
    | none => exact absurd (hHold hth hcur hs) id
    | some cur => rfl

/-- `Display::Update` does not meet a null current step when there is a current step in
Running and the plate actuator is off in a Complete state without a current step: the only
null pointer it can meet is the display cycle. -/
theorem Display_Update_step (s : Thermocycler)
    (hStep : s.iProgramState = ProgramState.ERunning → s.ipCurrentStep ≠ none)
    (hDone : idleWhenDone s) :
    Display.Update s ≠ Except.error NullPointer.currentStep ∧
    (s.ipDisplayCycle ≠ none → Display.Update s = Except.ok ()) := by
  have hDS := DisplayState_ok s hStep hDone
  unfold Display.Update Thermocycler.GetProgramState Thermocycler.GetCurrentStep
  dsimp only
  rw [hDS]
  dsimp only
  by_cases h1 : s.iProgramState = ProgramState.ERunning ∨
      s.iProgramState = ProgramState.EComplete ∨
      s.iProgramState = ProgramState.ELidWait ∨ s.iProgramState = ProgramState.EStopped
  · rw [if_pos h1]
    by_cases h2 : s.iProgramState = ProgramState.ERunning
    · rw [if_pos h2]
      cases hcur : s.ipCurrentStep with
      | none => exact absurd hcur (hStep h2)
      | some cur =>
        dsimp only
        by_cases h3 : cur.IsFinal = false
        · rw [if_pos h3]
          unfold Display.DisplayCycle Thermocycler.GetNumCycles
          cases hd : s.ipDisplayCycle with
          | none =>
            refine ⟨fun h => ?_, fun h => absurd rfl h⟩
            have h4 : (Except.error NullPointer.displayCycle : Except NullPointer Unit) =
                Except.error NullPointer.currentStep := h
            cases h4
          | some d => exact ⟨fun h => Except.noConfusion h, fun _ => rfl⟩
        · rw [if_neg h3]
          exact ⟨fun h => Except.noConfusion h, fun _ => rfl⟩
    · rw [if_neg h2]
      exact ⟨fun h => Except.noConfusion h, fun _ => rfl⟩
  · rw [if_neg h1]
    exact ⟨fun h => Except.noConfusion h, fun _ => rfl⟩

/-! ## The display cycle pointer -/

/-- `ProcessCommand` leaves the display cycle pointer non-null. -/
theorem ProcessCommand_displayCycle (s s1 : Thermocycler) (c : SCommand)
    (h : s.ProcessCommand c = some s1) (hd : s.ipDisplayCycle ≠ none) :
    s1.ipDisplayCycle ≠ none := by
  by_cases h1 : c.command = SCommandType.EStart
  · cases hp : c.pProgram with
    | none =>
      unfold Thermocycler.ProcessCommand at h
      rw [if_pos h1, hp] at h
      exact absurd h (by simp)
    | some p =>
      rw [ProcessCommand_start s c p h1 hp] at h
      simp only [Option.some.injEq] at h
      subst h
      have h2 : (Thermocycler.SetLidTarget
          { s.Stop with ipProgram := some p,
                        ipDisplayCycle :=
                          some (Thermocycler.findDisplayCycle p.iComponents 0 p),
                        iszProgName := c.name.chars } c.lidTemp).Start.2.ipDisplayCycle =
          some (Thermocycler.findDisplayCycle p.iComponents 0 p) := by
        unfold Thermocycler.Start
        split_ifs <;> rfl
      rw [h2]
      exact Option.some_ne_none _
  · unfold Thermocycler.ProcessCommand at h
    rw [if_neg h1] at h
    split_ifs at h with h2
    · simp only [Option.some.injEq] at h
      subst h
      exact hd
    · simp only [Option.some.injEq] at h
      subst h
      exact hd

/-- The `switch` statement of `Loop` leaves the display cycle pointer non-null. -/
theorem advanceProgram_displayCycle (s s3 : Thermocycler) (t : TickInput)
    (h : s.advanceProgram t = some s3) (hd : s.ipDisplayCycle ≠ none) :
    s3.ipDisplayCycle ≠ none := by
  unfold Thermocycler.advanceProgram at h
  split at h
  next hs =>
    by_cases h1 : ulSub t.millis s.iProgramStartTimeMs > STARTUP_DELAY
    · simp only [h1, ↓reduceIte] at h
      by_cases h2 : s.iRestarted = false ∧ t.commandReceived = false
      · simp only [h2, and_self, ↓reduceIte] at h
        cases hc : t.storedProgram with
        | none =>
          simp only [hc, Option.some.injEq] at h
          subst h
          exact hd
        | some c =>
          simp only [hc] at h
          exact ProcessCommand_displayCycle _ s3 c h hd
      · simp only [h2, ↓reduceIte, Option.some.injEq] at h
        subst h
        exact hd
    · simp only [h1, ↓reduceIte, Option.some.injEq] at h
      subst h
      exact hd
  next hs =>
    by_cases h1 : s.iLidTemp ≥ s.iTargetLidTemp - LID_START_TOLERANCE
    · simp only [h1, ↓reduceIte] at h
      cases hp : s.ipProgram with
      | none => simp [hp] at h
      | some p =>
        simp only [hp] at h
        cases hn : p.BeginIteration.GetNextStep.1 with
        | none => simp [hn] at h
        | some st =>
          simp only [hn, Option.some.injEq] at h
          subst h
          exact hd
    · simp only [h1, ↓reduceIte, Option.some.injEq] at h
      subst h
      exact hd
  next hs =>
    cases hcur : s.ipCurrentStep with
    | none => simp [hcur] at h
    | some cur =>
      simp only [hcur] at h
      by_cases h1 : s.iRamping = true ∧
          absf (cur.GetTemp - s.iPlateTemp) ≤ CYCLE_START_TOLERANCE
      · simp only [h1, and_self, ↓reduceIte, Option.some.injEq] at h
        subst h
        exact hd
      · rw [if_neg h1] at h
        by_cases h2 : s.iRamping = false ∧ cur.IsFinal = false ∧
            ulSub t.millis s.iCycleStartTime > ulMul cur.GetDuration 1000
        · rw [if_pos h2] at h
          cases hp : s.ipProgram with
          | none => simp [hp] at h
          | some p =>
            simp only [hp] at h
            cases hn : p.GetNextStep.1 with
            | none =>
              simp only [hn, Option.some.injEq] at h
              subst h
              exact hd
            | some nxt =>
              simp only [hn] at h
              by_cases h3 : nxt.GetDuration = 0
              · simp only [h3, ↓reduceIte, Option.some.injEq] at h
                subst h
                exact hd
              · simp only [h3, ↓reduceIte, Option.some.injEq] at h
                subst h
                exact hd
        · rw [if_neg h2] at h
          simp only [Option.some.injEq] at h
          subst h
          exact hd
  next hs =>
    cases hcur : s.ipCurrentStep with
    | none =>
      simp only [hcur, Option.some.injEq] at h
      subst h
      exact hd
    | some cur =>
      simp only [hcur] at h
      split_ifs at h
      all_goals
        simp only [Option.some.injEq] at h
        subst h
        exact hd
  next =>
    simp only [Option.some.injEq] at h
    subst h
    exact hd

/-- The control part of a tick leaves the display cycle pointer non-null. -/
theorem Loop_displayCycle (s s1 : Thermocycler) (t : TickInput) (h : s.Loop t = some s1)
    (hd : s.ipDisplayCycle ≠ none) : s1.ipDisplayCycle ≠ none := by
  obtain ⟨s3, h3, rfl⟩ := Loop_some s s1 t h
  show s3.ipDisplayCycle ≠ none
  refine advanceProgram_displayCycle _ s3 t h3 ?_
  rcases CheckPower_cases s t.externalPower t.millis with ⟨_, _, hc⟩ | ⟨_, _, hc⟩ | ⟨_, hc⟩
  · rw [hc]; exact hd
  · rw [hc]; exact hd
  · rw [hc]; exact hd

/-! ## The whole tick -/

/-- The whole tick after its control part, when the display cycle pointer is not null: with
no command pending it returns the state the control part leaves, and the pending commands
are dispatched in that state. -/
theorem LoopAndProcess_after (s s1 : Thermocycler) (t : TickInput)
    (hL : s.Loop t = some s1)
    (hStep : s1.iProgramState = ProgramState.ERunning → s1.ipCurrentStep ≠ none)
    (hDisplay : s.ipDisplayCycle ≠ none) :
    LoopAndProcess s t [] = some s1 ∧
    ∀ pending, LoopAndProcess s t pending = SerialControl.Process s1 pending := by
  have hD := (Display_Update_step s1 hStep (Loop_idleWhenDone s s1 t hL)).2
    (Loop_displayCycle s s1 t hL hDisplay)
  exact ⟨LoopAndProcess_of_Loop s s1 t [] hL hD,
    fun pending => LoopAndProcess_of_Loop s s1 t pending hL hD⟩

/-- The dispatch of one Stop command is `Stop`. -/
theorem Process_stop (s : Thermocycler) :
    SerialControl.Process s [stopCommand] = some s.Stop := rfl

/-- C8 as stated fails, twice. A tick in a Running state that is still ramping, hence in
none of the situations in which the step advances, leaves Running when its power check
observes external power absent: the state becomes Off and the current step null. And a tick
with power present at whose end the serial collaborator dispatches a Stop command leaves
Running too: the state becomes Stopped and the current step null. -/
theorem running_tick_counterexample :
    runningState.iProgramState = ProgramState.ERunning ∧
    runningState.iRamping = true ∧
    runningState.ipCurrentStep = some { iTemp := 95, iDuration := 30, iFinal := false } ∧
    (LoopAndProcess runningState (tickOf false 1000 25 25) []).map
      Thermocycler.GetProgramState = some ProgramState.EOff ∧
    (LoopAndProcess runningState (tickOf false 1000 25 25) []).map
      Thermocycler.GetCurrentStep = some none ∧
    ∃ s2, LoopAndProcess runningState (tickOf true 1000 25 100) [stopCommand] = some s2 ∧
      s2.iProgramState = ProgramState.EStopped ∧ s2.ipCurrentStep = none := by
  refine ⟨rfl, rfl, rfl, rfl, rfl, ?_⟩
  obtain ⟨s1, hL, h1, _, h3⟩ :=
    (Loop_running_cases runningState (tickOf true 1000 25 100)
      { iTemp := 95, iDuration := 30, iFinal := false } rfl rfl rfl).2
      (fun h => absurd h.1 (by decide))
  have hStep : s1.iProgramState = ProgramState.ERunning → s1.ipCurrentStep ≠ none := by
    intro _
    rw [h1]
    exact Option.some_ne_none _
  have hAll := (LoopAndProcess_after runningState s1 (tickOf true 1000 25 100) hL hStep
    (Option.some_ne_none scenarioProgram)).2 [stopCommand]
  rw [Process_stop] at hAll
  refine ⟨s1.Stop, hAll, ?_, rfl⟩
  rw [Stop_state, h3]
  rfl

/-- C8 amended: on a tick that observes external power present, in every Running state with
current step `cur` and a display cycle installed, the tick, up to the dispatch of the
commands the serial collaborator has pending at its end, does the following (it is the whole
tick when no command is pending; the pending commands are then dispatched in the state
described). If the state is holding (not ramping), `cur` is not final, the hold time
`millis() - iCycleStartTime` exceeds `duration * 1000` ms (both in 32-bit unsigned
arithmetic) and a program `p` is loaded, the current step is replaced by the next step of
the iterator of `p`, the program state is Complete if and only if that next step is null or
has hold duration 0, a non-null next step gives the plate target its temperature, and a
non-null next step of non-zero duration leaves the state Running. In every other Running
situation the step and the iterator do not advance and the state stays Running. -/
theorem running_tick (s : Thermocycler) (t : TickInput) (cur : Step)
    (hState : s.iProgramState = ProgramState.ERunning)
    (hPower : t.externalPower = true)
    (hCur : s.ipCurrentStep = some cur)
    (hDisplay : s.ipDisplayCycle ≠ none) :
    (∀ p, s.ipProgram = some p → s.iRamping = false → cur.IsFinal = false →
      ulSub t.millis s.iCycleStartTime > ulMul cur.GetDuration 1000 →
      ∃ s1, LoopAndProcess s t [] = some s1 ∧
        (∀ pending, LoopAndProcess s t pending = SerialControl.Process s1 pending) ∧
        s1.ipCurrentStep = p.GetNextStep.1 ∧
        s1.ipProgram = some p.GetNextStep.2 ∧
        (s1.iProgramState = ProgramState.EComplete ↔
          (p.GetNextStep.1 = none ∨ ∃ n, p.GetNextStep.1 = some n ∧ n.GetDuration = 0)) ∧
        (∀ n, p.GetNextStep.1 = some n →
          s1.iTargetPlateTemp = n.GetTemp ∧
          (n.GetDuration ≠ 0 → s1.iProgramState = ProgramState.ERunning))) ∧
    (¬ (s.iRamping = false ∧ cur.IsFinal = false ∧
        ulSub t.millis s.iCycleStartTime > ulMul cur.GetDuration 1000) →
      ∃ s1, LoopAndProcess s t [] = some s1 ∧
        (∀ pending, LoopAndProcess s t pending = SerialControl.Process s1 pending) ∧
        s1.ipCurrentStep = s.ipCurrentStep ∧ s1.ipProgram = s.ipProgram ∧
        s1.iProgramState = ProgramState.ERunning) := by
  obtain ⟨hAdv, hStay⟩ := Loop_running_cases s t cur hState hPower hCur
  constructor
  · intro p hp hRamp hFinal hTime
    obtain ⟨s1, hL, a1, a2, a3, a4⟩ := hAdv p hp hRamp hFinal hTime
    have hStep : s1.iProgramState = ProgramState.ERunning → s1.ipCurrentStep ≠ none := by
      intro hr hn
      rw [a1] at hn
      have hc := a3.mpr (Or.inl hn)
      rw [hr] at hc
      exact absurd hc (by decide)
    obtain ⟨b1, b2⟩ := LoopAndProcess_after s s1 t hL hStep hDisplay
    exact ⟨s1, b1, b2, a1, a2, a3, a4⟩
  · intro hNot
    obtain ⟨s1, hL, a1, a2, a3⟩ := hStay hNot
    have hStep : s1.iProgramState = ProgramState.ERunning → s1.ipCurrentStep ≠ none := by
      intro _
      rw [a1, hCur]
      exact Option.some_ne_none cur
    obtain ⟨b1, b2⟩ := LoopAndProcess_after s s1 t hL hStep hDisplay
    exact ⟨s1, b1, b2, a1, a2, a3⟩

/-- C8 amended, at a state holding the first scenario step since clock value 0, on a tick
at clock value 31000 with no command pending: the second step becomes current and the state
stays Running. -/
theorem running_tick_witness :
    holdingState.iProgramState = ProgramState.ERunning ∧
    (tickOf true 31000 95 100).externalPower = true ∧
    holdingState.ipCurrentStep = some { iTemp := 95, iDuration := 30, iFinal := false } ∧
    holdingState.ipDisplayCycle ≠ none ∧
    ∃ s1, LoopAndProcess holdingState (tickOf true 31000 95 100) [] = some s1 ∧
      s1.ipCurrentStep = some { iTemp := 95, iDuration := 30, iFinal := false } ∧
      s1.ipProgram = some { scenarioProgram with iPosition := 2 } ∧
      s1.iTargetPlateTemp = 95 ∧
      s1.iProgramState = ProgramState.ERunning :=
  ⟨rfl, rfl, rfl, Option.some_ne_none scenarioProgram,
    match (running_tick holdingState (tickOf true 31000 95 100)
        { iTemp := 95, iDuration := 30, iFinal := false } rfl rfl rfl
        (Option.some_ne_none scenarioProgram)).1
        { scenarioProgram with iPosition := 1 } rfl rfl rfl (by decide) with
    | ⟨s1, h, _, h1, h2, _, h4⟩ =>
      ⟨s1, h, h1, h2, (h4 { iTemp := 95, iDuration := 30, iFinal := false } rfl).1,
        (h4 { iTemp := 95, iDuration := 30, iFinal := false } rfl).2 (by decide)⟩⟩

/-- C17 as stated fails: in the LidWait state of the scenario, at a tick with power present
that reads the lid at its target of 100 degrees, and at whose end the serial collaborator
dispatches a Stop command, the program state after the tick is Stopped, not Running, and the
current step is null. -/
theorem lidwait_tick_counterexample :
    lidWaitState.iProgramState = ProgramState.ELidWait ∧
    (tickOf true 2000 25 100).externalPower = true ∧
    (tickOf true 2000 25 100).lidTemp ≥ lidWaitState.iTargetLidTemp - 1 ∧
    ∃ s2, LoopAndProcess lidWaitState (tickOf true 2000 25 100) [stopCommand] = some s2 ∧
      s2.iProgramState = ProgramState.EStopped ∧
      s2.iProgramState ≠ ProgramState.ERunning ∧
      s2.ipCurrentStep = none := by
  have hLid : (tickOf true 2000 25 100).lidTemp ≥ lidWaitState.iTargetLidTemp - 1 := by
    show (100 : ℚ) ≥ 100 - 1
    norm_num
  obtain ⟨s1, hL, h1, _, h3⟩ := Loop_lidwait_cases lidWaitState (tickOf true 2000 25 100)
    scenarioProgram { iTemp := 95, iDuration := 30, iFinal := false } rfl rfl rfl
    (first_step_of_traversal _ _ _ rfl)
  have hRun : s1.iProgramState = ProgramState.ERunning := h1.mpr hLid
  have hStep : s1.iProgramState = ProgramState.ERunning → s1.ipCurrentStep ≠ none := by
    intro _
    rw [(h3 hLid).1]
    exact Option.some_ne_none _
  have hAll := (LoopAndProcess_after lidWaitState s1 (tickOf true 2000 25 100) hL hStep
    (Option.some_ne_none scenarioProgram)).2 [stopCommand]
  rw [Process_stop] at hAll
  have hStopped : s1.Stop.iProgramState = ProgramState.EStopped := by
    rw [Stop_state, hRun]
    rfl
  refine ⟨rfl, rfl, hLid, s1.Stop, hAll, hStopped, ?_, rfl⟩
  rw [hStopped]
  decide

/-- C17 amended: for every LidWait state with a program loaded whose iterator yields a first
step `st` after `BeginIteration`, and a display cycle installed, a tick with power present,
up to the dispatch of the commands the serial collaborator has pending at its end (the whole
tick when no command is pending; the pending commands are then dispatched in the state
described), moves the program state to Running if and only if lidTemp >= lidTarget - 1.0;
otherwise the state stays LidWait and the current step is untouched; when it moves, the
current step is `st`, the plate target is the temperature of `st`, the ramping flag is true,
the elapsed-ramp accumulators are zero, the has-cooled flag is false and the program start
time is the clock value of the tick. -/
theorem lidwait_tick (s : Thermocycler) (t : TickInput) (p : Cycle) (st : Step)
    (hState : s.iProgramState = ProgramState.ELidWait)
    (hPower : t.externalPower = true)
    (hProg : s.ipProgram = some p)
    (hFirst : p.BeginIteration.GetNextStep.1 = some st)
    (hDisplay : s.ipDisplayCycle ≠ none) :
    ∃ s1, LoopAndProcess s t [] = some s1 ∧
      (∀ pending, LoopAndProcess s t pending = SerialControl.Process s1 pending) ∧
      (s1.iProgramState = ProgramState.ERunning ↔ t.lidTemp ≥ s.iTargetLidTemp - 1) ∧
      (¬ t.lidTemp ≥ s.iTargetLidTemp - 1 →
        s1.iProgramState = ProgramState.ELidWait ∧ s1.ipCurrentStep = s.ipCurrentStep) ∧
      (t.lidTemp ≥ s.iTargetLidTemp - 1 →
        s1.ipCurrentStep = some st ∧
        s1.iTargetPlateTemp = st.GetTemp ∧
        s1.iRamping = true ∧
        s1.iElapsedRampDurationMs = 0 ∧
        s1.iElapsedRampDegrees = 0 ∧
        s1.iHasCooled = false ∧
        s1.iProgramStartTimeMs = t.millis) := by
  obtain ⟨s1, hL, a1, a2, a3⟩ := Loop_lidwait_cases s t p st hState hPower hProg hFirst
  have hStep : s1.iProgramState = ProgramState.ERunning → s1.ipCurrentStep ≠ none := by
    intro hr
    rw [(a3 (a1.mp hr)).1]
    exact Option.some_ne_none st
  obtain ⟨b1, b2⟩ := LoopAndProcess_after s s1 t hL hStep hDisplay
  exact ⟨s1, b1, b2, a1, a2, a3⟩

/-- C17 amended, on the scenario program with lid target 100, at a tick with lid temperature
99.5 and no command pending. -/
theorem lidwait_tick_witness :
    lidWaitState.iProgramState = ProgramState.ELidWait ∧
    lidWaitState.ipProgram = some scenarioProgram ∧
    lidWaitState.ipDisplayCycle ≠ none ∧
    ∃ s1, LoopAndProcess lidWaitState (tickOf true 2000 25 (199 / 2)) [] = some s1 ∧
      s1.iProgramState = ProgramState.ERunning ∧
      s1.ipCurrentStep = some { iTemp := 95, iDuration := 30, iFinal := false } ∧
      s1.iTargetPlateTemp = 95 ∧
      s1.iRamping = true ∧
      s1.iProgramStartTimeMs = 2000 := by
  have hLid : (tickOf true 2000 25 (199 / 2)).lidTemp ≥ lidWaitState.iTargetLidTemp - 1 := by
    show (199 / 2 : ℚ) ≥ 100 - 1
    norm_num
  obtain ⟨s1, h, _, h1, _, h3⟩ := lidwait_tick lidWaitState (tickOf true 2000 25 (199 / 2))
    scenarioProgram { iTemp := 95, iDuration := 30, iFinal := false } rfl rfl rfl
    (first_step_of_traversal _ _ _ rfl) (Option.some_ne_none scenarioProgram)
  obtain ⟨k1, k2, k3, _, _, _, k7⟩ := h3 hLid
  exact ⟨rfl, rfl, Option.some_ne_none scenarioProgram, s1, h, h1.mpr hLid, k1, k2, k3, k7⟩

/-! ## Reachable states and null pointers -/

/-- `ProcessCommand` with a command whose program yields a step takes a reachable state to
a reachable state. -/
theorem Reachable_ProcessCommand (s : Thermocycler) (c : SCommand) (h : Reachable s)
    (hc : c.command = SCommandType.EStart → ∃ p, c.pProgram = some p ∧ p.traversal ≠ []) :
    ∃ s1, s.ProcessCommand c = some s1 ∧ Reachable s1 := by
  by_cases h1 : c.command = SCommandType.EStart
  · obtain ⟨p, hp, hy⟩ := hc h1
    exact ⟨_, ProcessCommand_start s c p h1 hp,
      Reachable.start _ (Reachable.setProgram s _ p _ c.name.chars c.lidTemp h hy
        (SetProgram_fits s _ _ _ _ c.name.fits))⟩
  · unfold Thermocycler.ProcessCommand
    rw [if_neg h1]
    split_ifs with h2
    · exact ⟨_, rfl, Reachable.stop s h⟩
    · exact ⟨_, rfl, h⟩

/-- The dispatch of pending commands whose programs yield a step takes a reachable state to
a reachable state. -/
theorem Reachable_Process (pending : List SCommand) :
    ∀ s : Thermocycler, Reachable s →
      (∀ c ∈ pending, c.command = SCommandType.EStart →
        ∃ p, c.pProgram = some p ∧ p.traversal ≠ []) →
      ∃ s2, SerialControl.Process s pending = some s2 ∧ Reachable s2 := by
  induction pending with
  | nil => exact fun s h _ => ⟨s, rfl, h⟩
  | cons c rest ih =>
    intro s h hc
    obtain ⟨s1, h1, hR⟩ := Reachable_ProcessCommand s c h (hc c (List.mem_cons_self c rest))
    obtain ⟨s2, h2, hR2⟩ := ih s1 hR (fun c1 hm => hc c1 (List.mem_cons_of_mem c hm))
    refine ⟨s2, ?_, hR2⟩
    unfold SerialControl.Process
    rw [h1]
    exact h2

/-- C24: in every state reachable from the state the constructor leaves by any sequence of
`Loop`, `Start`, `Stop` and `SetProgram` calls with programs whose iteration yields at least
one step, a program is loaded whenever the program state is LidWait, Running or Complete,
and the current step is non-null whenever the program state is Running. So the control part
of a `Loop` tick in such a state returns, never meeting a null program in LidWait or a null
current step in Running, and `Display::Update` never meets a null current step: the only
null pointer it can meet is the display cycle, and with a display cycle installed the whole
tick, the dispatch of the pending commands included, returns a reachable state. -/
theorem reachable_no_null (s : Thermocycler) (h : Reachable s) :
    ((s.iProgramState = ProgramState.ELidWait ∨ s.iProgramState = ProgramState.ERunning ∨
        s.iProgramState = ProgramState.EComplete) → s.ipProgram ≠ none) ∧
    (s.iProgramState = ProgramState.ERunning → s.ipCurrentStep ≠ none) ∧
    (∀ t : TickInput, t.storedYields →
      ∃ s1, s.Loop t = some s1 ∧ Reachable s1 ∧
        Display.Update s1 ≠ Except.error NullPointer.currentStep) ∧
    Display.Update s ≠ Except.error NullPointer.currentStep ∧
    (s.ipDisplayCycle ≠ none → Display.Update s = Except.ok ()) ∧
    (∀ (t : TickInput) (pending : List SCommand), t.storedYields →
      (∀ c ∈ pending, c.command = SCommandType.EStart →
        ∃ p, c.pProgram = some p ∧ p.traversal ≠ []) →
      s.ipDisplayCycle ≠ none →
      ∃ s2, LoopAndProcess s t pending = some s2 ∧ Reachable s2) := by
  have hv := Reachable_pointersValid s h
  have hDisp := Display_Update_step s hv.2.2 (Reachable_idleWhenDone s h)
  refine ⟨hv.2.1, hv.2.2, fun t ht => ?_, hDisp.1, hDisp.2, fun t pending ht hc hd => ?_⟩
  · obtain ⟨s1, hL, hv1⟩ := pointersValid_Loop s t hv ht
    exact ⟨s1, hL, Reachable.loop s s1 t h ht hL,
      (Display_Update_step s1 hv1.2.2 (Loop_idleWhenDone s s1 t hL)).1⟩
  · obtain ⟨s1, hL, hv1⟩ := pointersValid_Loop s t hv ht
    obtain ⟨s2, h2, hR2⟩ := Reachable_Process pending s1 (Reachable.loop s s1 t h ht hL) hc
    refine ⟨s2, ?_, hR2⟩
    rw [(LoopAndProcess_after s s1 t hL hv1.2.2 hd).2 pending]
    exact h2

/-- C24 on the state reached from the constructor by a tick that observes external power,
then `SetProgram` with the scenario program, then `Start`: the state is LidWait, a program
is loaded, and the next tick returns. -/
theorem reachable_no_null_witness :
    ∃ s1 s2, initialState.Loop (tickOf true 0 25 25) = some s1 ∧
      s1.SetProgram (some scenarioProgram) (some scenarioProgram) "PCR" 100 = some s2 ∧
      Reachable s2.Start.2 ∧
      s2.Start.2.iProgramState = ProgramState.ELidWait ∧
      s2.Start.2.ipProgram ≠ none ∧
      ∃ s3, LoopAndProcess s2.Start.2 (tickOf true 1000 25 100) [] = some s3 := by
  have hL := Loop_of_advance initialState
    { initialState.CheckPower true 0 with iPlateTemp := 25, iLidTemp := 25 }
    (tickOf true 0 25 25) rfl
  have hTick : ∀ (now : Nat) (plate lid : ℚ), (tickOf true now plate lid).storedYields :=
    fun _ _ _ c hc => Option.noConfusion hc
  have hS := SetProgram_fits
    (((Thermocycler.ControlPeltier
      { initialState.CheckPower true 0 with iPlateTemp := 25, iLidTemp := 25 }
      (tickOf true 0 25 25).platePidLaw).ControlLid
      (tickOf true 0 25 25).lidPidLaw).UpdateEta (tickOf true 0 25 25).millis)
    (some scenarioProgram) (some scenarioProgram) "PCR" 100 (by decide)
  have hR := Reachable.start _
    (Reachable.setProgram _ _ scenarioProgram (some scenarioProgram) "PCR" 100
      (Reachable.loop _ _ _ (Reachable.init false blankState) (hTick 0 25 25) hL)
      (by decide) hS)
  obtain ⟨h1, _, _, _, _, h6⟩ := reachable_no_null _ hR
  obtain ⟨s3, h3, _⟩ := h6 (tickOf true 1000 25 100) [] (hTick 1000 25 100)
    (fun c hm => absurd hm (List.not_mem_nil c)) (Option.some_ne_none scenarioProgram)
  exact ⟨_, _, hL, hS, hR, rfl, h1 (Or.inl rfl), s3, h3⟩

/-! ## The lookup below the table -/

set_option maxRecDepth 100000 in
/-- C14, the failing input: the lid reading 100 of the analog pin gives 488 mV and a
resistance of 237 Ohms, below the last entry 337 of the lid table. The search of
`TableLookup` exhausts the table, stops at index 126, the table size, and the interpolation
reads the entry at index 126, outside the 126 entries of the table: the lookup has no
defined value, where the claim says it is monotone over the whole domain. -/
theorem lookup_out_of_table :
    Thermocycler.lidVoltageMv 100 = 488 ∧
    Thermocycler.lidResistance 100 = some 237 ∧
    (237 : Nat) < 337 ∧
    LID_RESISTANCE_TABLE.getLast? = some 337 ∧
    Thermocycler.tableScan (LID_RESISTANCE_TABLE.take 126) 237 = 126 ∧
    LID_RESISTANCE_TABLE.length = 126 ∧
    LID_RESISTANCE_TABLE[126]? = none ∧
    Thermocycler.TableLookup LID_RESISTANCE_TABLE 126 0 237 = none ∧
    initialState.ReadLidTemp 100 = none := by
  have hl : Thermocycler.TableLookup LID_RESISTANCE_TABLE 126 0 237 = none := by
    have := TableLookup_below LID_RESISTANCE_TABLE 0 237
      (by rw [lid_table_length]; norm_num)
      (fun x hx => lt_of_lt_of_le (by norm_num) (lid_table_ends.2.2 x hx))
    rwa [lid_table_length] at this
  have hr : Thermocycler.lidResistance 100 = some 237 := by decide
  refine ⟨by decide, hr, by norm_num, rfl, ?_, rfl, by decide, hl, ?_⟩
  · have := tableScan_eq_length LID_RESISTANCE_TABLE 237
      (fun x hx => lt_of_lt_of_le (by norm_num) (lid_table_ends.2.2 x hx))
    rw [lid_table_length] at this
    rw [show LID_RESISTANCE_TABLE.take 126 = LID_RESISTANCE_TABLE from rfl]
    exact this
  · unfold Thermocycler.ReadLidTemp
    rw [hr]
    dsimp only
    rw [lid_table_length, hl]

end OpenPCR
